import Mathlib

/-!
EcoEcho: scan history, local statistics, weight normalisation, dashboard merge, achievements.

A shallow embedding of the client-side core of EcoEcho:

* `src/services/achievementService.js` (catalog, progress, points ledger),
* `src/services/historyService.js` (scan history, aggregate statistics, anonymous merge),
* `src/utils/weightConverter.js` (`normalizeWeight`),
* `src/screens/DashboardScreen.js` (`mergedStats` inside `fetchData`),
* `src/screens/HomeScreen.js` and `src/context/AuthContext.js` (total weight, refresh throttle).

Conventions of the embedding.

* A JavaScript number is a rational (`ℚ`), or a natural number where the code only ever
  counts. Sums, maxima and the stored averages are exact. The binary rounding of a double is
  modelled (`roundToDouble`) where its effect is visible: in the quotient `weight / 1000`, which
  is rounded to one decimal afterwards and may sit next to a tie, and in the product
  `count * 0.1` that `updateUserWithLocalStats` keeps unrounded. Where a product `count * 0.1`
  or `count * 0.5` is rounded to one decimal at once, the decimal rounding absorbs the binary one
  (`tenths_product`) and the product is taken exactly.
* `AsyncStorage` is a record with one optional entry per key of the current user; `getItem`
  of a missing key is `none`, `JSON.parse (JSON.stringify v)` is `v`, and reads and writes succeed;
  `transferAnonymousData` and the definitions under `WithFaults` take the rejected operations
  as an argument.
* Every exported function reads the clock once; the reading is the argument `now`.
-/

namespace EcoEcho

/-! ## Dates -/

/-- A JavaScript `Date`: milliseconds since the epoch, counted in local civil time with a fixed
offset, so that a calendar day is a block of 86 400 000 ms. -/
structure JsDate where
  ms : Int
deriving DecidableEq, Repr

def msPerDay : Int := 86400000

def msPerHour : Int := 3600000

/-- The calendar day printed by `toDateString()`: two dates print the same string exactly when
they have the same day index. -/
def JsDate.toDateString (d : JsDate) : Int := d.ms / msPerDay

/-- The local hour `getHours()`, in `0 .. 23`. -/
def JsDate.getHours (d : JsDate) : Nat := ((d.ms % msPerDay) / msPerHour).toNat

/-- The date after `d.setDate(d.getDate() - 1)`. -/
def JsDate.previousDay (d : JsDate) : JsDate := ⟨d.ms - msPerDay⟩

/-! ## Numbers -/

/-- The value of `parseFloat(x.toFixed(1))`: `toFixed` strips the sign, takes the integer `n`
with `n / 10` closest to the magnitude (the larger `n` on a tie) and puts the sign back. -/
def toFixed1 (x : ℚ) : ℚ :=
  if x < 0 then -(((⌊(-x) * 10 + 1 / 2⌋ : ℤ) : ℚ) / 10) else ((⌊x * 10 + 1 / 2⌋ : ℤ) : ℚ) / 10

/-- The integer nearest to `q`, the even one when `q` lies midway between two integers. -/
def roundHalfEven (q : ℚ) : ℤ :=
  if q - (⌊q⌋ : ℤ) < 1 / 2 then ⌊q⌋
  else if 1 / 2 < q - (⌊q⌋ : ℤ) then ⌊q⌋ + 1
  else if ⌊q⌋ % 2 = 0 then ⌊q⌋ else ⌊q⌋ + 1

/-- The double that an arithmetic operation with exact result `x` returns (IEEE 754 binary64,
round to nearest, ties to even): `x` is scaled by the power of two that brings its magnitude
into `[2^52, 2^53)`, rounded to an integer and scaled back. The exponent is not bounded; the
values rounded here lie far inside the range of normal doubles. -/
def roundToDouble (x : ℚ) : ℚ :=
  if x = 0 then 0
  else if x < 0 then
    -((roundHalfEven (-x / (2 : ℚ) ^ (Int.log 2 (-x) - 52)) : ℚ) * (2 : ℚ) ^ (Int.log 2 (-x) - 52))
  else (roundHalfEven (x / (2 : ℚ) ^ (Int.log 2 x - 52)) : ℚ) * (2 : ℚ) ^ (Int.log 2 x - 52)

/-- The value of `x || 0` for an optional number: a missing field and `0` both give `0`. -/
def orZero (x : Option ℚ) : ℚ := x.getD 0

/-- The value of `x || 0` for an optional count. -/
def orZeroNat (x : Option Nat) : Nat := x.getD 0

/-- The value of `s || d` for an optional string: a missing field and `""` both give `d`. -/
def orString (s : Option String) (d : String) : String :=
  match s with
  | some v => if v = "" then d else v
  | none => d

/-! ## JSON objects used as count maps -/

/-- A JSON object whose values are counts (`scansByCategory`, `scansByMaterial`), as the list
of its own properties in insertion order. -/
abbrev CountMap := List (String × Nat)

/-- The property read `obj[key]`; `none` is `undefined`. -/
def CountMap.get (obj : CountMap) (key : String) : Option Nat :=
  match obj with
  | [] => none
  | (k, v) :: rest => if k = key then some v else CountMap.get rest key

/-- The property write `obj[key] = value`: an existing property keeps its place. -/
def CountMap.set (obj : CountMap) (key : String) (value : Nat) : CountMap :=
  match obj with
  | [] => [(key, value)]
  | (k, v) :: rest => if k = key then (k, value) :: rest else (k, v) :: CountMap.set rest key value

/-- The object spread `{ ...a, ...b }`. -/
def CountMap.spread (a b : CountMap) : CountMap :=
  b.foldl (fun acc kv => CountMap.set acc kv.1 kv.2) a

/-! ## achievementService.js: data -/

/-- The `requirement.type` strings of the catalog. -/
inductive RequirementType
  | scan_count
  | recyclable_count
  | average_score
  | category_diversity
  | daily_streak
  | share_count
  | early_scan
  | late_scan
deriving DecidableEq, Repr

structure Requirement where
  type : RequirementType
  value : Nat
deriving DecidableEq, Repr

/-- A catalog entry; the display fields (title, description, icon, category) play no part in
the logic and are left out. -/
structure Achievement where
  id : String
  points : Nat
  requirement : Requirement
deriving DecidableEq, Repr

/-- The catalog `Object.values(ACHIEVEMENTS)`, in declaration order. -/
def ACHIEVEMENTS : List Achievement :=
  [ ⟨"first_scan", 50, ⟨.scan_count, 1⟩⟩,
    ⟨"scan_veteran", 200, ⟨.scan_count, 10⟩⟩,
    ⟨"scan_master", 500, ⟨.scan_count, 50⟩⟩,
    ⟨"eco_champion", 1000, ⟨.scan_count, 100⟩⟩,
    ⟨"recycling_rookie", 100, ⟨.recyclable_count, 5⟩⟩,
    ⟨"recycling_hero", 300, ⟨.recyclable_count, 25⟩⟩,
    ⟨"green_guardian", 600, ⟨.recyclable_count, 50⟩⟩,
    ⟨"high_scorer", 250, ⟨.average_score, 70⟩⟩,
    ⟨"eco_perfectionist", 400, ⟨.average_score, 85⟩⟩,
    ⟨"category_explorer", 150, ⟨.category_diversity, 4⟩⟩,
    ⟨"waste_detective", 350, ⟨.category_diversity, 7⟩⟩,
    ⟨"weekly_warrior", 200, ⟨.daily_streak, 7⟩⟩,
    ⟨"consistency_king", 800, ⟨.daily_streak, 30⟩⟩,
    ⟨"early_bird", 75, ⟨.early_scan, 8⟩⟩,
    ⟨"night_owl", 75, ⟨.late_scan, 22⟩⟩,
    ⟨"share_the_love", 100, ⟨.share_count, 1⟩⟩ ]

/-- The object stored under `eco_echo_user_progress`. -/
structure Progress where
  scanCount : Nat
  recyclableCount : Nat
  totalEcoScore : ℚ
  categoriesScanned : List String
  dailyStreak : Nat
  lastScanDate : Option JsDate
  shareCount : Nat
  unlockedAchievements : List String
  pendingAchievements : List String
deriving DecidableEq, Repr

/-- One element of `earned` in the points ledger. -/
structure PointsEntry where
  points : Nat
  achievementId : String
  timestamp : JsDate
deriving DecidableEq, Repr

/-- The object stored under `eco_echo_points`. -/
structure PointsData where
  total : Nat
  earned : List PointsEntry
deriving DecidableEq, Repr

/-! ## historyService.js: data -/

/-- The raw scan result handed to `saveScanToHistory` and `updateProgressAfterScan`; every
field may be missing. -/
structure ScanResult where
  itemName : Option String
  category : Option String
  isRecyclable : Option Bool
  ecoScore : Option ℚ
  confidence : Option ℚ
  disposalMethod : Option String
deriving DecidableEq, Repr

/-- The entry `scan` built by `saveScanToHistory`. The `id` is `Date.now().toString()`, kept as
the millisecond count whose decimal digits it is. -/
structure ScanRecord where
  id : Int
  timestamp : JsDate
  itemName : Option String
  category : String
  isRecyclable : Bool
  ecoScore : ℚ
  confidence : ℚ
  disposalMethod : String
  imageUri : Option String
deriving DecidableEq, Repr

/-- The object stored under `eco_echo_user_stats`. -/
structure Stats where
  totalItemsScanned : Nat
  recyclableItemsCount : Nat
  totalEcoScore : ℚ
  averageEcoScore : ℚ
  scansByCategory : CountMap
  scansByMaterial : CountMap
  lastUpdated : Option JsDate
deriving DecidableEq, Repr

/-- The default literal used when no stats are stored. -/
def Stats.default : Stats :=
  { totalItemsScanned := 0, recyclableItemsCount := 0, totalEcoScore := 0, averageEcoScore := 0,
    scansByCategory := [], scansByMaterial := [], lastUpdated := none }

/-! ## The persistent store -/

/-- The `AsyncStorage` entries of the current namespace, one per user-specific key. -/
structure Storage where
  progress : Option Progress
  points : Option PointsData
  history : Option (List ScanRecord)
  stats : Option Stats
deriving DecidableEq, Repr

/-- A namespace with nothing stored. -/
def Storage.empty : Storage :=
  { progress := none, points := none, history := none, stats := none }

/-! ## achievementService.js: operations -/

/-- The function `initializeAchievements`: writes the initial progress and the empty ledger
where none is stored. -/
def initializeAchievements (s : Storage) : Storage :=
  let s1 :=
    match s.progress with
    | none =>
      { s with progress := some {
          scanCount := 0, recyclableCount := 0, totalEcoScore := 0, categoriesScanned := [],
          dailyStreak := 0, lastScanDate := none, shareCount := 0,
          unlockedAchievements := [], pendingAchievements := [] } }
    | some _ => s
  match s.points with
  | none => { s1 with points := some { total := 0, earned := [] } }
  | some _ => s1

/-- The function `awardPoints`: reads the ledger (or starts an empty one), adds the points to
`total`, pushes one entry onto `earned` and writes the ledger back. -/
def awardPoints (points : Nat) (achievementId : String) (now : JsDate) (s : Storage) : Storage :=
  let pointsData := s.points.getD { total := 0, earned := [] }
  { s with points := some {
      total := pointsData.total + points,
      earned := pointsData.earned ++
        [{ points := points, achievementId := achievementId, timestamp := now }] } }

/-- The `switch (requirement.type)` of `checkAchievements`: the value given to `isUnlocked`. -/
def isUnlocked (progress : Progress) (now : JsDate) (requirement : Requirement) : Bool :=
  match requirement.type with
  | .scan_count => decide (progress.scanCount ≥ requirement.value)
  | .recyclable_count => decide (progress.recyclableCount ≥ requirement.value)
  | .average_score =>
    let averageScore : ℚ :=
      if progress.scanCount > 0 then progress.totalEcoScore / progress.scanCount else 0
    decide (averageScore ≥ requirement.value)
  | .category_diversity => decide (progress.categoriesScanned.length ≥ requirement.value)
  | .daily_streak => decide (progress.dailyStreak ≥ requirement.value)
  | .share_count => decide (progress.shareCount ≥ requirement.value)
  | .early_scan => decide (now.getHours < requirement.value)
  | .late_scan => decide (now.getHours ≥ requirement.value)

/-- The variables a run of `checkAchievements` works on: the progress object it was handed
(mutated in place), the list it returns, and the store (written by `awardPoints`). -/
structure CheckState where
  progress : Progress
  newlyUnlocked : List Achievement
  storage : Storage
deriving DecidableEq, Repr

/-- One iteration of the `for` loop of `checkAchievements`. -/
def checkStep (now : JsDate) (st : CheckState) (achievement : Achievement) : CheckState :=
  if achievement.id ∈ st.progress.unlockedAchievements then st
  else if isUnlocked st.progress now achievement.requirement then
    { progress := { st.progress with
        unlockedAchievements := st.progress.unlockedAchievements ++ [achievement.id] },
      newlyUnlocked := st.newlyUnlocked ++ [achievement],
      storage := awardPoints achievement.points achievement.id now st.storage }
  else st

/-- The function `checkAchievements`: the loop over the catalog. The result carries the
returned list, the progress object as the caller sees it afterwards, and the store. -/
def checkAchievements (progress : Progress) (now : JsDate) (s : Storage) : CheckState :=
  ACHIEVEMENTS.foldl (checkStep now) { progress := progress, newlyUnlocked := [], storage := s }

/-- The block "Update basic stats" and "Update categories" of `updateProgressAfterScan`. -/
def updateCounters (progress : Progress) (scanResult : ScanResult) : Progress :=
  let progress := { progress with scanCount := progress.scanCount + 1 }
  let progress :=
    if scanResult.isRecyclable = some true then
      { progress with recyclableCount := progress.recyclableCount + 1 }
    else progress
  let progress := { progress with totalEcoScore := progress.totalEcoScore + orZero scanResult.ecoScore }
  match scanResult.category with
  | some category =>
    if category ≠ "" ∧ category ∉ progress.categoriesScanned then
      { progress with categoriesScanned := progress.categoriesScanned ++ [category] }
    else progress
  | none => progress

/-- The block "Update streak" of `updateProgressAfterScan`, up to and including the
assignment of `lastScanDate`. -/
def updateStreak (progress : Progress) (now : JsDate) : Progress :=
  let today := now.toDateString
  let lastScanDate := progress.lastScanDate.map JsDate.toDateString
  let yesterday := now.previousDay
  let progress :=
    if lastScanDate = none ∨ lastScanDate = some yesterday.toDateString then
      if lastScanDate ≠ some today then
        { progress with dailyStreak := progress.dailyStreak + 1 }
      else progress
    else if lastScanDate ≠ some today then
      { progress with dailyStreak := 1 }
    else progress
  { progress with lastScanDate := some now }

/-- The function `updateProgressAfterScan`. With no progress stored it initializes and calls
itself; the call is on a store that holds a progress record, which is why it terminates. -/
def updateProgressAfterScan (scanResult : ScanResult) (now : JsDate) (s : Storage) :
    List Achievement × Storage :=
  match hstored : s.progress with
  | none => updateProgressAfterScan scanResult now (initializeAchievements s)
  | some progress =>
    let progress := updateCounters progress scanResult
    let progress := updateStreak progress now
    let checked := checkAchievements progress now s
    (checked.newlyUnlocked, { checked.storage with progress := some checked.progress })
termination_by (if s.progress.isSome then 0 else 1)
decreasing_by
  have hnone : s.progress = none := hstored
  simp only [initializeAchievements, hnone]
  cases s.points <;> simp

/-- The function `updateShareCount`: the progress is written before the achievements are
checked, and not again afterwards. -/
def updateShareCount (now : JsDate) (s : Storage) : List Achievement × Storage :=
  match s.progress with
  | some progress =>
    let progress := { progress with shareCount := progress.shareCount + 1 }
    let s := { s with progress := some progress }
    let checked := checkAchievements progress now s
    (checked.newlyUnlocked, checked.storage)
  | none => ([], s)

/-- One call of the achievement engine. -/
inductive EngineCall
  | scan (scanResult : ScanResult) (now : JsDate)
  | share (now : JsDate)
deriving DecidableEq, Repr

/-- The store after one call. -/
def EngineCall.run (c : EngineCall) (s : Storage) : Storage :=
  match c with
  | .scan scanResult now => (updateProgressAfterScan scanResult now s).2
  | .share now => (updateShareCount now s).2

/-- The store after a sequence of calls, first call first. -/
def runCalls (calls : List EngineCall) (s : Storage) : Storage :=
  calls.foldl (fun acc c => c.run acc) s

/-- The ids of the award entries of the ledger of a store. -/
def awardedIds (s : Storage) : List String :=
  ((s.points.map PointsData.earned).getD []).map PointsEntry.achievementId

/-- The persisted unlocked set of a store. -/
def unlockedIds (s : Storage) : List String :=
  (s.progress.map Progress.unlockedAchievements).getD []

/-- The loop test of `checkAchievements` for one catalog entry, on the progress as handed in:
the entry is not skipped and its `isUnlocked` is true. -/
def eligible (progress : Progress) (now : JsDate) (a : Achievement) : Bool :=
  decide (a.id ∉ progress.unlockedAchievements) && isUnlocked progress now a.requirement

/-- The requirement of an achievement as the specification words it, for the clock hour `h`. -/
def requirementHolds (p : Progress) (h : Nat) (r : Requirement) : Prop :=
  match r.type with
  | .scan_count => r.value ≤ p.scanCount
  | .recyclable_count => r.value ≤ p.recyclableCount
  | .average_score =>
    (r.value : ℚ) ≤ (if p.scanCount = 0 then (0 : ℚ) else p.totalEcoScore / p.scanCount)
  | .category_diversity => r.value ≤ p.categoriesScanned.length
  | .daily_streak => r.value ≤ p.dailyStreak
  | .share_count => r.value ≤ p.shareCount
  | .early_scan => h < r.value
  | .late_scan => r.value ≤ h

/-! ## historyService.js: operations -/

/-- The block "Create new scan entry" of `saveScanToHistory`. -/
def makeScan (scanResult : ScanResult) (imageUri : Option String) (now : JsDate) : ScanRecord :=
  { id := now.ms,
    timestamp := now,
    itemName := scanResult.itemName,
    category := orString scanResult.category "Other",
    isRecyclable := scanResult.isRecyclable.getD false,
    ecoScore := orZero scanResult.ecoScore,
    confidence := orZero scanResult.confidence,
    disposalMethod := orString scanResult.disposalMethod "Unknown",
    imageUri := imageUri.filter (fun uri => uri ≠ "") }

/-- The function `updateStatistics` on the stats entry of the namespace; returns the stats it
wrote. -/
def updateStatistics (scan : ScanRecord) (now : JsDate) (s : Storage) : Stats × Storage :=
  let stats := s.stats.getD Stats.default
  let stats := { stats with totalItemsScanned := stats.totalItemsScanned + 1 }
  let stats :=
    if scan.isRecyclable then
      { stats with recyclableItemsCount := stats.recyclableItemsCount + 1 }
    else stats
  let stats := { stats with totalEcoScore := stats.totalEcoScore + scan.ecoScore }
  let stats := { stats with averageEcoScore := stats.totalEcoScore / stats.totalItemsScanned }
  let category := if scan.category = "" then "Other" else scan.category
  let stats := { stats with
    scansByCategory :=
      stats.scansByCategory.set category ((stats.scansByCategory.get category).getD 0 + 1) }
  let stats := { stats with lastUpdated := some now }
  (stats, { s with stats := some stats })

/-- The function `saveScanToHistory`: the new entry goes to the front, the list is cut to 100
entries and written, then the statistics are updated. -/
def saveScanToHistory (scanResult : ScanResult) (imageUri : Option String) (now : JsDate)
    (s : Storage) : ScanRecord × Storage :=
  let history := s.history.getD []
  let scan := makeScan scanResult imageUri now
  let history := scan :: history
  let limitedHistory := history.take 100
  let s := { s with history := some limitedHistory }
  let s := (updateStatistics scan now s).2
  (scan, s)

/-- The arguments and the clock reading of one `saveScanToHistory` call. -/
structure SaveCall where
  scanResult : ScanResult
  imageUri : Option String
  now : JsDate
deriving DecidableEq, Repr

/-- The record a call creates. -/
def SaveCall.scan (c : SaveCall) : ScanRecord := makeScan c.scanResult c.imageUri c.now

/-- The store after a sequence of `saveScanToHistory` calls, first call first. -/
def saveAll (calls : List SaveCall) (s : Storage) : Storage :=
  calls.foldl (fun acc c => (saveScanToHistory c.scanResult c.imageUri c.now acc).2) s

/-- The history as `saveScanToHistory` and `getScanHistory` read it: `[]` when nothing is
stored. -/
def storedHistory (s : Storage) : List ScanRecord := s.history.getD []

/-- The object `mergedStats` of `transferAnonymousData`, as it is written to the user's stats
key: `userStats` is the parsed user entry (`none` when the key is missing), `anonStats` the
parsed anonymous entry. -/
def TransferAnonymousData.mergedStats (userStats : Option Stats) (anonStats : Stats)
    (now : JsDate) : Stats :=
  let userStats := userStats.getD Stats.default
  let mergedStats : Stats :=
    { userStats with
      totalItemsScanned := max userStats.totalItemsScanned anonStats.totalItemsScanned,
      recyclableItemsCount := max userStats.recyclableItemsCount anonStats.recyclableItemsCount,
      totalEcoScore := max userStats.totalEcoScore anonStats.totalEcoScore,
      scansByCategory := CountMap.spread anonStats.scansByCategory userStats.scansByCategory,
      scansByMaterial := CountMap.spread anonStats.scansByMaterial userStats.scansByMaterial,
      lastUpdated := some now }
  if mergedStats.totalItemsScanned > 0 then
    { mergedStats with
      averageEcoScore := mergedStats.totalEcoScore / mergedStats.totalItemsScanned }
  else mergedStats

/-- The invariant of the aggregate: with at least one item, the average is the sum over the
count. -/
def AverageInvariant (st : Stats) : Prop :=
  0 < st.totalItemsScanned → st.averageEcoScore = st.totalEcoScore / st.totalItemsScanned

/-! ## weightConverter.js -/

/-- The function `normalizeWeight`; `weight = none` is a missing (`undefined`) argument, for
which the comparison is false and `weight || 0` is `0`. The quotient `weight / 1000` is a
double before `toFixed(1)` sees it. -/
def normalizeWeight (weight : Option ℚ) (itemCount : Nat) : ℚ :=
  match weight with
  | some w =>
    if w > (itemCount : ℚ) * 10 ∧ itemCount > 0 then toFixed1 (roundToDouble (w / 1000))
    else toFixed1 w
  | none => toFixed1 0

/-- "`r` is `x` rounded to one decimal place": `r` is a whole number of tenths and no tenth is
closer to `x`. -/
def IsRoundedToOneDecimal (x r : ℚ) : Prop :=
  (∃ k : ℤ, r = (k : ℚ) / 10) ∧ |r - x| ≤ 1 / 20

/-! ## DashboardScreen.js -/

/-- The stats object of the server response and of `user.stats`; every field may be missing. -/
structure ServerStats where
  totalItems : Option Nat
  totalWeight : Option ℚ
  totalCarbonSaved : Option ℚ
  recyclableItems : Option Nat
deriving DecidableEq, Repr

/-- The object `mergedStats` of `fetchData`, before `treesEquivalent` is added. -/
structure MergedStats where
  totalItems : Nat
  totalKg : ℚ
  co2Saved : ℚ
deriving DecidableEq, Repr

/-- The function `localEstimateTotalWeight`: 0.1 kg an item. -/
def localEstimateTotalWeight (itemCount : Nat) : ℚ := toFixed1 ((itemCount : ℚ) * (1 / 10))

/-- The function `localEstimateCO2Saved`: 0.5 kg a recyclable item. -/
def localEstimateCO2Saved (recyclableCount : Nat) : ℚ :=
  toFixed1 ((recyclableCount : ℚ) * (1 / 2))

/-- The item count `x?.totalItems || 0` of a server-shaped source. -/
def ServerStats.items (x : Option ServerStats) : Nat := orZeroNat (x.bind ServerStats.totalItems)

/-- The weight `x?.totalWeight || 0` of a server-shaped source. -/
def ServerStats.weight (x : Option ServerStats) : ℚ := orZero (x.bind ServerStats.totalWeight)

/-- The value `x?.totalCarbonSaved || 0` of a server-shaped source. -/
def ServerStats.carbon (x : Option ServerStats) : ℚ :=
  orZero (x.bind ServerStats.totalCarbonSaved)

/-- The count `localStats?.totalItemsScanned || 0`. -/
def localItems (localStats : Option Stats) : Nat :=
  orZeroNat (localStats.map Stats.totalItemsScanned)

/-- The count `localStats?.recyclableItemsCount || 0`. -/
def localRecyclable (localStats : Option Stats) : Nat :=
  orZeroNat (localStats.map Stats.recyclableItemsCount)

/-- The object `mergedStats` built in `fetchData` from the server response (`remoteStats`,
`none` for `null`), the user object's `stats` and the local aggregate. -/
def DashboardScreen.mergedStats (remoteStats userStats : Option ServerStats)
    (localStats : Option Stats) : MergedStats :=
  { totalItems :=
      max (max (ServerStats.items remoteStats) (ServerStats.items userStats))
        (localItems localStats),
    totalKg :=
      max (max (normalizeWeight (some (ServerStats.weight remoteStats))
                  (ServerStats.items remoteStats))
               (normalizeWeight (some (ServerStats.weight userStats))
                  (ServerStats.items userStats)))
        (localEstimateTotalWeight (localItems localStats)),
    co2Saved :=
      max (max (ServerStats.carbon remoteStats) (ServerStats.carbon userStats))
        (localEstimateCO2Saved (localRecyclable localStats)) }

/-- The daily streak after a scan as the specification words it: one more when the last scan
is unset or fell on the calendar day before today, unchanged when it fell on today, else 1. -/
def streakAfter (old : Nat) (last : Option JsDate) (now : JsDate) : Nat :=
  match last with
  | none => old + 1
  | some l =>
    if l.toDateString = now.toDateString - 1 then old + 1
    else if l.toDateString = now.toDateString then old
    else 1

/-- The persisted daily streak of a store, `0` when no progress is stored. -/
def storedStreak (s : Storage) : Nat := (s.progress.map Progress.dailyStreak).getD 0

/-- The scans of a list of `updateProgressAfterScan` calls, as engine calls. -/
def scanCalls (calls : List (ScanResult × JsDate)) : List EngineCall :=
  calls.map (fun c => EngineCall.scan c.1 c.2)

/-- The stats as `updateStatistics` reads them: the default literal when nothing is stored. -/
def storedStats (s : Storage) : Stats := s.stats.getD Stats.default

/-- The number of recyclable scans among the calls. -/
def recyclableScans (calls : List SaveCall) : Nat :=
  calls.countP (fun c => c.scanResult.isRecyclable = some true)

/-- The sum of the eco-scores of the calls, a missing score counting as 0. -/
def ecoScoreSum (calls : List SaveCall) : ℚ :=
  (calls.map (fun c => (c.scanResult.ecoScore.getD 0 : ℚ))).sum

/-- The number of scans of category `k` among the calls, a missing category counting as
"Other". -/
def categoryScans (calls : List SaveCall) (k : String) : Nat :=
  calls.countP (fun c => (match c.scanResult.category with
    | none => "Other"
    | some "" => "Other"
    | some v => v) = k)

/-! ## historyService.js: transferAnonymousData -/

/-- The body of `anonHistory.forEach(...)`: `acc.1` is `combinedHistory`, `acc.2` the ids in
`seenIds`; a scan whose id is not in `seenIds` is pushed and its id added. -/
def TransferAnonymousData.pushUnseen (acc : List ScanRecord × List Int) (scan : ScanRecord) :
    List ScanRecord × List Int :=
  if scan.id ∉ acc.2 then (acc.1 ++ [scan], acc.2 ++ [scan.id]) else acc

/-- The array `combinedHistory` before it is sorted: it starts as a copy of the user history,
`seenIds` starts as the empty set, and the loop runs over the anonymous history. -/
def TransferAnonymousData.combinedHistory (userHistory anonHistory : List ScanRecord) :
    List ScanRecord :=
  (anonHistory.foldl TransferAnonymousData.pushUnseen (userHistory, [])).1

/-- The array `limitedHistory` written to the user's history key: `combinedHistory` sorted by
timestamp, newest first (the sort is stable), cut to 100 entries. -/
def TransferAnonymousData.limitedHistory (userHistory anonHistory : List ScanRecord) :
    List ScanRecord :=
  ((TransferAnonymousData.combinedHistory userHistory anonHistory).insertionSort
    (fun a b => b.timestamp.ms ≤ a.timestamp.ms)).take 100

/-- A value read with `getItem` and handed to `JSON.parse`: either it parses to `value`, or it
is a string that `JSON.parse` rejects. -/
inductive Stored (α : Type)
  | ok (value : α)
  | corrupt
deriving DecidableEq, Repr

/-- The `AsyncStorage` entries that `transferAnonymousData` touches: the id of the stored user
(`none` when there is no user or the user has no `_id`), the two anonymous entries and the two
entries of that user. -/
structure Device where
  userId : Option String
  anonStats : Option (Stored Stats)
  anonHistory : Option (Stored (List ScanRecord))
  userStats : Option (Stored Stats)
  userHistory : Option (Stored (List ScanRecord))
deriving DecidableEq, Repr

/-- Which `setItem` calls of `transferAnonymousData` reject. -/
structure WriteFaults where
  statsWrite : Bool
  historyWrite : Bool
deriving DecidableEq, Repr

/-- No write rejects. -/
def WriteFaults.none : WriteFaults := { statsWrite := false, historyWrite := false }

/-- The block "Transfer stats" of `transferAnonymousData`. `Except.error d` is an exception
thrown with the store in state `d`, `Except.ok d` the normal end of the block. -/
def TransferAnonymousData.transferStats (now : JsDate) (faults : WriteFaults) (d : Device) :
    Except Device Device :=
  match d.anonStats with
  | none => .ok d
  | some .corrupt => .error d
  | some (.ok anonStats) =>
    match d.userStats with
    | some .corrupt => .error d
    | some (.ok userStats) =>
      if faults.statsWrite then .error d
      else .ok { d with
        userStats := some (.ok (TransferAnonymousData.mergedStats (some userStats) anonStats now)) }
    | none =>
      if faults.statsWrite then .error d
      else .ok { d with
        userStats := some (.ok (TransferAnonymousData.mergedStats none anonStats now)) }

/-- The block "Transfer history" of `transferAnonymousData`. -/
def TransferAnonymousData.transferHistory (faults : WriteFaults) (d : Device) :
    Except Device Device :=
  match d.anonHistory with
  | none => .ok d
  | some .corrupt => .error d
  | some (.ok anonHistory) =>
    match d.userHistory with
    | some .corrupt => .error d
    | some (.ok userHistory) =>
      if faults.historyWrite then .error d
      else .ok { d with
        userHistory := some (.ok (TransferAnonymousData.limitedHistory userHistory anonHistory)) }
    | none =>
      if faults.historyWrite then .error d
      else .ok { d with
        userHistory := some (.ok (TransferAnonymousData.limitedHistory [] anonHistory)) }

/-- The function `transferAnonymousData`: the whole body sits in one `try`, the two
`removeItem` calls are its last statements, and the `catch` only logs. -/
def transferAnonymousData (now : JsDate) (faults : WriteFaults) (d : Device) : Device :=
  match d.userId with
  | none => d
  | some _ =>
    if d.anonStats.isNone && d.anonHistory.isNone then d
    else
      match TransferAnonymousData.transferStats now faults d with
      | .error d1 => d1
      | .ok d1 =>
        match TransferAnonymousData.transferHistory faults d1 with
        | .error d2 => d2
        | .ok d2 => { d2 with anonStats := none, anonHistory := none }

/-- The aggregate stored under the user's stats key, when there is one and it parses. -/
def Device.storedUserStats (d : Device) : Option Stats :=
  match d.userStats with
  | some (.ok stats) => some stats
  | _ => none

/-- Every stored value that the transfer parses is well-formed JSON of its kind. -/
def Device.parses (d : Device) : Prop :=
  d.anonStats ≠ some .corrupt ∧ d.anonHistory ≠ some .corrupt
    ∧ d.userStats ≠ some .corrupt ∧ d.userHistory ≠ some .corrupt

/-! ## achievementService.js: getAchievementProgress -/

/-- The function `getAchievementProgress`; it only reads, so the store it leaves is the store
it was given. -/
def getAchievementProgress (achievementId : String) (s : Storage) : ℚ × Storage :=
  match s.progress with
  | none => (0, s)
  | some progress =>
    match ACHIEVEMENTS.find? (fun a => a.id = achievementId) with
    | none => (0, s)
    | some achievement =>
      let requirement := achievement.requirement
      let currentValue : ℚ :=
        match requirement.type with
        | .scan_count => progress.scanCount
        | .recyclable_count => progress.recyclableCount
        | .average_score =>
          if progress.scanCount > 0 then progress.totalEcoScore / progress.scanCount else 0
        | .category_diversity => progress.categoriesScanned.length
        | .daily_streak => progress.dailyStreak
        | .share_count => progress.shareCount
        | .early_scan => 0
        | .late_scan => 0
      (min ((currentValue / requirement.value) * 100) 100, s)

/-- The lists returned by a sequence of `updateProgressAfterScan` calls, first call first. -/
def scanReturns (calls : List (ScanResult × JsDate)) (s : Storage) : List (List Achievement) :=
  match calls with
  | [] => []
  | c :: rest =>
    (updateProgressAfterScan c.1 c.2 s).1 :: scanReturns rest (updateProgressAfterScan c.1 c.2 s).2

/-- The catalog entry `FIRST_SCAN`. -/
def FIRST_SCAN : Achievement := ⟨"first_scan", 50, ⟨.scan_count, 1⟩⟩

/-- The catalog entry `SHARE_THE_LOVE`. -/
def SHARE_THE_LOVE : Achievement := ⟨"share_the_love", 100, ⟨.share_count, 1⟩⟩

/-- The catalog entry `NIGHT_OWL`. -/
def NIGHT_OWL : Achievement := ⟨"night_owl", 75, ⟨.late_scan, 22⟩⟩

/-- The current value of a cumulative metric as the specification words it: the counter the
requirement names, the average eco-score (0 with no scan) for `average_score`; the two hour
requirements have no cumulative value and count as 0, as in `getAchievementProgress`. -/
def metricValue (p : Progress) (t : RequirementType) : ℚ :=
  match t with
  | .scan_count => p.scanCount
  | .recyclable_count => p.recyclableCount
  | .average_score => if p.scanCount = 0 then 0 else p.totalEcoScore / p.scanCount
  | .category_diversity => p.categoriesScanned.length
  | .daily_streak => p.dailyStreak
  | .share_count => p.shareCount
  | .early_scan => 0
  | .late_scan => 0

/-- The point value of the catalog entry with the given id, 0 for an unknown id. -/
def pointsOfId (achievementId : String) : Nat :=
  ((ACHIEVEMENTS.find? (fun a => a.id = achievementId)).map Achievement.points).getD 0

/-- One `awardPoints` call: its arguments and its clock reading. -/
structure Award where
  points : Nat
  achievementId : String
  now : JsDate
deriving DecidableEq, Repr

/-- The ledger entry that `awardPoints` pushes for a call. -/
def Award.entry (a : Award) : PointsEntry :=
  { points := a.points, achievementId := a.achievementId, timestamp := a.now }

/-- The store after a sequence of `awardPoints` calls, first call first. -/
def awardAll (awards : List Award) (s : Storage) : Storage :=
  awards.foldl (fun acc a => awardPoints a.points a.achievementId a.now acc) s

/-- The ledger as `awardPoints` reads it: the empty ledger when nothing is stored. -/
def storedPoints (s : Storage) : PointsData := s.points.getD { total := 0, earned := [] }

/-! ## achievementService.js with store failures -/

/-- Which store operations of the achievement engine reject: the `getItem` of the progress key
in `updateProgressAfterScan`, the `getItem` of the progress key and that of the points key in
`initializeAchievements`, and every `setItem`. -/
structure EngineFaults where
  progressRead : Bool
  initProgressRead : Bool
  initPointsRead : Bool
  writes : Bool
deriving DecidableEq, Repr

/-- No operation rejects. -/
def EngineFaults.none : EngineFaults :=
  { progressRead := false, initProgressRead := false, initPointsRead := false, writes := false }

/-- The object `initialProgress` of `initializeAchievements`. -/
def initialProgress : Progress :=
  { scanCount := 0, recyclableCount := 0, totalEcoScore := 0, categoriesScanned := [],
    dailyStreak := 0, lastScanDate := none, shareCount := 0,
    unlockedAchievements := [], pendingAchievements := [] }

/-- The function `initializeAchievements` with store failures: its body is one `try` whose
`catch` only logs, so a rejected read or write ends it with what was written before. Both
entries are read before anything is written. -/
def WithFaults.initializeAchievements (faults : EngineFaults) (s : Storage) : Storage :=
  if faults.initProgressRead then s
  else if faults.initPointsRead then s
  else
    match s.progress with
    | none =>
      if faults.writes then s
      else
        match s.points with
        | none =>
          { s with progress := some initialProgress, points := some { total := 0, earned := [] } }
        | some _ => { s with progress := some initialProgress }
    | some _ =>
      match s.points with
      | none => if faults.writes then s else { s with points := some { total := 0, earned := [] } }
      | some _ => s

/-- The function `updateProgressAfterScan` with store failures. `fuel` bounds the number of
nested calls (the outer call included); `none` means the bound was reached. A rejected read of
the progress key, and a rejected final write of the progress (`awardPoints` swallows its own
rejected writes), end in the `catch`, which returns `[]`. -/
def WithFaults.updateProgressAfterScan (faults : EngineFaults) (scanResult : ScanResult)
    (now : JsDate) : Nat → Storage → Option (List Achievement × Storage)
  | 0, _ => Option.none
  | fuel + 1, s =>
    if faults.progressRead then some ([], s)
    else
      match s.progress with
      | Option.none =>
        WithFaults.updateProgressAfterScan faults scanResult now fuel
          (WithFaults.initializeAchievements faults s)
      | some progress =>
        if faults.writes then some ([], s)
        else
          let progress := updateCounters progress scanResult
          let progress := updateStreak progress now
          let checked := checkAchievements progress now s
          some (checked.newlyUnlocked, { checked.storage with progress := some checked.progress })

/-! ## historyService.js with store failures -/

/-- The two namespaces a scan can be recorded in, with the `_id` of the stored user (`none`
when no user is stored or the user has no `_id`). -/
structure Phone where
  userId : Option String
  userSpace : Storage
  anonSpace : Storage
deriving DecidableEq, Repr

/-- Which store operations of one `saveScanToHistory` call reject: the `getItem('user')`
inside the call of `getUserSpecificKey` that derives the history key, the one inside the call
that derives the stats key, and the reads and writes of the history and of the stats. -/
structure SaveFaults where
  historyKeyUserRead : Bool
  statsKeyUserRead : Bool
  historyRead : Bool
  historyWrite : Bool
  statsRead : Bool
  statsWrite : Bool
deriving DecidableEq, Repr

/-- No operation rejects. -/
def SaveFaults.none : SaveFaults :=
  { historyKeyUserRead := false, statsKeyUserRead := false, historyRead := false,
    historyWrite := false, statsRead := false, statsWrite := false }

/-- One call of the function `getUserSpecificKey`: `true` is the key of the stored user,
`false` the anonymous key. Each call reads the stored user itself; a rejected read
(`userReadRejects`) is caught and falls back to the anonymous key. -/
def getUserSpecificKey (userReadRejects : Bool) (ph : Phone) : Bool :=
  if userReadRejects then false
  else ph.userId.isSome

/-- The namespace behind a key. -/
def Phone.space (ph : Phone) (userKey : Bool) : Storage :=
  if userKey then ph.userSpace else ph.anonSpace

/-- The phone with the namespace behind a key replaced. -/
def Phone.setSpace (ph : Phone) (userKey : Bool) (s : Storage) : Phone :=
  if userKey then { ph with userSpace := s } else { ph with anonSpace := s }

/-- The function `saveScanToHistory` with store failures. `Except.error ph` is the error
rethrown to the caller, with the store in state `ph`; `Except.ok` carries the returned scan.
The history key and the stats key come from two calls of `getUserSpecificKey`. -/
def WithFaults.saveScanToHistory (faults : SaveFaults) (scanResult : ScanResult)
    (imageUri : Option String) (now : JsDate) (ph : Phone) : Except Phone (ScanRecord × Phone) :=
  let historyKey := getUserSpecificKey faults.historyKeyUserRead ph
  let statsKey := getUserSpecificKey faults.statsKeyUserRead ph
  if faults.historyRead then .error ph
  else
    let history := (ph.space historyKey).history.getD []
    let scan := makeScan scanResult imageUri now
    let limitedHistory := (scan :: history).take 100
    if faults.historyWrite then .error ph
    else
      let ph1 :=
        ph.setSpace historyKey { ph.space historyKey with history := some limitedHistory }
      if faults.statsRead then .error ph1
      else if faults.statsWrite then .error ph1
      else .ok (scan, ph1.setSpace statsKey (updateStatistics scan now (ph1.space statsKey)).2)

/-! ## AuthContext.js -/

/-- The user object: its `_id` and its `stats`. -/
structure UserObject where
  id : Option String
  stats : Option ServerStats
deriving DecidableEq, Repr

/-- What `authService.getProfile()` does: it resolves with user data, resolves with something
that is not user data, rejects with status 401, or rejects otherwise. -/
inductive ProfileResponse
  | data (userData : UserObject)
  | invalid
  | unauthorized
  | failure
deriving DecidableEq, Repr

/-- The state `refreshUserData` works on: the current `user`, the stored token, the stored
`lastRefreshTime`, and the times at which `getProfile` was called so far. -/
structure AuthState where
  user : Option UserObject
  token : Option String
  lastRefreshTime : Option Int
  profileQueries : List Int
deriving DecidableEq, Repr

/-- The function `refreshUserData` called at `Date.now() = now`. `Except.error` is the error
rethrown to the caller; a 401 logs the user out before it is rethrown. -/
def refreshUserData (now : Int) (response : ProfileResponse) (st : AuthState) :
    Except AuthState (Option UserObject × AuthState) :=
  let tooSoon :=
    match st.lastRefreshTime with
    | some lastRefreshTime => decide (now - lastRefreshTime < 10000)
    | none => false
  if tooSoon then .ok (st.user, st)
  else
    let st1 := { st with lastRefreshTime := some now }
    match st1.token with
    | none => .ok (st1.user, st1)
    | some _ =>
      let st2 := { st1 with profileQueries := st1.profileQueries ++ [now] }
      match response with
      | .data userData => .ok (some userData, { st2 with user := some userData })
      | .invalid => .error st2
      | .unauthorized => .error { st2 with user := none, token := none }
      | .failure => .error st2

/-- The state a `refreshUserData` call leaves, whether it returns or throws. -/
def stateAfter (r : Except AuthState (Option UserObject × AuthState)) : AuthState :=
  match r with
  | .ok (_, st) => st
  | .error st => st

/-- The state after a sequence of `refreshUserData` calls, first call first. -/
def refreshAll (calls : List (Int × ProfileResponse)) (st : AuthState) : AuthState :=
  calls.foldl (fun acc c => stateAfter (refreshUserData c.1 c.2 acc)) st

/-- The `totalWeight` of `updatedStats` in `updateUserWithLocalStats`: the larger of the user
object's weight and the product `localStats.totalItemsScanned * 0.1`, divided by 1000 and
rounded when it exceeds 10 while the merged item count is at most 10. The product is the double
product of the count and the double `0.1`, and it is not rounded to one decimal. -/
def AuthContext.totalWeight (backendStats : Option ServerStats) (localStats : Stats) : ℚ :=
  let totalItems := max (ServerStats.items backendStats) localStats.totalItemsScanned
  let totalWeight :=
    max (ServerStats.weight backendStats)
      (roundToDouble ((localStats.totalItemsScanned : ℚ) * roundToDouble (1 / 10)))
  if totalWeight > 10 ∧ totalItems ≤ 10 then toFixed1 (roundToDouble (totalWeight / 1000))
  else totalWeight

/-! ## HomeScreen.js -/

/-- The helper `calculateTotalWeight` of `loadLocalStats`. -/
def calculateTotalWeight (itemCount : Nat) : ℚ := toFixed1 ((itemCount : ℚ) * (1 / 10))

/-- The `totalWeight` that `loadLocalStats` puts into `updatedStats` (or, with no local stats,
into the state it sets from the user object). -/
def HomeScreen.totalWeight (userStats : Option ServerStats) (stats : Option Stats) : ℚ :=
  match stats with
  | some stats =>
    let totalItems := max (ServerStats.items userStats) stats.totalItemsScanned
    let backendWeight := normalizeWeight (some (ServerStats.weight userStats)) totalItems
    let calculatedWeight := calculateTotalWeight totalItems
    max backendWeight calculatedWeight
  | none =>
    normalizeWeight (some (ServerStats.weight userStats)) (ServerStats.items userStats)

/-- The total weight the specification gives for the Dashboard merge with no remote stats:
the user object's weight normalized with its own item count, or 0.1 per local item rounded to
one decimal, whichever is larger. -/
def dashboardWeight (userStats : Option ServerStats) (localStats : Stats) : ℚ :=
  max (normalizeWeight (some (ServerStats.weight userStats)) (ServerStats.items userStats))
    (toFixed1 ((localStats.totalItemsScanned : ℚ) * (1 / 10)))

/-! ## Sample inputs -/

/-- A scan result with every field missing. -/
def blankScan : ScanResult :=
  { itemName := none, category := none, isRecyclable := none, ecoScore := none,
    confidence := none, disposalMethod := none }

/-- A recyclable plastic item with eco-score 80. -/
def plasticScan : ScanResult :=
  { itemName := some "Bottle", category := some "Plastic", isRecyclable := some true,
    ecoScore := some 80, confidence := some (9 / 10), disposalMethod := some "Recycle" }

/-- A progress record with a streak of three days whose last scan fell on day 9. -/
def threeDayProgress : Progress :=
  { scanCount := 3, recyclableCount := 0, totalEcoScore := 0, categoriesScanned := [],
    dailyStreak := 3, lastScanDate := some ⟨777600000⟩, shareCount := 0,
    unlockedAchievements := [], pendingAchievements := [] }

/-- A store that holds `threeDayProgress` and nothing else. -/
def threeDayStore : Storage :=
  { progress := some threeDayProgress, points := none, history := none, stats := none }

/-- The calls of `n` scans of the plastic item, at the times 0, 1, 2, ... ms. -/
def plasticCalls (n : Nat) : List SaveCall :=
  (List.range n).map
    (fun (i : Nat) => { scanResult := plasticScan, imageUri := none, now := ⟨(i : Int)⟩ })

/-- One scan of the plastic item. -/
def onePlasticCall : List SaveCall :=
  [{ scanResult := plasticScan, imageUri := none, now := ⟨1700000000000⟩ }]

/-- An aggregate of four scans, two of them recyclable, with eco-scores summing to 250. -/
def fourScanStats : Stats :=
  { totalItemsScanned := 4, recyclableItemsCount := 2, totalEcoScore := 250,
    averageEcoScore := 125 / 2, scansByCategory := [("Plastic", 3), ("Paper", 1)],
    scansByMaterial := [], lastUpdated := none }

/-- The server stats of the example: 3 items, total weight 800. -/
def serverExample : ServerStats :=
  { totalItems := some 3, totalWeight := some 800, totalCarbonSaved := none,
    recyclableItems := none }

/-- The user-object stats of the example: 0 items, weight 0. -/
def userExample : ServerStats :=
  { totalItems := some 0, totalWeight := some 0, totalCarbonSaved := none,
    recyclableItems := none }

/-- The local aggregate of the example: 5 items scanned. -/
def localExample : Stats :=
  { totalItemsScanned := 5, recyclableItemsCount := 0, totalEcoScore := 0, averageEcoScore := 0,
    scansByCategory := [], scansByMaterial := [], lastUpdated := none }

/-- Server stats that report 10 items and the weight 0 of the user schema's default. -/
def serverTenItems : ServerStats :=
  { totalItems := some 10, totalWeight := some 0, totalCarbonSaved := some 0,
    recyclableItems := some 0 }

/-- An aggregate of two scans with one Plastic scan. -/
def twoScanStats : Stats :=
  { totalItemsScanned := 2, recyclableItemsCount := 1, totalEcoScore := 120,
    averageEcoScore := 60, scansByCategory := [("Plastic", 1), ("Glass", 1)],
    scansByMaterial := [], lastUpdated := none }

/-- Server stats that report 1 kg of carbon saved. -/
def serverOneKgCarbon : ServerStats :=
  { totalItems := some 10, totalWeight := some 1, totalCarbonSaved := some 1,
    recyclableItems := some 10 }

/-- A local aggregate of ten recyclable scans. -/
def localTenRecyclable : Stats :=
  { totalItemsScanned := 10, recyclableItemsCount := 10, totalEcoScore := 0,
    averageEcoScore := 0, scansByCategory := [], scansByMaterial := [], lastUpdated := none }

/-- The record of a plastic scan made at 1 700 000 000 000 ms. -/
def plasticRecord : ScanRecord := makeScan plasticScan none ⟨1700000000000⟩

/-- A logged-in device whose user history and anonymous history both hold `plasticRecord`. -/
def deviceSharedRecord : Device :=
  { userId := some "u1", anonStats := none, anonHistory := some (.ok [plasticRecord]),
    userStats := none, userHistory := some (.ok [plasticRecord]) }

/-- A logged-in device whose anonymous stats entry does not parse. -/
def deviceCorruptAnonStats : Device :=
  { userId := some "u1", anonStats := some .corrupt, anonHistory := some (.ok [plasticRecord]),
    userStats := none, userHistory := none }

/-- A logged-in device with anonymous stats and history and nothing stored for the user. -/
def deviceAnonData : Device :=
  { userId := some "u1", anonStats := some (.ok fourScanStats),
    anonHistory := some (.ok [plasticRecord]), userStats := none, userHistory := none }

/-- A freshly initialized progress record. -/
def freshProgress : Progress :=
  { scanCount := 0, recyclableCount := 0, totalEcoScore := 0, categoriesScanned := [],
    dailyStreak := 0, lastScanDate := none, shareCount := 0,
    unlockedAchievements := [], pendingAchievements := [] }

/-- A progress record of ten scans with an average eco-score of 60 and nothing unlocked. -/
def tenScanProgress : Progress :=
  { scanCount := 10, recyclableCount := 4, totalEcoScore := 600,
    categoriesScanned := ["Plastic"], dailyStreak := 2, lastScanDate := none, shareCount := 0,
    unlockedAchievements := [], pendingAchievements := [] }

/-- A store that holds `tenScanProgress` and nothing else. -/
def tenScanStore : Storage :=
  { progress := some tenScanProgress, points := none, history := none, stats := none }

/-- User-object stats of 3 items with total weight 40. -/
def userThreeItems : ServerStats :=
  { totalItems := some 3, totalWeight := some 40, totalCarbonSaved := some 0,
    recyclableItems := some 0 }

/-- A phone with user `u1` logged in and nothing stored. -/
def phoneLoggedIn : Phone :=
  { userId := some "u1", userSpace := Storage.empty, anonSpace := Storage.empty }

/-- Only the read of the stored user that derives the stats key rejects. -/
def statsKeyReadFault : SaveFaults :=
  { historyKeyUserRead := false, statsKeyUserRead := true, historyRead := false,
    historyWrite := false, statsRead := false, statsWrite := false }

/-- Only the write of the history rejects. -/
def historyWriteFault : SaveFaults :=
  { historyKeyUserRead := false, statsKeyUserRead := false, historyRead := false,
    historyWrite := true, statsRead := false, statsWrite := false }

/-- Only the read of the progress in `updateProgressAfterScan` rejects. -/
def progressReadFault : EngineFaults :=
  { progressRead := true, initProgressRead := false, initPointsRead := false, writes := false }

/-- Every write rejects. -/
def writeFault : EngineFaults :=
  { progressRead := false, initProgressRead := false, initPointsRead := false, writes := true }

/-- Only the read of the points ledger in `initializeAchievements` rejects; every write
succeeds. -/
def pointsReadFault : EngineFaults :=
  { progressRead := false, initProgressRead := false, initPointsRead := true, writes := false }

/-- A logged-in device with a two-scan aggregate of the user and a four-scan anonymous
aggregate. -/
def deviceTwoAndFour : Device :=
  { userId := some "u1", anonStats := some (.ok fourScanStats), anonHistory := none,
    userStats := some (.ok twoScanStats), userHistory := none }

/-- A logged-in device with a four-scan aggregate of the user and a two-scan anonymous
aggregate. -/
def deviceFourAndTwo : Device :=
  { userId := some "u1", anonStats := some (.ok twoScanStats), anonHistory := none,
    userStats := some (.ok fourScanStats), userHistory := none }

/-- A local aggregate of three scans. -/
def localThree : Stats :=
  { totalItemsScanned := 3, recyclableItemsCount := 0, totalEcoScore := 0, averageEcoScore := 0,
    scansByCategory := [], scansByMaterial := [], lastUpdated := none }

/-- A session with a token, a last refresh at 1 000 000 ms and no query so far. -/
def sessionRefreshed : AuthState :=
  { user := some { id := some "u1", stats := none }, token := some "t",
    lastRefreshTime := some 1000000, profileQueries := [] }

/-! # Theorems -/

/-! ## The loop of `checkAchievements` -/

theorem catalog_ids_nodup : (ACHIEVEMENTS.map Achievement.id).Nodup := by decide

theorem isUnlocked_unlocked_irrelevant (p : Progress) (u : List String) (now : JsDate)
    (r : Requirement) :
    isUnlocked { p with unlockedAchievements := u } now r = isUnlocked p now r := by
  obtain ⟨t, v⟩ := r
  cases t <;> rfl

/-- Over a list of entries with distinct ids the loop returns the eligible entries in order
and appends their ids to the unlocked list; pushing an id never changes the test of a later
entry. -/
theorem foldl_checkStep (now : JsDate) (cat : List Achievement) :
    ∀ st : CheckState, (cat.map Achievement.id).Nodup →
      (cat.foldl (checkStep now) st).newlyUnlocked
          = st.newlyUnlocked ++ cat.filter (eligible st.progress now)
      ∧ (cat.foldl (checkStep now) st).progress
          = { st.progress with unlockedAchievements :=
                st.progress.unlockedAchievements
                  ++ (cat.filter (eligible st.progress now)).map Achievement.id }
      ∧ (cat.foldl (checkStep now) st).storage
          = (cat.filter (eligible st.progress now)).foldl
              (fun acc a => awardPoints a.points a.id now acc) st.storage := by
  induction cat with
  | nil => intro st _; simp
  | cons a rest ih =>
    intro st hnd
    rw [List.map_cons, List.nodup_cons] at hnd
    obtain ⟨hna, hrest⟩ := hnd
    rw [List.foldl_cons]
    by_cases hin : a.id ∈ st.progress.unlockedAchievements
    · have hstep : checkStep now st a = st := by simp [checkStep, hin]
      have hel : eligible st.progress now a = false := by simp [eligible, hin]
      rw [hstep, List.filter_cons, hel]
      exact ih st hrest
    · by_cases hun : isUnlocked st.progress now a.requirement = true
      · have hel : eligible st.progress now a = true := by simp [eligible, hin, hun]
        have hstep : checkStep now st a =
            { progress := { st.progress with
                unlockedAchievements := st.progress.unlockedAchievements ++ [a.id] },
              newlyUnlocked := st.newlyUnlocked ++ [a],
              storage := awardPoints a.points a.id now st.storage } := by
          simp [checkStep, hin, hun]
        have hcongr : rest.filter (eligible { st.progress with
              unlockedAchievements := st.progress.unlockedAchievements ++ [a.id] } now)
            = rest.filter (eligible st.progress now) := by
          apply List.filter_congr
          intro b hb
          have hne : b.id ≠ a.id := by
            intro h
            exact hna (h ▸ List.mem_map_of_mem Achievement.id hb)
          simp [eligible, isUnlocked_unlocked_irrelevant, hne]
        obtain ⟨h1, h2, h3⟩ := ih (checkStep now st a) hrest
        rw [h1, h2, h3, hstep, List.filter_cons, hel]
        simp only [hcongr, if_true]
        refine ⟨?_, ?_, ?_⟩
        · simp
        · simp
        · simp
      · have hstep : checkStep now st a = st := by simp [checkStep, hin, hun]
        have hel : eligible st.progress now a = false := by simp [eligible, hun]
        rw [hstep, List.filter_cons, hel]
        exact ih st hrest

theorem isUnlocked_iff (p : Progress) (now : JsDate) (r : Requirement) :
    isUnlocked p now r = true ↔ requirementHolds p now.getHours r := by
  obtain ⟨t, v⟩ := r
  cases t <;> simp [isUnlocked, requirementHolds]
  by_cases h : p.scanCount = 0
  · simp [h]
  · have : 0 < p.scanCount := Nat.pos_of_ne_zero h
    simp [h, this]

theorem checkAchievements_newlyUnlocked (p : Progress) (now : JsDate) (s : Storage) :
    (checkAchievements p now s).newlyUnlocked = ACHIEVEMENTS.filter (eligible p now) := by
  have h := (foldl_checkStep now ACHIEVEMENTS
    { progress := p, newlyUnlocked := [], storage := s } catalog_ids_nodup).1
  simpa [checkAchievements] using h

theorem checkAchievements_storage (p : Progress) (now : JsDate) (s : Storage) :
    (checkAchievements p now s).storage
      = (ACHIEVEMENTS.filter (eligible p now)).foldl
          (fun acc a => awardPoints a.points a.id now acc) s := by
  have h := (foldl_checkStep now ACHIEVEMENTS
    { progress := p, newlyUnlocked := [], storage := s } catalog_ids_nodup).2.2
  simpa [checkAchievements] using h

theorem checkAchievements_progress (p : Progress) (now : JsDate) (s : Storage) :
    (checkAchievements p now s).progress
      = { p with unlockedAchievements :=
            p.unlockedAchievements
              ++ (ACHIEVEMENTS.filter (eligible p now)).map Achievement.id } := by
  have h := (foldl_checkStep now ACHIEVEMENTS
    { progress := p, newlyUnlocked := [], storage := s } catalog_ids_nodup).2.1
  simpa [checkAchievements] using h

/-! ## C1 -/

/-- C1, evaluated on the code: in a freshly initialized namespace two `updateShareCount`
calls (at noon, one minute apart) each return `share_the_love` and each award its 100 points,
so the ledger holds two award entries for that id with a total of 200, while the persisted
unlocked set is still empty. The specification allows one award entry for an id. -/
theorem C1_share_twice_awards_twice :
    awardedIds (runCalls [.share ⟨43200000⟩, .share ⟨43260000⟩]
        (initializeAchievements Storage.empty)) = ["share_the_love", "share_the_love"]
    ∧ unlockedIds (runCalls [.share ⟨43200000⟩, .share ⟨43260000⟩]
        (initializeAchievements Storage.empty)) = []
    ∧ ((runCalls [.share ⟨43200000⟩, .share ⟨43260000⟩]
        (initializeAchievements Storage.empty)).points.map PointsData.total) = some 200 := by
  have hfilter : ∀ (n : Nat) (now : JsDate), now.getHours = 12 →
      ACHIEVEMENTS.filter (eligible
        { scanCount := 0, recyclableCount := 0, totalEcoScore := 0, categoriesScanned := [],
          dailyStreak := 0, lastScanDate := none, shareCount := n + 1,
          unlockedAchievements := [], pendingAchievements := [] } now)
        = [⟨"share_the_love", 100, ⟨.share_count, 1⟩⟩] := by
    intro n now h
    have h70 : decide ((70 : ℚ) ≤ 0) = false := by norm_num
    have h85 : decide ((85 : ℚ) ≤ 0) = false := by norm_num
    simp [ACHIEVEMENTS, List.filter, eligible, isUnlocked, h, h70, h85]
  have h1 : (⟨43200000⟩ : JsDate).getHours = 12 := by decide
  have h2 : (⟨43260000⟩ : JsDate).getHours = 12 := by decide
  simp [awardedIds, unlockedIds, runCalls, EngineCall.run, updateShareCount,
    checkAchievements_storage, hfilter _ _ h1, hfilter _ _ h2, awardPoints,
    initializeAchievements, Storage.empty]

/-! ## C2 -/

/-- C2: `checkAchievements` returns an achievement exactly when it is a catalog entry whose id
is not in the unlocked set it is handed and whose requirement holds (scan_count,
recyclable_count, category_diversity, daily_streak, share_count: counter at least the value;
average_score: total eco-score over scan count, or 0 with no scan, at least the value;
early_scan: hour below the value; late_scan: hour at least the value). In particular an
achievement whose id is already in the unlocked set is never returned. -/
theorem C2_checkAchievements_returns_iff (p : Progress) (now : JsDate) (s : Storage)
    (a : Achievement) :
    a ∈ (checkAchievements p now s).newlyUnlocked ↔
      (a ∈ ACHIEVEMENTS ∧ a.id ∉ p.unlockedAchievements ∧
        requirementHolds p now.getHours a.requirement) := by
  rw [checkAchievements_newlyUnlocked, List.mem_filter]
  simp [eligible, isUnlocked_iff]

/-! ## C7 -/

theorem previousDay_toDateString (d : JsDate) :
    d.previousDay.toDateString = d.toDateString - 1 := by
  simp only [JsDate.previousDay, JsDate.toDateString, msPerDay]
  omega

theorem updateStreak_dailyStreak (p : Progress) (now : JsDate) :
    (updateStreak p now).dailyStreak = streakAfter p.dailyStreak p.lastScanDate now := by
  have hy := previousDay_toDateString now
  cases hl : p.lastScanDate with
  | none => simp [updateStreak, streakAfter, hl]
  | some l =>
    by_cases h1 : l.toDateString = now.toDateString - 1
    · have h2 : l.toDateString ≠ now.toDateString := by omega
      simp [updateStreak, streakAfter, hl, hy, h1, h2]
    · by_cases h2 : l.toDateString = now.toDateString
      · have h3 : ¬ now.toDateString = now.toDateString - 1 := by omega
        simp [updateStreak, streakAfter, hl, hy, h2, h3]
      · simp [updateStreak, streakAfter, hl, hy, h1, h2]

theorem updateStreak_lastScanDate (p : Progress) (now : JsDate) :
    (updateStreak p now).lastScanDate = some now := by
  simp [updateStreak]

theorem updateCounters_dailyStreak (p : Progress) (scan : ScanResult) :
    (updateCounters p scan).dailyStreak = p.dailyStreak
      ∧ (updateCounters p scan).lastScanDate = p.lastScanDate := by
  unfold updateCounters
  cases scan.category <;> simp <;> split <;> simp <;> split <;> simp

theorem updateProgressAfterScan_some (scan : ScanResult) (now : JsDate) (s : Storage)
    (p : Progress) (h : s.progress = some p) :
    updateProgressAfterScan scan now s =
      ((checkAchievements (updateStreak (updateCounters p scan) now) now s).newlyUnlocked,
        { (checkAchievements (updateStreak (updateCounters p scan) now) now s).storage with
          progress := some
            (checkAchievements (updateStreak (updateCounters p scan) now) now s).progress }) := by
  rw [updateProgressAfterScan]
  split
  · rename_i h2; rw [h] at h2; cases h2
  · rename_i q h2; rw [h] at h2; cases h2; rfl

theorem updateProgressAfterScan_none (scan : ScanResult) (now : JsDate) (s : Storage)
    (h : s.progress = none) :
    updateProgressAfterScan scan now s
      = updateProgressAfterScan scan now (initializeAchievements s) := by
  rw [updateProgressAfterScan]
  split
  · rfl
  · rename_i q h2; rw [h] at h2; cases h2

theorem streakAfter_le (old : Nat) (last : Option JsDate) (now : JsDate) :
    streakAfter old last now ≤ old + 1 := by
  unfold streakAfter
  cases last with
  | none => simp
  | some l => simp only []; split <;> [skip; split] <;> omega

theorem scan_step_some (scan : ScanResult) (now : JsDate) (s : Storage) (p : Progress)
    (h : s.progress = some p) :
    ∃ q, (updateProgressAfterScan scan now s).2.progress = some q
      ∧ q.dailyStreak = streakAfter p.dailyStreak p.lastScanDate now
      ∧ q.lastScanDate = some now := by
  rw [updateProgressAfterScan_some scan now s p h]
  refine ⟨_, rfl, ?_, ?_⟩
  · rw [checkAchievements_progress]
    simp only []
    rw [updateStreak_dailyStreak, (updateCounters_dailyStreak p scan).1,
      (updateCounters_dailyStreak p scan).2]
  · rw [checkAchievements_progress]
    simp only []
    exact updateStreak_lastScanDate _ _

theorem scan_step_any (scan : ScanResult) (now : JsDate) (s : Storage) :
    ∃ q, (updateProgressAfterScan scan now s).2.progress = some q
      ∧ q.dailyStreak ≤ storedStreak s + 1
      ∧ q.lastScanDate = some now := by
  cases h : s.progress with
  | some p =>
    obtain ⟨q, hq, hs, hl⟩ := scan_step_some scan now s p h
    refine ⟨q, hq, ?_, hl⟩
    rw [hs]
    simpa [storedStreak, h] using streakAfter_le p.dailyStreak p.lastScanDate now
  | none =>
    rw [updateProgressAfterScan_none scan now s h]
    have hinit : (initializeAchievements s).progress = some
        { scanCount := 0, recyclableCount := 0, totalEcoScore := 0, categoriesScanned := [],
          dailyStreak := 0, lastScanDate := none, shareCount := 0,
          unlockedAchievements := [], pendingAchievements := [] } := by
      simp only [initializeAchievements, h]
      cases s.points <;> rfl
    obtain ⟨q, hq, hs, hl⟩ := scan_step_some scan now _ _ hinit
    refine ⟨q, hq, ?_, hl⟩
    rw [hs]
    simp [streakAfter, storedStreak, h]

theorem same_day_scans_keep_streak (d : Int) (calls : List (ScanResult × JsDate)) :
    ∀ (s : Storage) (p : Progress) (l : JsDate), s.progress = some p →
      p.lastScanDate = some l → l.toDateString = d →
      (∀ c ∈ calls, c.2.toDateString = d) →
      storedStreak (runCalls (scanCalls calls) s) = p.dailyStreak := by
  induction calls with
  | nil => intro s p l h _ _ _; simp [scanCalls, runCalls, storedStreak, h]
  | cons c rest ih =>
    intro s p l h hl hd hall
    obtain ⟨q, hq, hs, hlq⟩ := scan_step_some c.1 c.2 s p h
    have hc : c.2.toDateString = d := hall c (List.mem_cons_self _ _)
    have hrest : ∀ x ∈ rest, x.2.toDateString = d :=
      fun x hx => hall x (List.mem_cons_of_mem _ hx)
    have hkeep : q.dailyStreak = p.dailyStreak := by
      rw [hs, hl]
      have h1 : ¬ l.toDateString = c.2.toDateString - 1 := by omega
      have h2 : l.toDateString = c.2.toDateString := by omega
      have h3 : ¬ c.2.toDateString = c.2.toDateString - 1 := by omega
      simp [streakAfter, h2, h3]
    have := ih (updateProgressAfterScan c.1 c.2 s).2 q c.2 hq hlq hc hrest
    simpa [scanCalls, runCalls, EngineCall.run, hkeep] using this

/-- C7: when progress `p` is stored, `updateProgressAfterScan` persists a daily streak of
`p.dailyStreak + 1` if `p.lastScanDate` is unset or falls on the calendar day before today, of
`p.dailyStreak` if it falls on today, and of 1 otherwise, and persists the current time as
`lastScanDate`. Consequently any number of scans on one calendar day raises the persisted
streak by at most 1. -/
theorem C7_streak_update :
    (∀ (scan : ScanResult) (now : JsDate) (s : Storage) (p : Progress), s.progress = some p →
      ∃ q, (updateProgressAfterScan scan now s).2.progress = some q
        ∧ q.dailyStreak = streakAfter p.dailyStreak p.lastScanDate now
        ∧ q.lastScanDate = some now)
    ∧ (∀ (calls : List (ScanResult × JsDate)) (d : Int) (s : Storage),
        (∀ c ∈ calls, c.2.toDateString = d) →
        storedStreak (runCalls (scanCalls calls) s) ≤ storedStreak s + 1) := by
  refine ⟨scan_step_some, ?_⟩
  intro calls d s hall
  cases calls with
  | nil => simp [scanCalls, runCalls]
  | cons c rest =>
    obtain ⟨q, hq, hs, hlq⟩ := scan_step_any c.1 c.2 s
    have hc : c.2.toDateString = d := hall c (List.mem_cons_self _ _)
    have hrest : ∀ x ∈ rest, x.2.toDateString = d :=
      fun x hx => hall x (List.mem_cons_of_mem _ hx)
    have := same_day_scans_keep_streak d rest (updateProgressAfterScan c.1 c.2 s).2 q c.2
      hq hlq hc hrest
    have h2 : storedStreak (runCalls (scanCalls (c :: rest)) s) = q.dailyStreak := by
      simpa [scanCalls, runCalls, EngineCall.run] using this
    rw [h2]
    exact hs


/-- C7 at concrete inputs: a scan on day 10 after a last scan on day 9, and two scans on day
10 in an empty namespace. -/
theorem C7_streak_update_witness :
    (∃ q, (updateProgressAfterScan blankScan ⟨864000001⟩ threeDayStore).2.progress = some q
        ∧ q.dailyStreak = streakAfter threeDayProgress.dailyStreak
            threeDayProgress.lastScanDate ⟨864000001⟩
        ∧ q.lastScanDate = some ⟨864000001⟩)
    ∧ storedStreak (runCalls (scanCalls
          [(blankScan, ⟨864000001⟩), (plasticScan, ⟨864000002⟩)]) Storage.empty)
        ≤ storedStreak Storage.empty + 1 :=
  ⟨C7_streak_update.1 blankScan ⟨864000001⟩ threeDayStore threeDayProgress rfl,
    C7_streak_update.2 _ 10 _ (by decide)⟩

/-! ## C3 -/

theorem take_append_take (n : Nat) (A B : List ScanRecord) :
    (A ++ B.take n).take n = (A ++ B).take n := by
  rw [List.take_append_eq_append_take, List.take_append_eq_append_take, List.take_take]
  congr 2
  omega

theorem updateStatistics_history (scan : ScanRecord) (now : JsDate) (s : Storage) :
    (updateStatistics scan now s).2.history = s.history := by
  simp only [updateStatistics]

theorem saveScanToHistory_history (c : SaveCall) (s : Storage) :
    storedHistory (saveScanToHistory c.scanResult c.imageUri c.now s).2
      = (c.scan :: storedHistory s).take 100 := by
  simp only [saveScanToHistory, storedHistory, updateStatistics_history, SaveCall.scan]
  rfl

theorem saveAll_history (calls : List SaveCall) :
    ∀ s : Storage, (storedHistory s).length ≤ 100 →
      storedHistory (saveAll calls s)
        = ((calls.map SaveCall.scan).reverse ++ storedHistory s).take 100 := by
  induction calls with
  | nil =>
    intro s hs
    simp [saveAll, List.take_of_length_le hs]
  | cons c rest ih =>
    intro s _
    have hlen : (storedHistory (saveScanToHistory c.scanResult c.imageUri c.now s).2).length
        ≤ 100 := by
      rw [saveScanToHistory_history]
      exact List.length_take_le _ _
    have h := ih (saveScanToHistory c.scanResult c.imageUri c.now s).2 hlen
    have hfold : saveAll (c :: rest) s
        = saveAll rest (saveScanToHistory c.scanResult c.imageUri c.now s).2 := rfl
    rw [hfold, h, saveScanToHistory_history, take_append_take]
    simp

/-- C3: each `saveScanToHistory` call puts the new record at the head of the stored history
and keeps the first 100 entries; after `n` calls on an empty namespace the stored history is
the `min n 100` most recently recorded scans, newest first, and has length `min n 100`; after
150 calls it has length 100 and is the 100 most recent records. -/
theorem C3_history_keeps_100_most_recent :
    (∀ (c : SaveCall) (s : Storage),
      storedHistory (saveScanToHistory c.scanResult c.imageUri c.now s).2
        = (c.scan :: storedHistory s).take 100)
    ∧ (∀ calls : List SaveCall,
        storedHistory (saveAll calls Storage.empty)
            = ((calls.map SaveCall.scan).reverse).take (min calls.length 100)
          ∧ (storedHistory (saveAll calls Storage.empty)).length = min calls.length 100)
    ∧ (∀ calls : List SaveCall, calls.length = 150 →
        (storedHistory (saveAll calls Storage.empty)).length = 100
          ∧ storedHistory (saveAll calls Storage.empty)
              = ((calls.map SaveCall.scan).reverse).take 100) := by
  have key : ∀ calls : List SaveCall,
      storedHistory (saveAll calls Storage.empty)
        = ((calls.map SaveCall.scan).reverse).take 100 := by
    intro calls
    have h := saveAll_history calls Storage.empty (by simp [storedHistory, Storage.empty])
    simpa [storedHistory, Storage.empty] using h
  refine ⟨saveScanToHistory_history, ?_, ?_⟩
  · intro calls
    rw [key]
    constructor
    · by_cases h : calls.length ≤ 100
      · rw [Nat.min_eq_left h, List.take_of_length_le (by simpa using h),
          List.take_of_length_le (by simp)]
      · rw [Nat.min_eq_right (by omega)]
    · simp [Nat.min_comm]
  · intro calls h
    rw [key]
    constructor
    · simp [h]
    · rfl

/-- C3 on 150 scans of the plastic item. -/
theorem C3_history_keeps_100_most_recent_witness :
    (storedHistory (saveAll (plasticCalls 150) Storage.empty)).length = 100
    ∧ storedHistory (saveAll (plasticCalls 150) Storage.empty)
      = (((plasticCalls 150).map SaveCall.scan).reverse).take 100 :=
  C3_history_keeps_100_most_recent.2.2 (plasticCalls 150)
    (by rw [plasticCalls, List.length_map, List.length_range])

/-! ## C4 -/

theorem CountMap.get_set (m : CountMap) (k : String) (v : Nat) (c : String) :
    CountMap.get (CountMap.set m k v) c = if k = c then some v else CountMap.get m c := by
  induction m with
  | nil => simp [CountMap.set, CountMap.get]
  | cons kv rest ih =>
    obtain ⟨k1, v1⟩ := kv
    by_cases h : k1 = k
    · subst h
      by_cases h2 : k1 = c <;> simp [CountMap.set, CountMap.get, h2]
    · by_cases h2 : k1 = c
      · subst h2
        have h3 : ¬ k = k1 := fun e => h e.symm
        simp [CountMap.set, CountMap.get, h, h3]
      · simp [CountMap.set, CountMap.get, h, h2, ih]

theorem orString_ne_empty (x : Option String) : orString x "Other" ≠ "" := by
  unfold orString
  cases x with
  | none => decide
  | some v =>
    by_cases h : v = ""
    · simp [h]
    · simp [h]

theorem saveScanToHistory_stats (c : SaveCall) (s : Storage) :
    ∃ st, (saveScanToHistory c.scanResult c.imageUri c.now s).2.stats = some st
      ∧ st.totalItemsScanned = (storedStats s).totalItemsScanned + 1
      ∧ st.recyclableItemsCount = (storedStats s).recyclableItemsCount
          + (if c.scanResult.isRecyclable = some true then 1 else 0)
      ∧ st.totalEcoScore = (storedStats s).totalEcoScore + orZero c.scanResult.ecoScore
      ∧ st.averageEcoScore = st.totalEcoScore / st.totalItemsScanned
      ∧ ∀ k, st.scansByCategory.get k =
          if orString c.scanResult.category "Other" = k then
            some (((storedStats s).scansByCategory.get k).getD 0 + 1)
          else (storedStats s).scansByCategory.get k := by
  have hne := orString_ne_empty c.scanResult.category
  refine ⟨_, rfl, ?_, ?_, ?_, ?_, ?_⟩
  · simp only [saveScanToHistory, updateStatistics, storedStats]
    split <;> rfl
  · simp only [saveScanToHistory, updateStatistics, storedStats, makeScan]
    cases hr : c.scanResult.isRecyclable with
    | none => simp
    | some b => cases b <;> simp
  · simp only [saveScanToHistory, updateStatistics, storedStats, makeScan]
    split <;> rfl
  · simp only [saveScanToHistory, updateStatistics, storedStats]
  · intro k
    simp only [saveScanToHistory, updateStatistics, storedStats, makeScan, if_neg hne]
    rw [CountMap.get_set]
    by_cases hk : orString c.scanResult.category "Other" = k
    · subst hk
      simp only [if_true]
      split <;> rfl
    · simp only [if_neg hk]
      split <;> rfl

theorem orString_other (x : Option String) :
    orString x "Other" = (match x with
      | none => "Other"
      | some "" => "Other"
      | some v => v) := by
  unfold orString
  cases x with
  | none => rfl
  | some v =>
    by_cases h : v = ""
    · subst h; rfl
    · simp only [if_neg h]

theorem saveAll_stats (calls : List SaveCall) :
    ∀ s : Storage, calls ≠ [] →
      ∃ st, (saveAll calls s).stats = some st
        ∧ st.totalItemsScanned = (storedStats s).totalItemsScanned + calls.length
        ∧ st.recyclableItemsCount = (storedStats s).recyclableItemsCount + recyclableScans calls
        ∧ st.totalEcoScore = (storedStats s).totalEcoScore + ecoScoreSum calls
        ∧ st.averageEcoScore = st.totalEcoScore / st.totalItemsScanned
        ∧ ∀ k, st.scansByCategory.get k =
            if categoryScans calls k = 0 then (storedStats s).scansByCategory.get k
            else some (((storedStats s).scansByCategory.get k).getD 0 + categoryScans calls k) := by
  induction calls with
  | nil => intro s h; exact absurd rfl h
  | cons c rest ih =>
    intro s _
    obtain ⟨st1, h1, ht1, hr1, he1, ha1, hc1⟩ := saveScanToHistory_stats c s
    have hfold : saveAll (c :: rest) s
        = saveAll rest (saveScanToHistory c.scanResult c.imageUri c.now s).2 := rfl
    have hcat : ∀ k, categoryScans (c :: rest) k
        = categoryScans rest k + (if orString c.scanResult.category "Other" = k then 1 else 0) := by
      intro k
      simp only [categoryScans, List.countP_cons, orString_other]
      simp
    have hrec : recyclableScans (c :: rest)
        = recyclableScans rest + (if c.scanResult.isRecyclable = some true then 1 else 0) := by
      simp only [recyclableScans, List.countP_cons]
      simp
    have heco : ecoScoreSum (c :: rest) = orZero c.scanResult.ecoScore + ecoScoreSum rest := by
      simp [ecoScoreSum, orZero]
    by_cases hrest : rest = []
    · subst hrest
      refine ⟨st1, by rw [hfold]; exact h1, ?_, ?_, ?_, ha1, ?_⟩
      · simpa using ht1
      · rw [hr1, hrec]; simp [recyclableScans]
      · rw [he1, heco]; simp [ecoScoreSum]
      · intro k
        rw [hc1 k, hcat k]
        by_cases hk : orString c.scanResult.category "Other" = k <;> simp [hk, categoryScans]
    · obtain ⟨st, h2, ht2, hr2, he2, ha2, hc2⟩ :=
        ih (saveScanToHistory c.scanResult c.imageUri c.now s).2 hrest
      have hst1 : storedStats (saveScanToHistory c.scanResult c.imageUri c.now s).2 = st1 := by
        simp [storedStats, h1]
      rw [hst1] at ht2 hr2 he2 hc2
      refine ⟨st, by rw [hfold]; exact h2, ?_, ?_, ?_, ha2, ?_⟩
      · rw [ht2, ht1, List.length_cons]; omega
      · rw [hr2, hr1, hrec]; omega
      · rw [he2, he1, heco]; ring
      · intro k
        rw [hc2 k, hc1 k, hcat k]
        by_cases hk : orString c.scanResult.category "Other" = k
        · by_cases h0 : categoryScans rest k = 0
          · simp [hk, h0]
          · simp [hk, h0]; omega
        · simp [hk]

/-- C4: after `n ≥ 1` scans recorded through `saveScanToHistory` into an empty namespace the
stored aggregate has `totalItemsScanned = n`, `recyclableItemsCount` the number of recyclable
scans, `totalEcoScore` the sum of the eco-scores (a missing score counting as 0),
`averageEcoScore` that sum divided by `n`, and `scansByCategory[k]` the number of scans of
category `k` (a missing category counting as "Other"), the property being absent when there is
no such scan. -/
theorem C4_aggregate_after_scans (calls : List SaveCall) (hne : calls ≠ []) :
    ∃ st, (saveAll calls Storage.empty).stats = some st
      ∧ st.totalItemsScanned = calls.length
      ∧ st.recyclableItemsCount = recyclableScans calls
      ∧ st.totalEcoScore = ecoScoreSum calls
      ∧ st.averageEcoScore = ecoScoreSum calls / calls.length
      ∧ ∀ k, st.scansByCategory.get k =
          if categoryScans calls k = 0 then none else some (categoryScans calls k) := by
  obtain ⟨st, h, ht, hr, he, ha, hc⟩ := saveAll_stats calls Storage.empty hne
  have ht2 : st.totalItemsScanned = calls.length := by
    simpa [storedStats, Storage.empty, Stats.default] using ht
  have he2 : st.totalEcoScore = ecoScoreSum calls := by
    simpa [storedStats, Storage.empty, Stats.default] using he
  refine ⟨st, h, ht2, ?_, he2, ?_, ?_⟩
  · simpa [storedStats, Storage.empty, Stats.default] using hr
  · rw [ha, he2, ht2]
  · intro k
    simpa [storedStats, Storage.empty, Stats.default, CountMap.get] using hc k

/-- C4 on one recyclable Plastic scan with eco-score 80: the counts are 1 and 1, the average
is 80 and `scansByCategory["Plastic"]` is 1. -/
theorem C4_aggregate_after_scans_witness :
    onePlasticCall ≠ [] ∧
    ∃ st, (saveAll onePlasticCall Storage.empty).stats = some st
      ∧ st.totalItemsScanned = 1
      ∧ st.recyclableItemsCount = 1
      ∧ st.totalEcoScore = 80
      ∧ st.averageEcoScore = 80
      ∧ st.scansByCategory.get "Plastic" = some 1 := by
  refine ⟨by decide, ?_⟩
  obtain ⟨st, h, ht, hr, he, ha, hc⟩ := C4_aggregate_after_scans onePlasticCall (by decide)
  have hsum : ecoScoreSum onePlasticCall = 80 := by
    norm_num [ecoScoreSum, onePlasticCall, plasticScan]
  refine ⟨st, h, ht, ?_, ?_, ?_, ?_⟩
  · rw [hr]; decide
  · rw [he, hsum]
  · rw [ha, hsum]; norm_num [onePlasticCall]
  · rw [hc "Plastic"]; decide

/-! ## The stats entry written by `transferAnonymousData` -/

theorem storedUserStats_of_map (d : Device) (userStats : Option Stats)
    (hs : d.userStats = userStats.map Stored.ok) :
    d.storedUserStats = userStats ∧ d.userStats ≠ some .corrupt := by
  cases userStats <;> simp [Device.storedUserStats, hs]

/-- With a logged-in user, anonymous stats that parse, a user entry that is missing or parses,
and a stats write that succeeds, the user's stats entry after `transferAnonymousData` holds the
object `mergedStats`, whether or not the history is transferred afterwards. -/
theorem transfer_writes_merged (now : JsDate) (faults : WriteFaults) (d : Device) (uid : String)
    (anonStats : Stats) (hu : d.userId = some uid) (ha : d.anonStats = some (.ok anonStats))
    (hs : d.userStats ≠ some .corrupt) (hw : faults.statsWrite = false) :
    (transferAnonymousData now faults d).userStats
      = some (.ok (TransferAnonymousData.mergedStats d.storedUserStats anonStats now)) := by
  obtain ⟨uidd, as, ah, us, uh⟩ := d
  simp only at hu ha hs
  subst hu ha
  rcases us with _ | us | _ <;> rcases ah with _ | ah | _ <;> rcases uh with _ | uh | _ <;>
    cases hh : faults.historyWrite <;>
    simp_all [transferAnonymousData, TransferAnonymousData.transferStats,
      TransferAnonymousData.transferHistory, Device.storedUserStats]

theorem mergedStats_average (userStats : Option Stats) (anonStats : Stats) (now : JsDate) :
    AverageInvariant (TransferAnonymousData.mergedStats userStats anonStats now) := by
  intro hpos
  unfold TransferAnonymousData.mergedStats at hpos ⊢
  simp only [] at hpos ⊢
  split
  · rfl
  · rename_i hn
    rw [if_neg hn] at hpos
    exact absurd hpos hn

/-- The block "Transfer stats" leaves the user's stats entry as it was or replaces it by the
object `mergedStats`. -/
theorem transferStats_userStats (now : JsDate) (faults : WriteFaults) (d : Device) :
    ∀ r, (TransferAnonymousData.transferStats now faults d = .ok r
        ∨ TransferAnonymousData.transferStats now faults d = .error r) →
      (r.userStats = d.userStats
        ∨ ∃ anonStats, r.userStats
            = some (.ok (TransferAnonymousData.mergedStats d.storedUserStats anonStats now))) := by
  intro r hr
  unfold TransferAnonymousData.transferStats at hr
  split at hr
  · rcases hr with hr | hr
    · cases hr; exact Or.inl rfl
    · cases hr
  · rcases hr with hr | hr
    · cases hr
    · cases hr; exact Or.inl rfl
  · rename_i anonStats _
    split at hr
    · rcases hr with hr | hr
      · cases hr
      · cases hr; exact Or.inl rfl
    · rename_i userStats hus
      split at hr
      · rcases hr with hr | hr
        · cases hr
        · cases hr; exact Or.inl rfl
      · rcases hr with hr | hr
        · cases hr
          refine Or.inr ⟨anonStats, ?_⟩
          simp [Device.storedUserStats, hus]
        · cases hr
    · rename_i hus
      split at hr
      · rcases hr with hr | hr
        · cases hr
        · cases hr; exact Or.inl rfl
      · rcases hr with hr | hr
        · cases hr
          refine Or.inr ⟨anonStats, ?_⟩
          simp [Device.storedUserStats, hus]
        · cases hr

theorem transferHistory_userStats (faults : WriteFaults) (d : Device) :
    ∀ r, (TransferAnonymousData.transferHistory faults d = .ok r
        ∨ TransferAnonymousData.transferHistory faults d = .error r) →
      r.userStats = d.userStats := by
  intro r hr
  unfold TransferAnonymousData.transferHistory at hr
  split at hr
  · rcases hr with hr | hr <;> cases hr; rfl
  · rcases hr with hr | hr <;> cases hr; rfl
  · split at hr
    · rcases hr with hr | hr <;> cases hr; rfl
    · split at hr
      · rcases hr with hr | hr <;> cases hr; rfl
      · rcases hr with hr | hr <;> cases hr; rfl
    · split at hr
      · rcases hr with hr | hr <;> cases hr; rfl
      · rcases hr with hr | hr <;> cases hr; rfl

/-- Whatever `transferAnonymousData` does, the user's stats entry is afterwards the entry it was
or the object `mergedStats`. -/
theorem transfer_userStats_cases (now : JsDate) (faults : WriteFaults) (d : Device) :
    (transferAnonymousData now faults d).userStats = d.userStats
    ∨ ∃ anonStats, (transferAnonymousData now faults d).userStats
        = some (.ok (TransferAnonymousData.mergedStats d.storedUserStats anonStats now)) := by
  unfold transferAnonymousData
  cases d.userId with
  | none => exact Or.inl rfl
  | some uid =>
    simp only []
    split
    · exact Or.inl rfl
    · cases h1 : TransferAnonymousData.transferStats now faults d with
      | error d1 =>
        exact transferStats_userStats now faults d d1 (Or.inr h1)
      | ok d1 =>
        have hs := transferStats_userStats now faults d d1 (Or.inl h1)
        cases h2 : TransferAnonymousData.transferHistory faults d1 with
        | error d2 =>
          have h3 := transferHistory_userStats faults d1 d2 (Or.inr h2)
          simp only [h2]
          rw [h3]
          exact hs
        | ok d2 =>
          have h3 := transferHistory_userStats faults d1 d2 (Or.inl h2)
          simp only [h2]
          rw [h3]
          exact hs


/-! ## C5 -/

/-- C5: the aggregate written by `updateStatistics`, for every stored aggregate (or none) and
every scan, and the merged aggregate written by `transferAnonymousData`, for every user
aggregate (or none) and anonymous aggregate, satisfy: `totalItemsScanned > 0` implies
`averageEcoScore = totalEcoScore / totalItemsScanned`. For `transferAnonymousData` this is
stated of the object `mergedStats`, of the entry found under the user's stats key after a
transfer whose stats write succeeds, and of that entry after any run at all: it is the entry
that was there before, or an aggregate that satisfies the invariant. -/
theorem C5_average_invariant :
    (∀ (scan : ScanRecord) (now : JsDate) (s : Storage),
      (updateStatistics scan now s).2.stats = some (updateStatistics scan now s).1
      ∧ AverageInvariant (updateStatistics scan now s).1)
    ∧ (∀ (userStats : Option Stats) (anonStats : Stats) (now : JsDate),
      AverageInvariant (TransferAnonymousData.mergedStats userStats anonStats now))
    ∧ (∀ (now : JsDate) (faults : WriteFaults) (d : Device) (uid : String) (anonStats : Stats),
        d.userId = some uid → d.anonStats = some (.ok anonStats) →
        d.userStats ≠ some .corrupt → faults.statsWrite = false →
        (transferAnonymousData now faults d).userStats
            = some (.ok (TransferAnonymousData.mergedStats d.storedUserStats anonStats now))
        ∧ AverageInvariant (TransferAnonymousData.mergedStats d.storedUserStats anonStats now))
    ∧ (∀ (now : JsDate) (faults : WriteFaults) (d : Device),
        (transferAnonymousData now faults d).userStats = d.userStats
        ∨ ∃ merged, (transferAnonymousData now faults d).userStats = some (.ok merged)
            ∧ AverageInvariant merged) := by
  refine ⟨?_, mergedStats_average, ?_, ?_⟩
  · intro scan now s
    refine ⟨rfl, ?_⟩
    intro _
    simp only [updateStatistics]
  · intro now faults d uid anonStats hu ha hs hw
    exact ⟨transfer_writes_merged now faults d uid anonStats hu ha hs hw,
      mergedStats_average _ _ _⟩
  · intro now faults d
    rcases transfer_userStats_cases now faults d with h | ⟨anonStats, h⟩
    · exact Or.inl h
    · exact Or.inr ⟨_, h, mergedStats_average _ _ _⟩

/-- C5 at concrete inputs: the first scan of an empty namespace, and the transfer of a four-scan
anonymous aggregate to a user with a two-scan aggregate; both written aggregates have a
positive count and the average is the sum over the count. -/
theorem C5_average_invariant_witness :
    (0 < (updateStatistics (makeScan plasticScan none ⟨0⟩) ⟨0⟩ Storage.empty).1.totalItemsScanned
      ∧ (updateStatistics (makeScan plasticScan none ⟨0⟩) ⟨0⟩ Storage.empty).1.averageEcoScore
        = (updateStatistics (makeScan plasticScan none ⟨0⟩) ⟨0⟩ Storage.empty).1.totalEcoScore
          / (updateStatistics (makeScan plasticScan none ⟨0⟩) ⟨0⟩
              Storage.empty).1.totalItemsScanned)
    ∧ ((transferAnonymousData ⟨0⟩ WriteFaults.none deviceTwoAndFour).userStats
        = some (.ok (TransferAnonymousData.mergedStats (some twoScanStats) fourScanStats ⟨0⟩))
      ∧ 0 < (TransferAnonymousData.mergedStats (some twoScanStats) fourScanStats
          ⟨0⟩).totalItemsScanned
      ∧ (TransferAnonymousData.mergedStats (some twoScanStats) fourScanStats ⟨0⟩).averageEcoScore
        = (TransferAnonymousData.mergedStats (some twoScanStats) fourScanStats ⟨0⟩).totalEcoScore
          / (TransferAnonymousData.mergedStats (some twoScanStats) fourScanStats
              ⟨0⟩).totalItemsScanned) :=
  have h1 : 0 < (updateStatistics (makeScan plasticScan none ⟨0⟩) ⟨0⟩
      Storage.empty).1.totalItemsScanned := by decide
  have h2 : 0 < (TransferAnonymousData.mergedStats (some twoScanStats) fourScanStats
      ⟨0⟩).totalItemsScanned := by decide
  have h3 := C5_average_invariant.2.2.1 ⟨0⟩ WriteFaults.none deviceTwoAndFour "u1" fourScanStats
    rfl rfl (by simp [deviceTwoAndFour]) rfl
  ⟨⟨h1, (C5_average_invariant.1 _ _ _).2 h1⟩, ⟨h3.1, h2, h3.2 h2⟩⟩

/-! ## Doubles -/

theorem roundHalfEven_error (q : ℚ) : |(roundHalfEven q : ℚ) - q| ≤ 1 / 2 := by
  have h1 := Int.floor_le q
  have h2 := Int.lt_floor_add_one q
  unfold roundHalfEven
  split
  · rw [abs_le]; constructor <;> linarith
  · split
    · push_cast; rw [abs_le]; constructor <;> linarith
    · have heq : q - (⌊q⌋ : ℤ) = 1 / 2 := by
        rename_i h3 h4
        exact le_antisymm (not_lt.mp h4) (not_lt.mp h3)
      split
      · rw [abs_le]; constructor <;> linarith
      · push_cast; rw [abs_le]; constructor <;> linarith

theorem roundHalfEven_nonneg (q : ℚ) (h : 0 ≤ q) : 0 ≤ roundHalfEven q := by
  have h0 : (0 : ℤ) ≤ ⌊q⌋ := Int.floor_nonneg.mpr h
  unfold roundHalfEven
  split
  · exact h0
  · split
    · omega
    · split
      · exact h0
      · omega

theorem roundToDouble_of_pos (x : ℚ) (hx : 0 < x) :
    roundToDouble x
      = (roundHalfEven (x / (2 : ℚ) ^ (Int.log 2 x - 52)) : ℚ) * (2 : ℚ) ^ (Int.log 2 x - 52) := by
  unfold roundToDouble
  rw [if_neg (ne_of_gt hx), if_neg (not_lt.mpr (le_of_lt hx))]

theorem roundToDouble_neg (x : ℚ) : roundToDouble (-x) = -roundToDouble x := by
  rcases lt_trichotomy x 0 with h | h | h
  · have h1 : 0 < -x := by linarith
    rw [roundToDouble_of_pos _ h1]
    unfold roundToDouble
    rw [if_neg (ne_of_lt h), if_pos h]
    ring
  · subst h; simp [roundToDouble]
  · rw [roundToDouble_of_pos _ h]
    unfold roundToDouble
    have h1 : -x < 0 := by linarith
    rw [if_neg (ne_of_lt h1), if_pos h1]
    simp

theorem roundToDouble_error_pos (x : ℚ) (hx : 0 < x) :
    |roundToDouble x - x| ≤ x / 2 ^ 53 := by
  rw [roundToDouble_of_pos x hx]
  have hs : (0 : ℚ) < (2 : ℚ) ^ (Int.log 2 x - 52) := by positivity
  have hlog : ((2 : ℚ) ^ (Int.log 2 x)) ≤ x := by
    have := Int.zpow_log_le_self (b := 2) (r := x) (by norm_num) hx
    exact_mod_cast this
  have hsplit : (2 : ℚ) ^ (Int.log 2 x) = (2 : ℚ) ^ (Int.log 2 x - 52) * 2 ^ 52 := by
    rw [zpow_sub₀ (by norm_num : (2 : ℚ) ≠ 0)]
    rw [show ((2 : ℚ) ^ (52 : ℤ)) = 2 ^ 52 by norm_cast]
    field_simp
  have herr := roundHalfEven_error (x / (2 : ℚ) ^ (Int.log 2 x - 52))
  generalize (2 : ℚ) ^ (Int.log 2 x - 52) = s at hs hsplit herr ⊢
  generalize (roundHalfEven (x / s) : ℚ) = m at herr ⊢
  rw [hsplit] at hlog
  rw [abs_le] at herr ⊢
  have h1 : x / s * s = x := by field_simp
  have h2 : (m - x / s) * s = m * s - x := by rw [sub_mul, h1]
  constructor
  · have := mul_le_mul_of_nonneg_right herr.1 (le_of_lt hs)
    rw [h2] at this
    have h53 : x / 2 ^ 53 ≥ s / 2 := by
      rw [ge_iff_le, div_le_div_iff₀ (by norm_num) (by positivity)]
      nlinarith
    linarith
  · have := mul_le_mul_of_nonneg_right herr.2 (le_of_lt hs)
    rw [h2] at this
    have h53 : x / 2 ^ 53 ≥ s / 2 := by
      rw [ge_iff_le, div_le_div_iff₀ (by norm_num) (by positivity)]
      nlinarith
    linarith

theorem roundToDouble_error (x : ℚ) : |roundToDouble x - x| ≤ |x| / 2 ^ 53 := by
  rcases lt_trichotomy x 0 with h | h | h
  · have h1 : 0 < -x := by linarith
    have := roundToDouble_error_pos (-x) h1
    rw [roundToDouble_neg] at this
    rw [abs_of_neg h]
    rw [show -roundToDouble x - -x = -(roundToDouble x - x) by ring, abs_neg] at this
    exact this
  · subst h; simp [roundToDouble]
  · rw [abs_of_pos h]; exact roundToDouble_error_pos x h

theorem roundToDouble_nonneg (x : ℚ) (hx : 0 ≤ x) : 0 ≤ roundToDouble x := by
  rcases eq_or_lt_of_le hx with h | h
  · subst h; simp [roundToDouble]
  · rw [roundToDouble_of_pos x h]
    have h0 : (0 : ℤ) ≤ roundHalfEven (x / (2 : ℚ) ^ (Int.log 2 x - 52)) :=
      roundHalfEven_nonneg _ (by positivity)
    have h1 : (0 : ℚ) ≤ (roundHalfEven (x / (2 : ℚ) ^ (Int.log 2 x - 52)) : ℚ) := by
      exact_mod_cast h0
    positivity

theorem roundToDouble_pos_of_exponent (x : ℚ) (e : ℤ) (hx : 0 < x)
    (h1 : (2 : ℚ) ^ (e + 52) ≤ x) (h2 : x < (2 : ℚ) ^ (e + 53)) :
    roundToDouble x = (roundHalfEven (x / (2 : ℚ) ^ e) : ℚ) * (2 : ℚ) ^ e := by
  have hlog : Int.log 2 x = e + 52 := by
    have ha : e + 52 ≤ Int.log 2 x :=
      (Int.zpow_le_iff_le_log (b := 2) (by norm_num) hx (x := e + 52)).mp (by exact_mod_cast h1)
    have hb : Int.log 2 x < e + 53 :=
      (Int.lt_zpow_iff_log_lt (b := 2) (by norm_num) hx (x := e + 53)).mp (by exact_mod_cast h2)
    omega
  rw [roundToDouble_of_pos x hx, hlog]
  have : e + 52 - 52 = e := by ring
  rw [this]

/-- `toFixed(1)` of a value less than 0.05 away from a whole number of twentieths. -/
theorem toFixed1_near_twentieth (y : ℚ) (j : ℤ) (hy : 0 ≤ y) (h : |y - (j : ℚ) / 20| < 1 / 20) :
    |toFixed1 y - (j : ℚ) / 20| ≤ 1 / 20 := by
  unfold toFixed1
  rw [if_neg (not_lt.mpr hy)]
  have h1 := Int.floor_le (y * 10 + 1 / 2)
  have h2 := Int.lt_floor_add_one (y * 10 + 1 / 2)
  rw [abs_lt] at h
  generalize ⌊y * 10 + 1 / 2⌋ = f at h1 h2 ⊢
  have ha : 2 * f ≤ j + 1 := by
    have : ((2 * f : ℤ) : ℚ) < ((j + 2 : ℤ) : ℚ) := by push_cast; linarith [h.2]
    have := Int.cast_lt.mp this
    omega
  have hb : j - 1 ≤ 2 * f := by
    have : ((j : ℤ) : ℚ) < ((2 * f + 2 : ℤ) : ℚ) := by push_cast; linarith [h.1]
    have := Int.cast_lt.mp this
    omega
  have ha1 : ((2 * f : ℤ) : ℚ) ≤ ((j + 1 : ℤ) : ℚ) := Int.cast_le.mpr ha
  have hb1 : ((j - 1 : ℤ) : ℚ) ≤ ((2 * f : ℤ) : ℚ) := Int.cast_le.mpr hb
  push_cast at ha1 hb1
  rw [abs_le]
  constructor <;> linarith

/-- `toFixed(1)` of a value less than 0.05 away from a whole number of tenths. -/
theorem toFixed1_of_near (y : ℚ) (k : ℤ) (hy : 0 ≤ y) (h : |y - (k : ℚ) / 10| < 1 / 20) :
    toFixed1 y = (k : ℚ) / 10 := by
  unfold toFixed1
  rw [if_neg (not_lt.mpr hy)]
  have hfl : ⌊y * 10 + 1 / 2⌋ = k := by
    rw [abs_lt] at h
    rw [Int.floor_eq_iff]
    constructor <;> linarith [h.1, h.2]
  rw [hfl]

theorem double_of_tenth : roundToDouble (1 / 10) = 3602879701896397 / 2 ^ 55 := by
  rw [roundToDouble_pos_of_exponent (1 / 10) (-56) (by norm_num) (by norm_num) (by norm_num)]
  norm_num [roundHalfEven]

theorem double_of_150_grams : roundToDouble (150 / 1000) = 5404319552844595 / 2 ^ 55 := by
  rw [roundToDouble_pos_of_exponent (150 / 1000) (-55) (by norm_num) (by norm_num) (by norm_num)]
  norm_num [roundHalfEven]

theorem double_of_450_grams : roundToDouble (450 / 1000) = 8106479329266893 / 2 ^ 54 := by
  rw [roundToDouble_pos_of_exponent (450 / 1000) (-54) (by norm_num) (by norm_num) (by norm_num)]
  norm_num [roundHalfEven]

theorem double_of_three_tenths :
    roundToDouble (3 * roundToDouble (1 / 10)) = 5404319552844596 / 2 ^ 54 := by
  rw [double_of_tenth]
  rw [roundToDouble_pos_of_exponent _ (-54) (by norm_num) (by norm_num) (by norm_num)]
  norm_num [roundHalfEven]

theorem tenths_product (n : Nat) (hn : n ≤ 10 ^ 15) :
    toFixed1 (roundToDouble ((n : ℚ) * roundToDouble (1 / 10))) = (n : ℚ) / 10 := by
  have hn0 : (0 : ℚ) ≤ (n : ℚ) := Nat.cast_nonneg n
  have hnb : (n : ℚ) ≤ 10 ^ 15 := by exact_mod_cast hn
  have hp : (0 : ℚ) ≤ (n : ℚ) * roundToDouble (1 / 10) :=
    mul_nonneg hn0 (roundToDouble_nonneg _ (by norm_num))
  have herr := roundToDouble_error ((n : ℚ) * roundToDouble (1 / 10))
  rw [abs_of_nonneg hp] at herr
  have := toFixed1_of_near (roundToDouble ((n : ℚ) * roundToDouble (1 / 10))) (n : ℤ)
    (roundToDouble_nonneg _ hp) (by
      rw [double_of_tenth] at herr ⊢
      rw [abs_le] at herr
      rw [abs_lt]
      push_cast
      constructor
      · linarith [herr.1]
      · linarith [herr.2])
  rw [this]
  push_cast
  rfl


/-! ## C6 -/

theorem toFixed1_isRounded (x : ℚ) : IsRoundedToOneDecimal x (toFixed1 x) := by
  unfold toFixed1 IsRoundedToOneDecimal
  by_cases hx : x < 0
  · rw [if_pos hx]
    refine ⟨⟨-⌊(-x) * 10 + 1 / 2⌋, by push_cast; ring⟩, ?_⟩
    have h1 := Int.floor_le ((-x) * 10 + 1 / 2)
    have h2 := Int.lt_floor_add_one ((-x) * 10 + 1 / 2)
    rw [abs_le]
    constructor <;> linarith
  · rw [if_neg hx]
    refine ⟨⟨⌊x * 10 + 1 / 2⌋, rfl⟩, ?_⟩
    have h1 := Int.floor_le (x * 10 + 1 / 2)
    have h2 := Int.lt_floor_add_one (x * 10 + 1 / 2)
    rw [abs_le]
    constructor <;> linarith


/-- In the grams branch the result is `toFixed(1)` of the double quotient. -/
theorem normalizeWeight_grams (w : ℚ) (n : Nat) (h : w > (n : ℚ) * 10 ∧ n > 0) :
    normalizeWeight (some w) n = toFixed1 (roundToDouble (w / 1000)) := by
  simp only [normalizeWeight, if_pos h]

/-- In the grams branch, a weight whose exact quotient is at most 0.04 away from a whole number
of tenths gives that number of tenths. -/
theorem normalizeWeight_grams_near (w : ℚ) (n : Nat) (k : ℤ) (h : w > (n : ℚ) * 10 ∧ n > 0)
    (hk : |w / 1000 - (k : ℚ) / 10| ≤ 1 / 25) (hb : w ≤ 10 ^ 15) :
    normalizeWeight (some w) n = (k : ℚ) / 10 := by
  rw [normalizeWeight_grams w n h]
  have hn : (0 : ℚ) ≤ (n : ℚ) := Nat.cast_nonneg n
  have hw0 : (0 : ℚ) ≤ w / 1000 := by linarith [h.1]
  have herr := roundToDouble_error (w / 1000)
  rw [abs_of_nonneg hw0] at herr
  apply toFixed1_of_near _ _ (roundToDouble_nonneg _ hw0)
  rw [abs_le] at herr hk
  rw [abs_lt]
  have h53 : w / 1000 / 2 ^ 53 < 1 / 100 := by
    rw [div_lt_iff₀ (by norm_num)]
    linarith
  constructor <;> linarith [herr.1, herr.2, hk.1, hk.2]

/-- C6 as stated fails: `normalizeWeight(150, 1)` is in the grams branch. The exact quotient
is 0.15, which rounded to one decimal place is 0.2 (by the rule of `toFixed` on the exact value
and by rounding half to even alike); the double `150 / 1000` lies below 0.15 and the function
returns 0.1. -/
theorem C6_counterexample :
    ((150 : ℚ) > ((1 : Nat) : ℚ) * 10 ∧ 1 > 0)
    ∧ toFixed1 (150 / 1000) = 1 / 5
    ∧ (roundHalfEven (150 / 1000 * 10) : ℚ) / 10 = 1 / 5
    ∧ roundToDouble (150 / 1000) < 150 / 1000
    ∧ normalizeWeight (some 150) 1 = 1 / 10
    ∧ normalizeWeight (some 150) 1 ≠ toFixed1 (150 / 1000) := by
  have h1 : toFixed1 (150 / 1000) = 1 / 5 := by norm_num [toFixed1]
  have h2 : normalizeWeight (some 150) 1 = 1 / 10 := by
    rw [normalizeWeight_grams 150 1 (by norm_num), double_of_150_grams]
    have := toFixed1_of_near (5404319552844595 / 2 ^ 55) 1 (by norm_num)
      (by rw [abs_lt]; constructor <;> norm_num)
    rw [this]
    norm_num
  refine ⟨by norm_num, h1, by norm_num [roundHalfEven], ?_, h2, ?_⟩
  · rw [double_of_150_grams]; norm_num
  · rw [h1, h2]; norm_num

/-- C6 amended: for every weight `w` and item count `n`, `normalizeWeight(w, n)` is the double
quotient `w / 1000` rounded to one decimal place when `w > n * 10` and `n > 0`, and `w` rounded
to one decimal place otherwise; with `n = 0` it is `w` rounded. The rounding is that of
`toFixed(1)`, and the result is a whole number of tenths at most 0.05 away from the value
rounded. The double quotient differs from `w / 1000` by at most `|w / 1000| / 2^53`, so in the
grams branch the result is at most `0.05 + (w / 1000) / 2^53` away from `w / 1000`. -/
theorem C6_normalizeWeight (w : ℚ) (n : Nat) :
    normalizeWeight (some w) n
        = toFixed1 (if w > (n : ℚ) * 10 ∧ n > 0 then roundToDouble (w / 1000) else w)
    ∧ IsRoundedToOneDecimal (if w > (n : ℚ) * 10 ∧ n > 0 then roundToDouble (w / 1000) else w)
        (normalizeWeight (some w) n)
    ∧ IsRoundedToOneDecimal w (normalizeWeight (some w) 0)
    ∧ |roundToDouble (w / 1000) - w / 1000| ≤ |w / 1000| / 2 ^ 53
    ∧ (w > (n : ℚ) * 10 ∧ n > 0 →
        |normalizeWeight (some w) n - w / 1000| ≤ 1 / 20 + w / 1000 / 2 ^ 53) := by
  have h : normalizeWeight (some w) n
      = toFixed1 (if w > (n : ℚ) * 10 ∧ n > 0 then roundToDouble (w / 1000) else w) := by
    unfold normalizeWeight
    simp only []
    split <;> rfl
  refine ⟨h, ?_, ?_, roundToDouble_error _, ?_⟩
  · rw [h]; exact toFixed1_isRounded _
  · have h0 : normalizeWeight (some w) 0 = toFixed1 w := by
      simp [normalizeWeight]
    rw [h0]; exact toFixed1_isRounded _
  · intro hc
    rw [normalizeWeight_grams w n hc]
    have hn : (0 : ℚ) ≤ (n : ℚ) := Nat.cast_nonneg n
    have hw0 : (0 : ℚ) ≤ w / 1000 := by linarith [hc.1]
    have h1 := (toFixed1_isRounded (roundToDouble (w / 1000))).2
    have h2 := roundToDouble_error (w / 1000)
    rw [abs_of_nonneg hw0] at h2
    rw [abs_le] at h1 h2 ⊢
    constructor <;> linarith [h1.1, h1.2, h2.1, h2.2]

/-- C6 amended, at concrete inputs: `normalizeWeight(800, 3)` is in the grams branch and is at
most `0.05 + 0.8 / 2^53` away from 0.8 (it is 0.8); `normalizeWeight(150, 1)` is 0.1, at most
`0.05 + 0.15 / 2^53` away from 0.15. -/
theorem C6_normalizeWeight_witness :
    ((800 : ℚ) > ((3 : Nat) : ℚ) * 10 ∧ 3 > 0)
    ∧ |normalizeWeight (some 800) 3 - 800 / 1000| ≤ 1 / 20 + 800 / 1000 / 2 ^ 53
    ∧ normalizeWeight (some 800) 3 = 4 / 5
    ∧ |normalizeWeight (some 150) 1 - 150 / 1000| ≤ 1 / 20 + 150 / 1000 / 2 ^ 53 :=
  ⟨by norm_num, (C6_normalizeWeight 800 3).2.2.2.2 (by norm_num),
    by rw [normalizeWeight_grams_near 800 3 8 (by norm_num)
        (by rw [abs_le]; constructor <;> norm_num) (by norm_num)]
       norm_num,
    (C6_normalizeWeight 150 1).2.2.2.2 (by norm_num)⟩

/-! ## The Dashboard merge -/

theorem toFixed1_tenths (n : Nat) : toFixed1 ((n : ℚ) * (1 / 10)) = (n : ℚ) / 10 := by
  unfold toFixed1
  have hn : ¬ ((n : ℚ) * (1 / 10) < 0) := by
    have : (0 : ℚ) ≤ (n : ℚ) := Nat.cast_nonneg n
    linarith
  rw [if_neg hn]
  have hfl : ⌊(n : ℚ) * (1 / 10) * 10 + 1 / 2⌋ = (n : ℤ) := by
    rw [Int.floor_eq_iff]
    constructor <;> push_cast <;> linarith
  rw [hfl]
  push_cast
  rfl

theorem localEstimateTotalWeight_eq (n : Nat) : localEstimateTotalWeight n = (n : ℚ) / 10 :=
  toFixed1_tenths n

theorem toFixed1_nonpos (w : ℚ) (h : w ≤ 0) : toFixed1 w ≤ 0 := by
  unfold toFixed1
  by_cases hx : w < 0
  · rw [if_pos hx]
    have h1 : (0 : ℤ) ≤ ⌊(-w) * 10 + 1 / 2⌋ := by
      apply Int.floor_nonneg.mpr
      linarith
    have h2 : (0 : ℚ) ≤ ((⌊(-w) * 10 + 1 / 2⌋ : ℤ) : ℚ) := by exact_mod_cast h1
    linarith
  · rw [if_neg hx]
    have hw : w = 0 := le_antisymm h (not_lt.mp hx)
    subst hw
    norm_num

theorem normalizeWeight_nonpos (w : ℚ) (n : Nat) (h : w ≤ 0) :
    normalizeWeight (some w) n ≤ 0 := by
  unfold normalizeWeight
  have hn : ¬ (w > (n : ℚ) * 10 ∧ n > 0) := by
    intro hc
    have : (0 : ℚ) ≤ (n : ℚ) := Nat.cast_nonneg n
    linarith [hc.1]
  simp only [if_neg hn]
  exact toFixed1_nonpos w h

theorem normalizeWeight_estimate (n : Nat) :
    normalizeWeight (some (localEstimateTotalWeight n)) n = localEstimateTotalWeight n := by
  rw [localEstimateTotalWeight_eq]
  unfold normalizeWeight
  have hn : ¬ ((n : ℚ) / 10 > (n : ℚ) * 10 ∧ n > 0) := by
    intro hc
    have : (0 : ℚ) ≤ (n : ℚ) := Nat.cast_nonneg n
    linarith [hc.1]
  simp only [if_neg hn]
  have := toFixed1_tenths n
  rw [show (n : ℚ) * (1 / 10) = (n : ℚ) / 10 by ring] at this
  exact this

theorem server_example_normalized : normalizeWeight (some 800) 3 = 4 / 5 := by
  rw [normalizeWeight_grams_near 800 3 8 (by norm_num)
    (by rw [abs_le]; constructor <;> norm_num) (by norm_num)]
  norm_num

theorem server_example_merged :
    DashboardScreen.mergedStats (some serverExample) (some userExample) (some localExample)
      = { totalItems := 5, totalKg := 4 / 5, co2Saved := 0 } := by
  have h3 : normalizeWeight (some 0) 0 = 0 := by norm_num [normalizeWeight, toFixed1]
  have h4 : localEstimateCO2Saved 0 = 0 := by norm_num [localEstimateCO2Saved, toFixed1]
  have h5 : localEstimateTotalWeight 5 = 1 / 2 := by
    rw [localEstimateTotalWeight_eq]; norm_num
  simp only [DashboardScreen.mergedStats, ServerStats.items, ServerStats.weight,
    ServerStats.carbon, localItems, localRecyclable, serverExample, userExample, localExample,
    orZero, orZeroNat, Option.bind, Option.map, Option.getD, server_example_normalized, h3, h4, h5]
  norm_num

/-! ## C8 -/

/-- C8 as stated fails: with server stats of 3 items and total weight 800, a user object with
zeros and a local aggregate of 5 items, the merged total weight is 0.8, below the weight 800
that the server reported. -/
theorem C8_counterexample :
    (DashboardScreen.mergedStats (some serverExample) (some userExample)
        (some localExample)).totalKg
      < ServerStats.weight (some serverExample) := by
  rw [server_example_merged]
  norm_num [ServerStats.weight, serverExample, orZero]

/-- C8 amended: for every remote stats, user-object stats and local aggregate (missing fields
counting as 0), the merged `totalItems` is at least each of the three item counts, the merged
`co2Saved` is at least each reported carbon-saved value and the local estimate, and the merged
`totalKg` is at least each reported weight after `normalizeWeight` with that source's own item
count and at least the local estimate. -/
theorem C8_merged_at_least_each_source (r u : Option ServerStats) (l : Option Stats) :
    (ServerStats.items r ≤ (DashboardScreen.mergedStats r u l).totalItems
      ∧ ServerStats.items u ≤ (DashboardScreen.mergedStats r u l).totalItems
      ∧ localItems l ≤ (DashboardScreen.mergedStats r u l).totalItems)
    ∧ (ServerStats.carbon r ≤ (DashboardScreen.mergedStats r u l).co2Saved
      ∧ ServerStats.carbon u ≤ (DashboardScreen.mergedStats r u l).co2Saved
      ∧ localEstimateCO2Saved (localRecyclable l) ≤ (DashboardScreen.mergedStats r u l).co2Saved)
    ∧ (normalizeWeight (some (ServerStats.weight r)) (ServerStats.items r)
          ≤ (DashboardScreen.mergedStats r u l).totalKg
      ∧ normalizeWeight (some (ServerStats.weight u)) (ServerStats.items u)
          ≤ (DashboardScreen.mergedStats r u l).totalKg
      ∧ localEstimateTotalWeight (localItems l) ≤ (DashboardScreen.mergedStats r u l).totalKg) := by
  simp only [DashboardScreen.mergedStats]
  refine ⟨⟨?_, ?_, ?_⟩, ⟨?_, ?_, ?_⟩, ⟨?_, ?_, ?_⟩⟩
  · exact le_trans (le_max_left _ _) (le_max_left _ _)
  · exact le_trans (le_max_right _ _) (le_max_left _ _)
  · exact le_max_right _ _
  · exact le_trans (le_max_left _ _) (le_max_left _ _)
  · exact le_trans (le_max_right _ _) (le_max_left _ _)
  · exact le_max_right _ _
  · exact le_trans (le_max_left _ _) (le_max_left _ _)
  · exact le_trans (le_max_right _ _) (le_max_left _ _)
  · exact le_max_right _ _

/-! ## C9 -/

/-- C9: the merged total weight is the maximum of the three sources' weights, each normalized
by `normalizeWeight` with that source's own item count, the weight of the local aggregate
being its estimate of 0.1 kg an item; the merged `totalItems` is the maximum of the three item
counts. For local 5 items (weight 0.5), server 3 items with weight 800 and a user object with
zeros: the normalized server weight is 0.8, the merged weight 0.8 and the merged item count
5. -/
theorem C9_merged_weight_is_max_of_normalized (r u : Option ServerStats) (l : Option Stats) :
    (DashboardScreen.mergedStats r u l).totalKg
        = max (max (normalizeWeight (some (ServerStats.weight r)) (ServerStats.items r))
                   (normalizeWeight (some (ServerStats.weight u)) (ServerStats.items u)))
              (normalizeWeight (some (localEstimateTotalWeight (localItems l))) (localItems l))
    ∧ (DashboardScreen.mergedStats r u l).totalItems
        = max (max (ServerStats.items r) (ServerStats.items u)) (localItems l)
    ∧ localEstimateTotalWeight (localItems (some localExample)) = 1 / 2
    ∧ normalizeWeight (some (ServerStats.weight (some serverExample)))
        (ServerStats.items (some serverExample)) = 4 / 5
    ∧ (DashboardScreen.mergedStats (some serverExample) (some userExample)
        (some localExample)).totalKg = 4 / 5
    ∧ (DashboardScreen.mergedStats (some serverExample) (some userExample)
        (some localExample)).totalItems = 5 := by
  refine ⟨?_, rfl, ?_, ?_, ?_, ?_⟩
  · rw [normalizeWeight_estimate]
    rfl
  · rw [localEstimateTotalWeight_eq]
    norm_num [localItems, localExample, orZeroNat]
  · exact server_example_normalized
  · rw [server_example_merged]
  · rw [server_example_merged]

/-! ## C10 -/

theorem ten_items_merged :
    DashboardScreen.mergedStats (some serverTenItems) none (some localExample)
      = { totalItems := 10, totalKg := 1 / 2, co2Saved := 0 } := by
  have h1 : normalizeWeight (some 0) 10 = 0 := by norm_num [normalizeWeight, toFixed1]
  have h3 : normalizeWeight (some 0) 0 = 0 := by norm_num [normalizeWeight, toFixed1]
  have h4 : localEstimateCO2Saved 0 = 0 := by norm_num [localEstimateCO2Saved, toFixed1]
  have h5 : localEstimateTotalWeight 5 = 1 / 2 := by
    rw [localEstimateTotalWeight_eq]; norm_num
  simp only [DashboardScreen.mergedStats, ServerStats.items, ServerStats.weight,
    ServerStats.carbon, localItems, localRecyclable, serverTenItems, localExample,
    orZero, orZeroNat, Option.bind, Option.map, Option.getD, h1, h3, h4, h5]
  norm_num

/-- C10 as stated fails: the server reports 10 items and weight 0, there is no user object,
and the local aggregate has 5 items. No source reports a positive weight and the merged
`totalItems` is 10, yet the merged weight is 0.5 and not `10 * 0.1 = 1.0`. -/
theorem C10_counterexample :
    ServerStats.weight (some serverTenItems) ≤ 0
    ∧ ServerStats.weight none ≤ 0
    ∧ (DashboardScreen.mergedStats (some serverTenItems) none (some localExample)).totalKg
        ≠ toFixed1 (((DashboardScreen.mergedStats (some serverTenItems) none
            (some localExample)).totalItems : ℚ) * (1 / 10)) := by
  rw [ten_items_merged]
  refine ⟨by simp [ServerStats.weight, serverTenItems, orZero],
    by simp [ServerStats.weight, orZero], ?_⟩
  norm_num [toFixed1]

/-- C10 amended: whenever neither the server stats nor the user object reports a positive
total weight, the merged total weight is the local aggregate's item count times 0.1 kg,
rounded to one decimal (which is exactly a tenth of that count). -/
theorem C10_fallback_is_local_estimate (r u : Option ServerStats) (l : Option Stats)
    (hr : ServerStats.weight r ≤ 0) (hu : ServerStats.weight u ≤ 0) :
    (DashboardScreen.mergedStats r u l).totalKg = toFixed1 ((localItems l : ℚ) * (1 / 10))
    ∧ (DashboardScreen.mergedStats r u l).totalKg = (localItems l : ℚ) / 10 := by
  have h1 := normalizeWeight_nonpos _ (ServerStats.items r) hr
  have h2 := normalizeWeight_nonpos _ (ServerStats.items u) hu
  have h3 : (0 : ℚ) ≤ localEstimateTotalWeight (localItems l) := by
    rw [localEstimateTotalWeight_eq]
    positivity
  have h4 : (DashboardScreen.mergedStats r u l).totalKg
      = localEstimateTotalWeight (localItems l) := by
    simp only [DashboardScreen.mergedStats]
    exact max_eq_right (max_le (le_trans h1 h3) (le_trans h2 h3))
  exact ⟨h4, h4.trans (localEstimateTotalWeight_eq _)⟩

/-- C10 amended, at the input of the counterexample: the merged weight is a tenth of the local
count of 5. -/
theorem C10_fallback_is_local_estimate_witness :
    ServerStats.weight (some serverTenItems) ≤ 0
    ∧ ServerStats.weight none ≤ 0
    ∧ (DashboardScreen.mergedStats (some serverTenItems) none (some localExample)).totalKg
        = ((localItems (some localExample) : Nat) : ℚ) / 10 :=
  have hr : ServerStats.weight (some serverTenItems) ≤ 0 := by
    simp [ServerStats.weight, serverTenItems, orZero]
  have hu : ServerStats.weight none ≤ 0 := by simp [ServerStats.weight, orZero]
  ⟨hr, hu, (C10_fallback_is_local_estimate _ _ _ hr hu).2⟩

/-! ## C11 -/

theorem toFixed1_halves (n : Nat) : toFixed1 ((n : ℚ) * (1 / 2)) = (n : ℚ) / 2 := by
  unfold toFixed1
  have hn : ¬ ((n : ℚ) * (1 / 2) < 0) := by
    have : (0 : ℚ) ≤ (n : ℚ) := Nat.cast_nonneg n
    linarith
  rw [if_neg hn]
  have hfl : ⌊(n : ℚ) * (1 / 2) * 10 + 1 / 2⌋ = (5 * n : ℤ) := by
    rw [Int.floor_eq_iff]
    constructor <;> push_cast <;> linarith
  rw [hfl]
  push_cast
  ring

theorem localEstimateCO2Saved_eq (n : Nat) : localEstimateCO2Saved n = (n : ℚ) / 2 :=
  toFixed1_halves n

theorem one_kg_carbon_merged :
    (DashboardScreen.mergedStats (some serverOneKgCarbon) none
      (some localTenRecyclable)).co2Saved = 5 := by
  have h : localEstimateCO2Saved 10 = 5 := by
    rw [localEstimateCO2Saved_eq]; norm_num
  simp only [DashboardScreen.mergedStats, ServerStats.carbon, localRecyclable,
    serverOneKgCarbon, localTenRecyclable, orZero, orZeroNat, Option.bind, Option.map,
    Option.getD, h]
  norm_num

/-- C11 as stated fails: the server reports 1 kg of carbon saved, there is no user object and
the local aggregate has 10 recyclable items. A source reports a carbon-saved value, yet the
merged `co2Saved` is the estimate `10 * 0.5 = 5` and not the maximum 1 of the reported
values. -/
theorem C11_counterexample :
    serverOneKgCarbon.totalCarbonSaved = some 1
    ∧ (DashboardScreen.mergedStats (some serverOneKgCarbon) none
        (some localTenRecyclable)).co2Saved
      ≠ max (ServerStats.carbon (some serverOneKgCarbon)) (ServerStats.carbon none) := by
  refine ⟨rfl, ?_⟩
  rw [one_kg_carbon_merged]
  norm_num [ServerStats.carbon, serverOneKgCarbon, orZero]

/-- C11 amended: the merged `co2Saved` is the maximum of the carbon-saved values of the server
stats and of the user object (a missing value counting as 0) and of the local estimate, which
is half the local recyclable count. It equals the maximum of the reported values whenever that
maximum is at least the estimate, and it equals the estimate whenever neither source reports a
positive value. -/
theorem C11_co2_is_max_with_estimate (r u : Option ServerStats) (l : Option Stats) :
    (DashboardScreen.mergedStats r u l).co2Saved
        = max (max (ServerStats.carbon r) (ServerStats.carbon u))
            (localEstimateCO2Saved (localRecyclable l))
    ∧ localEstimateCO2Saved (localRecyclable l) = (localRecyclable l : ℚ) / 2
    ∧ (localEstimateCO2Saved (localRecyclable l)
          ≤ max (ServerStats.carbon r) (ServerStats.carbon u) →
        (DashboardScreen.mergedStats r u l).co2Saved
          = max (ServerStats.carbon r) (ServerStats.carbon u))
    ∧ (ServerStats.carbon r ≤ 0 → ServerStats.carbon u ≤ 0 →
        (DashboardScreen.mergedStats r u l).co2Saved
          = localEstimateCO2Saved (localRecyclable l)) := by
  refine ⟨rfl, localEstimateCO2Saved_eq _, ?_, ?_⟩
  · intro h
    simp only [DashboardScreen.mergedStats]
    exact max_eq_left h
  · intro hr hu
    have h3 : (0 : ℚ) ≤ localEstimateCO2Saved (localRecyclable l) := by
      rw [localEstimateCO2Saved_eq]
      positivity
    simp only [DashboardScreen.mergedStats]
    exact max_eq_right (max_le (le_trans hr h3) (le_trans hu h3))

/-- C11 amended, at concrete inputs: with a reported 1 kg and no local recyclable item the
merged value is the reported one; with nothing reported and 10 local recyclable items it is
the estimate. -/
theorem C11_co2_is_max_with_estimate_witness :
    (DashboardScreen.mergedStats (some serverOneKgCarbon) none (some localExample)).co2Saved
        = max (ServerStats.carbon (some serverOneKgCarbon)) (ServerStats.carbon none)
    ∧ (DashboardScreen.mergedStats (some serverTenItems) none
        (some localTenRecyclable)).co2Saved
        = localEstimateCO2Saved (localRecyclable (some localTenRecyclable)) :=
  ⟨(C11_co2_is_max_with_estimate (some serverOneKgCarbon) none (some localExample)).2.2.1
      (by rw [localEstimateCO2Saved_eq]
          norm_num [localRecyclable, localExample, orZeroNat, ServerStats.carbon,
            serverOneKgCarbon, orZero]),
    (C11_co2_is_max_with_estimate (some serverTenItems) none (some localTenRecyclable)).2.2.2
      (by simp [ServerStats.carbon, serverTenItems, orZero])
      (by simp [ServerStats.carbon, orZero])⟩

/-! ## C12 -/

/-- C12: the merged aggregate written by `transferAnonymousData` has `totalItemsScanned`,
`recyclableItemsCount` and `totalEcoScore` each equal to the maximum of the user value (0 when
the user has no aggregate) and the anonymous value, so none of them is lower than either
input; and this aggregate is the entry found under the user's stats key after a transfer
with a logged-in user whose stats write succeeds. -/
theorem C12_transfer_takes_max (userStats : Option Stats) (anonStats : Stats) (now : JsDate) :
    ((TransferAnonymousData.mergedStats userStats anonStats now).totalItemsScanned
        = max ((userStats.map Stats.totalItemsScanned).getD 0) anonStats.totalItemsScanned
      ∧ (TransferAnonymousData.mergedStats userStats anonStats now).recyclableItemsCount
        = max ((userStats.map Stats.recyclableItemsCount).getD 0) anonStats.recyclableItemsCount
      ∧ (TransferAnonymousData.mergedStats userStats anonStats now).totalEcoScore
        = max ((userStats.map Stats.totalEcoScore).getD 0) anonStats.totalEcoScore)
    ∧ ((userStats.map Stats.totalItemsScanned).getD 0
          ≤ (TransferAnonymousData.mergedStats userStats anonStats now).totalItemsScanned
      ∧ anonStats.totalItemsScanned
          ≤ (TransferAnonymousData.mergedStats userStats anonStats now).totalItemsScanned
      ∧ (userStats.map Stats.recyclableItemsCount).getD 0
          ≤ (TransferAnonymousData.mergedStats userStats anonStats now).recyclableItemsCount
      ∧ anonStats.recyclableItemsCount
          ≤ (TransferAnonymousData.mergedStats userStats anonStats now).recyclableItemsCount
      ∧ (userStats.map Stats.totalEcoScore).getD 0
          ≤ (TransferAnonymousData.mergedStats userStats anonStats now).totalEcoScore
      ∧ anonStats.totalEcoScore
          ≤ (TransferAnonymousData.mergedStats userStats anonStats now).totalEcoScore)
    ∧ (∀ (faults : WriteFaults) (d : Device) (uid : String),
        d.userId = some uid → d.anonStats = some (.ok anonStats) →
        d.userStats = userStats.map Stored.ok → faults.statsWrite = false →
        (transferAnonymousData now faults d).userStats
          = some (.ok (TransferAnonymousData.mergedStats userStats anonStats now))) := by
  have h1 : (TransferAnonymousData.mergedStats userStats anonStats now).totalItemsScanned
      = max ((userStats.map Stats.totalItemsScanned).getD 0) anonStats.totalItemsScanned := by
    unfold TransferAnonymousData.mergedStats
    cases userStats <;> simp only [] <;> split <;> rfl
  have h2 : (TransferAnonymousData.mergedStats userStats anonStats now).recyclableItemsCount
      = max ((userStats.map Stats.recyclableItemsCount).getD 0)
          anonStats.recyclableItemsCount := by
    unfold TransferAnonymousData.mergedStats
    cases userStats <;> simp only [] <;> split <;> rfl
  have h3 : (TransferAnonymousData.mergedStats userStats anonStats now).totalEcoScore
      = max ((userStats.map Stats.totalEcoScore).getD 0) anonStats.totalEcoScore := by
    unfold TransferAnonymousData.mergedStats
    cases userStats <;> simp only [] <;> split <;> rfl
  refine ⟨⟨h1, h2, h3⟩, ⟨?_, ?_, ?_, ?_, ?_, ?_⟩, ?_⟩
  · rw [h1]; exact le_max_left _ _
  · rw [h1]; exact le_max_right _ _
  · rw [h2]; exact le_max_left _ _
  · rw [h2]; exact le_max_right _ _
  · rw [h3]; exact le_max_left _ _
  · rw [h3]; exact le_max_right _ _
  · intro faults d uid hu ha hs hw
    obtain ⟨hst, hnc⟩ := storedUserStats_of_map d userStats hs
    rw [transfer_writes_merged now faults d uid anonStats hu ha hnc hw, hst]

/-- C12 at concrete inputs: a user aggregate of 2 scans (1 recyclable, eco-score sum 120) and
an anonymous aggregate of 4 scans (2 recyclable, sum 250); the entry written under the user's
stats key has 4 scans, 2 recyclable and the sum 250. -/
theorem C12_transfer_takes_max_witness :
    ∃ merged, (transferAnonymousData ⟨0⟩ WriteFaults.none deviceTwoAndFour).userStats
        = some (.ok merged)
      ∧ merged.totalItemsScanned = 4 ∧ merged.recyclableItemsCount = 2
      ∧ merged.totalEcoScore = 250 :=
  ⟨TransferAnonymousData.mergedStats (some twoScanStats) fourScanStats ⟨0⟩,
    (C12_transfer_takes_max (some twoScanStats) fourScanStats ⟨0⟩).2.2 WriteFaults.none
      deviceTwoAndFour "u1" rfl rfl rfl rfl,
    by decide, by decide,
    by rw [(C12_transfer_takes_max (some twoScanStats) fourScanStats ⟨0⟩).1.2.2]
       norm_num [twoScanStats, fourScanStats]⟩

/-! ## C13 -/

/-- C13 as stated fails: merging an anonymous aggregate of 4 scans into a user aggregate of 2
scans writes `totalItemsScanned = 4`, not the sum 6. -/
theorem C13_counterexample :
    twoScanStats.totalItemsScanned = 2 ∧ fourScanStats.totalItemsScanned = 4
    ∧ (TransferAnonymousData.mergedStats (some twoScanStats) fourScanStats
        ⟨1700000000000⟩).totalItemsScanned = 4
    ∧ (TransferAnonymousData.mergedStats (some twoScanStats) fourScanStats
        ⟨1700000000000⟩).totalItemsScanned
      ≠ twoScanStats.totalItemsScanned + fourScanStats.totalItemsScanned := by
  decide

/-- C13 amended: migrating an anonymous aggregate into a user aggregate yields a merged
`totalItemsScanned` equal to the larger of the two values (anonymous 4 and user 2 give 4); it
is the sum of the two exactly when one of them is 0. -/
theorem C13_transfer_total_is_max (userStats anonStats : Stats) (now : JsDate) :
    (TransferAnonymousData.mergedStats (some userStats) anonStats now).totalItemsScanned
        = max userStats.totalItemsScanned anonStats.totalItemsScanned
    ∧ ((TransferAnonymousData.mergedStats (some userStats) anonStats now).totalItemsScanned
          = userStats.totalItemsScanned + anonStats.totalItemsScanned
        ↔ userStats.totalItemsScanned = 0 ∨ anonStats.totalItemsScanned = 0) := by
  have h1 : (TransferAnonymousData.mergedStats (some userStats) anonStats now).totalItemsScanned
      = max userStats.totalItemsScanned anonStats.totalItemsScanned := by
    unfold TransferAnonymousData.mergedStats
    simp only []
    split <;> rfl
  refine ⟨h1, ?_⟩
  rw [h1]
  omega

/-! ## C14 -/

theorem CountMap.get_eq_none (m : CountMap) (k : String)
    (h : k ∉ m.map Prod.fst) : CountMap.get m k = none := by
  induction m with
  | nil => rfl
  | cons kv rest ih =>
    obtain ⟨k1, v1⟩ := kv
    simp only [List.map_cons, List.mem_cons, not_or] at h
    have hne : ¬ k1 = k := fun e => h.1 e.symm
    simp only [CountMap.get, if_neg hne]
    exact ih h.2

/-- The spread `{ ...a, ...b }` reads as `b` where `b` has the key and as `a` elsewhere. -/
theorem CountMap.get_spread (b : CountMap) :
    ∀ (a : CountMap) (k : String), (b.map Prod.fst).Nodup →
      CountMap.get (CountMap.spread a b) k
        = if (CountMap.get b k).isSome then CountMap.get b k else CountMap.get a k := by
  induction b with
  | nil => intro a k _; simp [CountMap.spread, CountMap.get]
  | cons kv rest ih =>
    intro a k hnd
    obtain ⟨k1, v1⟩ := kv
    rw [List.map_cons, List.nodup_cons] at hnd
    have hfold : CountMap.spread a ((k1, v1) :: rest)
        = CountMap.spread (CountMap.set a k1 v1) rest := rfl
    rw [hfold, ih (CountMap.set a k1 v1) k hnd.2, CountMap.get_set]
    by_cases hk : k1 = k
    · subst hk
      have hnone : CountMap.get rest k1 = none := CountMap.get_eq_none rest k1 hnd.1
      simp [CountMap.get, hnone]
    · simp [CountMap.get, hk]


theorem mergedStats_scansByCategory (userStats anonStats : Stats) (now : JsDate) :
    (TransferAnonymousData.mergedStats (some userStats) anonStats now).scansByCategory
      = CountMap.spread anonStats.scansByCategory userStats.scansByCategory := by
  unfold TransferAnonymousData.mergedStats
  simp only []
  split <;> rfl

theorem mergedStats_scansByMaterial (userStats anonStats : Stats) (now : JsDate) :
    (TransferAnonymousData.mergedStats (some userStats) anonStats now).scansByMaterial
      = CountMap.spread anonStats.scansByMaterial userStats.scansByMaterial := by
  unfold TransferAnonymousData.mergedStats
  simp only []
  split <;> rfl

/-- What the spread `{ ...a, ...b }` holds at a key, without a word on which count a key of
both objects gets unless `b` holds the larger one. -/
theorem CountMap.spread_single_counts (a b : CountMap) (k : String)
    (hb : (b.map Prod.fst).Nodup) :
    (CountMap.get b k = none → CountMap.get (CountMap.spread a b) k = CountMap.get a k)
    ∧ (CountMap.get a k = none → CountMap.get (CountMap.spread a b) k = CountMap.get b k)
    ∧ (CountMap.get (CountMap.spread a b) k).isSome
        = ((CountMap.get b k).isSome || (CountMap.get a k).isSome)
    ∧ (∀ u v : Nat, CountMap.get b k = some u → CountMap.get a k = some v → v ≤ u →
        CountMap.get (CountMap.spread a b) k = some (max u v)) := by
  rw [CountMap.get_spread b a k hb]
  refine ⟨?_, ?_, ?_, ?_⟩
  · intro h; simp [h]
  · intro h
    cases hbk : CountMap.get b k <;> simp [h]
  · cases hbk : CountMap.get b k <;> simp
  · intro u v hu hv hle
    simp [hu, max_eq_left hle]

/-- C14 as stated fails: the user's map has `Plastic: 3` and the anonymous map `Plastic: 1`;
the map written under the user's stats key has `Plastic: 3`, the higher of the two counts, not
their sum 4. -/
theorem C14_counterexample :
    CountMap.get fourScanStats.scansByCategory "Plastic" = some 3
    ∧ CountMap.get twoScanStats.scansByCategory "Plastic" = some 1
    ∧ (∃ merged,
        (transferAnonymousData ⟨1700000000000⟩ WriteFaults.none deviceFourAndTwo).userStats
          = some (.ok merged)
        ∧ CountMap.get merged.scansByCategory "Plastic" = some 3
        ∧ CountMap.get merged.scansByCategory "Plastic" ≠ some (3 + 1)) := by
  refine ⟨by decide, by decide, _,
    transfer_writes_merged ⟨1700000000000⟩ WriteFaults.none deviceFourAndTwo "u1" twoScanStats
      rfl rfl (by simp [deviceFourAndTwo]) rfl, ?_, ?_⟩
  · decide
  · decide

/-- C14 amended: after a transfer with a logged-in user whose stats write succeeds, the
`scansByCategory` and `scansByMaterial` maps of the entry under the user's stats key hold
every key of the user's map and of the anonymous map and no other key; a key of only one of
the two maps keeps its count; a key of both maps is held once, and where the user's count is
at least the anonymous count it gets that count, the higher of the two and not their sum. -/
theorem C14_transfer_maps_keep_single_counts (now : JsDate) (faults : WriteFaults) (d : Device)
    (uid : String) (userStats anonStats : Stats) (k : String)
    (hu : d.userId = some uid) (ha : d.anonStats = some (.ok anonStats))
    (hs : d.userStats = some (.ok userStats)) (hw : faults.statsWrite = false)
    (hc : (userStats.scansByCategory.map Prod.fst).Nodup)
    (hm : (userStats.scansByMaterial.map Prod.fst).Nodup) :
    ∃ merged, (transferAnonymousData now faults d).userStats = some (.ok merged)
      ∧ ((CountMap.get userStats.scansByCategory k = none →
            CountMap.get merged.scansByCategory k = CountMap.get anonStats.scansByCategory k)
        ∧ (CountMap.get anonStats.scansByCategory k = none →
            CountMap.get merged.scansByCategory k = CountMap.get userStats.scansByCategory k)
        ∧ (CountMap.get merged.scansByCategory k).isSome
            = ((CountMap.get userStats.scansByCategory k).isSome
                || (CountMap.get anonStats.scansByCategory k).isSome)
        ∧ (∀ u v : Nat, CountMap.get userStats.scansByCategory k = some u →
            CountMap.get anonStats.scansByCategory k = some v → v ≤ u →
            CountMap.get merged.scansByCategory k = some (max u v)))
      ∧ ((CountMap.get userStats.scansByMaterial k = none →
            CountMap.get merged.scansByMaterial k = CountMap.get anonStats.scansByMaterial k)
        ∧ (CountMap.get anonStats.scansByMaterial k = none →
            CountMap.get merged.scansByMaterial k = CountMap.get userStats.scansByMaterial k)
        ∧ (CountMap.get merged.scansByMaterial k).isSome
            = ((CountMap.get userStats.scansByMaterial k).isSome
                || (CountMap.get anonStats.scansByMaterial k).isSome)
        ∧ (∀ u v : Nat, CountMap.get userStats.scansByMaterial k = some u →
            CountMap.get anonStats.scansByMaterial k = some v → v ≤ u →
            CountMap.get merged.scansByMaterial k = some (max u v))) := by
  have hst : d.storedUserStats = some userStats := by simp [Device.storedUserStats, hs]
  have hnc : d.userStats ≠ some .corrupt := by simp [hs]
  refine ⟨TransferAnonymousData.mergedStats (some userStats) anonStats now, ?_, ?_, ?_⟩
  · rw [transfer_writes_merged now faults d uid anonStats hu ha hnc hw, hst]
  · rw [mergedStats_scansByCategory]
    exact CountMap.spread_single_counts _ _ k hc
  · rw [mergedStats_scansByMaterial]
    exact CountMap.spread_single_counts _ _ k hm

/-- C14 amended, on a user aggregate with `Plastic: 1, Glass: 1` and an anonymous aggregate
with `Plastic: 3, Paper: 1`: in the entry written under the user's stats key `Paper` (anonymous
only) keeps 1 and `Glass` (user only) keeps 1. -/
theorem C14_transfer_maps_keep_single_counts_witness :
    (∃ merged, (transferAnonymousData ⟨1700000000000⟩ WriteFaults.none deviceTwoAndFour).userStats
        = some (.ok merged)
      ∧ CountMap.get merged.scansByCategory "Paper" = some 1)
    ∧ (∃ merged, (transferAnonymousData ⟨1700000000000⟩ WriteFaults.none deviceTwoAndFour).userStats
        = some (.ok merged)
      ∧ CountMap.get merged.scansByCategory "Glass" = some 1) := by
  constructor
  · obtain ⟨merged, h1, h2, _⟩ := C14_transfer_maps_keep_single_counts ⟨1700000000000⟩
      WriteFaults.none deviceTwoAndFour "u1" twoScanStats fourScanStats "Paper" rfl rfl rfl rfl
      (by decide) (by decide)
    exact ⟨merged, h1, by rw [h2.1 (by decide)]; decide⟩
  · obtain ⟨merged, h1, h2, _⟩ := C14_transfer_maps_keep_single_counts ⟨1700000000000⟩
      WriteFaults.none deviceTwoAndFour "u1" twoScanStats fourScanStats "Glass" rfl rfl rfl rfl
      (by decide) (by decide)
    exact ⟨merged, h1, by rw [h2.2.1 (by decide)]; decide⟩

/-! ## C15 -/

/-- C15, evaluated on the code: the user history and the anonymous history both hold the
record with id 1700000000000. `seenIds` starts empty and only receives anonymous ids, so the
written history holds that record twice. -/
theorem C15_shared_record_is_duplicated :
    (TransferAnonymousData.limitedHistory [plasticRecord] [plasticRecord]).map ScanRecord.id
      = [1700000000000, 1700000000000]
    ∧ ((transferAnonymousData ⟨1700000000001⟩ WriteFaults.none deviceSharedRecord).userHistory
        = some (.ok [plasticRecord, plasticRecord])) := by
  constructor
  · decide
  · have h : TransferAnonymousData.limitedHistory [plasticRecord] [plasticRecord]
        = [plasticRecord, plasticRecord] := by
      simp [TransferAnonymousData.limitedHistory, TransferAnonymousData.combinedHistory,
        TransferAnonymousData.pushUnseen, List.insertionSort, List.orderedInsert]
    simp [transferAnonymousData, deviceSharedRecord, WriteFaults.none,
      TransferAnonymousData.transferStats, TransferAnonymousData.transferHistory, h]

/-! ## C16 -/

/-- C16 as stated fails: a logged-in device holds anonymous history and an anonymous stats
entry that `JSON.parse` rejects. The parse throws inside the `try`, the `removeItem` calls
are skipped, and both anonymous entries are still stored when the function returns. -/
theorem C16_counterexample :
    deviceCorruptAnonStats.userId.isSome = true
    ∧ (transferAnonymousData ⟨1700000000001⟩ WriteFaults.none deviceCorruptAnonStats).anonStats
        ≠ none
    ∧ (transferAnonymousData ⟨1700000000001⟩ WriteFaults.none deviceCorruptAnonStats).anonHistory
        ≠ none := by
  simp [transferAnonymousData, deviceCorruptAnonStats, TransferAnonymousData.transferStats]

/-- C16 amended: whenever `transferAnonymousData` runs with a logged-in user and every stored
value it parses is well-formed and no write rejects, both anonymous entries are absent from
the store when it returns. When the anonymous stats entry does not parse, or the write of the
merged stats rejects, the store is returned as it was, anonymous entries included. -/
theorem C16_anonymous_removed_when_merge_succeeds (now : JsDate) (d : Device) :
    (d.userId.isSome = true → d.parses →
      (transferAnonymousData now WriteFaults.none d).anonStats = none
        ∧ (transferAnonymousData now WriteFaults.none d).anonHistory = none)
    ∧ (∀ faults : WriteFaults, d.anonStats = some .corrupt →
        transferAnonymousData now faults d = d)
    ∧ (∀ (faults : WriteFaults) (anonStats : Stats), d.anonStats = some (.ok anonStats) →
        faults.statsWrite = true → transferAnonymousData now faults d = d) := by
  refine ⟨?_, ?_, ?_⟩
  · intro hu hp
    obtain ⟨uid, huid⟩ := Option.isSome_iff_exists.mp hu
    obtain ⟨h1, h2, h3, h4⟩ := hp
    unfold transferAnonymousData
    rw [huid]
    simp only []
    by_cases hnone : (d.anonStats.isNone && d.anonHistory.isNone) = true
    · rw [if_pos hnone]
      simp only [Bool.and_eq_true, Option.isNone_iff_eq_none] at hnone
      exact hnone
    · rw [if_neg hnone]
      rcases d with ⟨uidd, as, ah, us, uh⟩
      simp only at h1 h2 h3 h4
      rcases as with _ | as | _ <;> rcases ah with _ | ah | _ <;>
        rcases us with _ | us | _ <;> rcases uh with _ | uh | _ <;>
        simp_all [TransferAnonymousData.transferStats, TransferAnonymousData.transferHistory,
          WriteFaults.none]
  · intro faults hc
    unfold transferAnonymousData
    cases d.userId with
    | none => rfl
    | some uid =>
      simp [hc, TransferAnonymousData.transferStats]
  · intro faults anonStats ha hw
    unfold transferAnonymousData
    cases d.userId with
    | none => rfl
    | some uid =>
      simp only [ha, TransferAnonymousData.transferStats, hw]
      cases d.userStats with
      | none => simp
      | some us => cases us <;> simp

/-- C16 amended, at concrete inputs: a device with well-formed anonymous data loses both
anonymous entries; the device with the corrupt anonymous stats is returned unchanged. -/
theorem C16_anonymous_removed_when_merge_succeeds_witness :
    ((transferAnonymousData ⟨1700000000001⟩ WriteFaults.none deviceAnonData).anonStats = none
      ∧ (transferAnonymousData ⟨1700000000001⟩ WriteFaults.none deviceAnonData).anonHistory
          = none)
    ∧ transferAnonymousData ⟨1700000000001⟩ WriteFaults.none deviceCorruptAnonStats
        = deviceCorruptAnonStats :=
  ⟨(C16_anonymous_removed_when_merge_succeeds ⟨1700000000001⟩ deviceAnonData).1 rfl
      (by simp [Device.parses, deviceAnonData]),
    (C16_anonymous_removed_when_merge_succeeds ⟨1700000000001⟩ deviceCorruptAnonStats).2.1
      WriteFaults.none rfl⟩

/-! ## C17 -/

theorem noon_getHours : (⟨43200000⟩ : JsDate).getHours = 12 := by decide

theorem shared_once_eligible (now : JsDate) (h : now.getHours = 12) :
    ACHIEVEMENTS.filter (eligible { freshProgress with shareCount := 1 } now)
      = [SHARE_THE_LOVE] := by
  have h70 : decide ((70 : ℚ) ≤ 0) = false := by norm_num
  have h85 : decide ((85 : ℚ) ≤ 0) = false := by norm_num
  simp [ACHIEVEMENTS, List.filter, eligible, isUnlocked, freshProgress, SHARE_THE_LOVE, h,
    h70, h85]

/-- C17, evaluated on the code: in a freshly initialized namespace one `updateShareCount`
call at noon returns `share_the_love` and persists `shareCount = 1`, but the persisted
unlocked set is empty: the progress is written before the achievements are evaluated and not
after. -/
theorem C17_share_does_not_persist_unlock :
    (updateShareCount ⟨43200000⟩ (initializeAchievements Storage.empty)).1 = [SHARE_THE_LOVE]
    ∧ ((updateShareCount ⟨43200000⟩ (initializeAchievements Storage.empty)).2.progress.map
        Progress.shareCount) = some 1
    ∧ unlockedIds (updateShareCount ⟨43200000⟩ (initializeAchievements Storage.empty)).2 = []
    ∧ SHARE_THE_LOVE.id ∉
        unlockedIds (updateShareCount ⟨43200000⟩ (initializeAchievements Storage.empty)).2 := by
  have hinit : (initializeAchievements Storage.empty).progress = some freshProgress := rfl
  have hf := shared_once_eligible ⟨43200000⟩ noon_getHours
  have hs : (updateShareCount ⟨43200000⟩ (initializeAchievements Storage.empty)).2.progress
      = some { freshProgress with shareCount := 1 } := by
    simp only [updateShareCount, hinit, checkAchievements_storage, hf]
    rfl
  refine ⟨?_, ?_, ?_, ?_⟩
  · simp only [updateShareCount, hinit, checkAchievements_newlyUnlocked]
    exact hf
  · rw [hs]; rfl
  · simp only [unlockedIds, hs]; rfl
  · simp only [unlockedIds, hs]; decide

/-! ## C18 -/

theorem isUnlocked_hours (p : Progress) (now1 now2 : JsDate) (r : Requirement)
    (h : now2.getHours = now1.getHours) : isUnlocked p now2 r = isUnlocked p now1 r := by
  obtain ⟨t, v⟩ := r
  cases t <;> simp [isUnlocked, h]

theorem not_eligible_after_check (p : Progress) (now1 now2 : JsDate) (s : Storage)
    (h : now2.getHours = now1.getHours) (a : Achievement) (ha : a ∈ ACHIEVEMENTS) :
    eligible (checkAchievements p now1 s).progress now2 a = false := by
  rw [checkAchievements_progress]
  simp only [eligible, isUnlocked_unlocked_irrelevant]
  rw [isUnlocked_hours p now1 now2 _ h]
  by_cases hu : isUnlocked p now1 a.requirement = true
  · by_cases hin : a.id ∈ p.unlockedAchievements
    · simp [hin]
    · have hel : eligible p now1 a = true := by simp [eligible, hin, hu]
      have hmem : a.id ∈ (ACHIEVEMENTS.filter (eligible p now1)).map Achievement.id :=
        List.mem_map_of_mem _ (List.mem_filter.mpr ⟨ha, hel⟩)
      simp [hmem]
  · simp [hu]

theorem fresh_eligible_noon (now : JsDate) (h : now.getHours = 12) :
    ACHIEVEMENTS.filter (eligible freshProgress now) = [] := by
  have h70 : decide ((70 : ℚ) ≤ 0) = false := by norm_num
  have h85 : decide ((85 : ℚ) ≤ 0) = false := by norm_num
  simp [ACHIEVEMENTS, List.filter, eligible, isUnlocked, freshProgress, h, h70, h85]

theorem fresh_eligible_night (now : JsDate) (h : now.getHours = 23) :
    ACHIEVEMENTS.filter (eligible freshProgress now) = [NIGHT_OWL] := by
  have h70 : decide ((70 : ℚ) ≤ 0) = false := by norm_num
  have h85 : decide ((85 : ℚ) ≤ 0) = false := by norm_num
  simp [ACHIEVEMENTS, List.filter, eligible, isUnlocked, freshProgress, NIGHT_OWL, h, h70, h85]

/-- C18 as stated fails: on the freshly initialized progress a first `checkAchievements` run
at 12:00 returns nothing and leaves the progress as it is; a second run on that unchanged
progress at 23:00 returns `night_owl`, adds its id to the unlocked set and appends an entry of
75 points to the ledger. -/
theorem C18_counterexample :
    (checkAchievements freshProgress ⟨43200000⟩ (initializeAchievements Storage.empty)).progress
      = freshProgress
    ∧ (checkAchievements
        (checkAchievements freshProgress ⟨43200000⟩
          (initializeAchievements Storage.empty)).progress
        ⟨82800000⟩
        (checkAchievements freshProgress ⟨43200000⟩
          (initializeAchievements Storage.empty)).storage).newlyUnlocked = [NIGHT_OWL]
    ∧ awardedIds (checkAchievements
        (checkAchievements freshProgress ⟨43200000⟩
          (initializeAchievements Storage.empty)).progress
        ⟨82800000⟩
        (checkAchievements freshProgress ⟨43200000⟩
          (initializeAchievements Storage.empty)).storage).storage = ["night_owl"] := by
  have h12 := fresh_eligible_noon ⟨43200000⟩ noon_getHours
  have h23 := fresh_eligible_night ⟨82800000⟩ (by decide)
  have hp : (checkAchievements freshProgress ⟨43200000⟩
      (initializeAchievements Storage.empty)).progress = freshProgress := by
    rw [checkAchievements_progress, h12]
    rfl
  have hs : (checkAchievements freshProgress ⟨43200000⟩
      (initializeAchievements Storage.empty)).storage = initializeAchievements Storage.empty := by
    rw [checkAchievements_storage, h12]
    rfl
  refine ⟨hp, ?_, ?_⟩
  · rw [hp, checkAchievements_newlyUnlocked, h23]
  · rw [hp, hs, checkAchievements_storage, h23]
    rfl

/-- C18 amended: for every progress state, a second `checkAchievements` run that reads the
same clock hour as the first, on the progress and the store left by the first run, returns the
empty list, leaves the unlocked set as it is and leaves the store, points ledger included, as
it is. At any clock hour, a later run returns no achievement that the first run returned and
none whose id was in the unlocked set before. -/
theorem C18_checkAchievements_idempotent (p : Progress) (now1 : JsDate) (s : Storage) :
    (∀ now2 : JsDate, now2.getHours = now1.getHours →
      (checkAchievements (checkAchievements p now1 s).progress now2
          (checkAchievements p now1 s).storage).newlyUnlocked = []
      ∧ (checkAchievements (checkAchievements p now1 s).progress now2
          (checkAchievements p now1 s).storage).progress = (checkAchievements p now1 s).progress
      ∧ (checkAchievements (checkAchievements p now1 s).progress now2
          (checkAchievements p now1 s).storage).storage = (checkAchievements p now1 s).storage)
    ∧ (∀ (now3 : JsDate) (a : Achievement),
        a ∈ (checkAchievements (checkAchievements p now1 s).progress now3
          (checkAchievements p now1 s).storage).newlyUnlocked →
        a ∉ (checkAchievements p now1 s).newlyUnlocked ∧ a.id ∉ p.unlockedAchievements) := by
  constructor
  · intro now2 h
    have hnil :
        ACHIEVEMENTS.filter (eligible (checkAchievements p now1 s).progress now2) = [] := by
      rw [List.filter_eq_nil_iff]
      intro a ha
      rw [not_eligible_after_check p now1 now2 s h a ha]
      simp
    refine ⟨?_, ?_, ?_⟩
    · rw [checkAchievements_newlyUnlocked, hnil]
    · rw [checkAchievements_progress (checkAchievements p now1 s).progress, hnil]
      simp
    · rw [checkAchievements_storage (checkAchievements p now1 s).progress, hnil]
      rfl
  · intro now3 a ha
    rw [checkAchievements_newlyUnlocked, List.mem_filter] at ha
    obtain ⟨_, hel⟩ := ha
    rw [checkAchievements_progress] at hel
    simp only [eligible, Bool.and_eq_true, decide_eq_true_eq, List.mem_append, not_or] at hel
    obtain ⟨⟨h1, h2⟩, _⟩ := hel
    refine ⟨?_, h1⟩
    intro hmem
    rw [checkAchievements_newlyUnlocked] at hmem
    exact h2 (List.mem_map_of_mem _ hmem)

/-- C18 amended, at a concrete input: ten scans with average 60 and nothing unlocked, checked
at 12:00 and again at 12:01. -/
theorem C18_checkAchievements_idempotent_witness :
    (⟨43260000⟩ : JsDate).getHours = (⟨43200000⟩ : JsDate).getHours
    ∧ (checkAchievements (checkAchievements tenScanProgress ⟨43200000⟩ tenScanStore).progress
        ⟨43260000⟩ (checkAchievements tenScanProgress ⟨43200000⟩ tenScanStore).storage
        ).newlyUnlocked = [] :=
  ⟨by decide,
    ((C18_checkAchievements_idempotent tenScanProgress ⟨43200000⟩ tenScanStore).1
      ⟨43260000⟩ (by decide)).1⟩

/-! ## C19 -/

theorem updateCounters_unlocked (p : Progress) (scan : ScanResult) :
    (updateCounters p scan).unlockedAchievements = p.unlockedAchievements
      ∧ (updateCounters p scan).scanCount = p.scanCount + 1 := by
  unfold updateCounters
  cases scan.category <;> simp <;> split <;> simp <;> split <;> simp

theorem updateStreak_unlocked (p : Progress) (now : JsDate) :
    (updateStreak p now).unlockedAchievements = p.unlockedAchievements
      ∧ (updateStreak p now).scanCount = p.scanCount := by
  unfold updateStreak
  simp only []
  split <;> [split; split] <;> simp

theorem initializeAchievements_progress_none (s : Storage) (h : s.progress = none) :
    (initializeAchievements s).progress = some freshProgress := by
  simp only [initializeAchievements, h]
  cases s.points <;> rfl

/-- What one `updateProgressAfterScan` call returns and what it does to the persisted unlocked
set: the returned achievements are catalog entries whose ids were not unlocked before, and
their ids are appended. -/
theorem scan_step_unlocked (scan : ScanResult) (now : JsDate) (s : Storage) :
    unlockedIds (updateProgressAfterScan scan now s).2
        = unlockedIds s ++ (updateProgressAfterScan scan now s).1.map Achievement.id
      ∧ ∀ a ∈ (updateProgressAfterScan scan now s).1, a.id ∉ unlockedIds s := by
  have key : ∀ (s : Storage) (p : Progress), s.progress = some p →
      unlockedIds (updateProgressAfterScan scan now s).2
          = p.unlockedAchievements ++ (updateProgressAfterScan scan now s).1.map Achievement.id
        ∧ ∀ a ∈ (updateProgressAfterScan scan now s).1, a.id ∉ p.unlockedAchievements := by
    intro s p hp
    rw [updateProgressAfterScan_some scan now s p hp]
    simp only [unlockedIds, Option.map_some', Option.getD_some]
    rw [checkAchievements_progress, checkAchievements_newlyUnlocked]
    simp only []
    rw [(updateStreak_unlocked _ now).1, (updateCounters_unlocked p scan).1]
    refine ⟨rfl, ?_⟩
    intro a ha
    have hel := (List.mem_filter.mp ha).2
    simp only [eligible, Bool.and_eq_true, decide_eq_true_eq] at hel
    rw [(updateStreak_unlocked _ now).1, (updateCounters_unlocked p scan).1] at hel
    exact hel.1
  cases h : s.progress with
  | some p =>
    have := key s p h
    simpa [unlockedIds, h] using this
  | none =>
    rw [updateProgressAfterScan_none scan now s h]
    have := key (initializeAchievements s) freshProgress
      (initializeAchievements_progress_none s h)
    simpa [unlockedIds, h, freshProgress] using this

theorem scanReturns_not_unlocked (calls : List (ScanResult × JsDate)) :
    ∀ s : Storage, ∀ x ∈ scanReturns calls s, ∀ a ∈ x, a.id ∉ unlockedIds s := by
  induction calls with
  | nil => intro s x hx; simp [scanReturns] at hx
  | cons c rest ih =>
    intro s x hx a ha
    obtain ⟨h1, h2⟩ := scan_step_unlocked c.1 c.2 s
    simp only [scanReturns, List.mem_cons] at hx
    rcases hx with rfl | hx
    · exact h2 a ha
    · have := ih _ x hx a ha
      rw [h1] at this
      exact fun hmem => this (List.mem_append_left _ hmem)

theorem scanReturns_pairwise (calls : List (ScanResult × JsDate)) :
    ∀ s : Storage, List.Pairwise (fun x y => ∀ a ∈ x, a ∉ y) (scanReturns calls s) := by
  induction calls with
  | nil => intro s; simp [scanReturns]
  | cons c rest ih =>
    intro s
    simp only [scanReturns, List.pairwise_cons]
    refine ⟨?_, ih _⟩
    intro y hy a ha hay
    have hnot := scanReturns_not_unlocked rest _ y hy a hay
    rw [(scan_step_unlocked c.1 c.2 s).1] at hnot
    exact hnot (List.mem_append_right _ (List.mem_map_of_mem _ ha))

theorem first_scan_returned (scan : ScanResult) (now : JsDate) :
    FIRST_SCAN ∈ (updateProgressAfterScan scan now Storage.empty).1 := by
  rw [updateProgressAfterScan_none scan now Storage.empty rfl,
    updateProgressAfterScan_some scan now _ freshProgress
      (initializeAchievements_progress_none Storage.empty rfl)]
  simp only []
  rw [checkAchievements_newlyUnlocked, List.mem_filter]
  refine ⟨by decide, ?_⟩
  simp only [eligible, Bool.and_eq_true, decide_eq_true_eq]
  rw [(updateStreak_unlocked _ now).1, (updateCounters_unlocked freshProgress scan).1]
  refine ⟨by simp [freshProgress], ?_⟩
  simp only [isUnlocked, FIRST_SCAN, decide_eq_true_eq]
  rw [(updateStreak_unlocked _ now).2, (updateCounters_unlocked freshProgress scan).2]
  simp [freshProgress]

/-- C19: in a fresh namespace the first `updateProgressAfterScan` call returns a list that
contains `first_scan` and no later call returns it; over every sequence of scans from every
store, no achievement is returned by two different `updateProgressAfterScan` calls. -/
theorem C19_no_achievement_returned_twice :
    (∀ (c : ScanResult × JsDate) (rest : List (ScanResult × JsDate)),
      FIRST_SCAN ∈ (scanReturns (c :: rest) Storage.empty).headD []
      ∧ ∀ y ∈ (scanReturns (c :: rest) Storage.empty).tail, FIRST_SCAN ∉ y)
    ∧ (∀ (calls : List (ScanResult × JsDate)) (s : Storage),
        List.Pairwise (fun x y => ∀ a ∈ x, a ∉ y) (scanReturns calls s)) := by
  refine ⟨?_, scanReturns_pairwise⟩
  intro c rest
  have hp := scanReturns_pairwise (c :: rest) Storage.empty
  simp only [scanReturns, List.pairwise_cons] at hp
  simp only [scanReturns, List.headD_cons, List.tail_cons]
  exact ⟨first_scan_returned c.1 c.2, fun y hy => hp.1 y hy _ (first_scan_returned c.1 c.2)⟩

/-! ## C20 -/

theorem find_none_of_not_mem (achievementId : String)
    (h : achievementId ∉ ACHIEVEMENTS.map Achievement.id) :
    ACHIEVEMENTS.find? (fun a => a.id = achievementId) = none := by
  rw [List.find?_eq_none]
  intro a ha
  simp only [decide_eq_true_eq]
  intro hid
  exact h (hid ▸ List.mem_map_of_mem _ ha)

/-- C20: for every stored progress state whose eco-score sum is not negative (the counters
are natural numbers) and every achievement id, `getAchievementProgress` returns a value
between 0 and 100; it returns 0 for an id that is not in the catalog and when no progress is
stored; the store is left as it was. -/
theorem C20_progress_in_range (achievementId : String) (s : Storage)
    (h : ∀ p, s.progress = some p → 0 ≤ p.totalEcoScore) :
    (0 ≤ (getAchievementProgress achievementId s).1
      ∧ (getAchievementProgress achievementId s).1 ≤ 100)
    ∧ (achievementId ∉ ACHIEVEMENTS.map Achievement.id →
        (getAchievementProgress achievementId s).1 = 0)
    ∧ (s.progress = none → (getAchievementProgress achievementId s).1 = 0)
    ∧ (getAchievementProgress achievementId s).2 = s := by
  unfold getAchievementProgress
  cases hp : s.progress with
  | none => simp
  | some p =>
    have hnn := h p hp
    simp only []
    cases hf : ACHIEVEMENTS.find? (fun a => a.id = achievementId) with
    | none => simp
    | some a =>
      simp only []
      refine ⟨⟨?_, min_le_right _ _⟩, ?_, ?_, trivial⟩
      · apply le_min _ (by norm_num)
        apply mul_nonneg _ (by norm_num)
        apply div_nonneg _ (Nat.cast_nonneg _)
        split
        · exact Nat.cast_nonneg _
        · exact Nat.cast_nonneg _
        · split
          · exact div_nonneg hnn (Nat.cast_nonneg _)
          · exact le_refl _
        · exact Nat.cast_nonneg _
        · exact Nat.cast_nonneg _
        · exact Nat.cast_nonneg _
        · exact le_refl _
        · exact le_refl _
      · intro hnot
        rw [find_none_of_not_mem achievementId hnot] at hf
        cases hf
      · intro hcontra
        cases hcontra

/-- C20 at concrete inputs: ten scans against `scan_master` (50 scans) is in range, and an
unknown id gives 0. -/
theorem C20_progress_in_range_witness :
    (0 ≤ (getAchievementProgress "scan_master" tenScanStore).1
      ∧ (getAchievementProgress "scan_master" tenScanStore).1 ≤ 100)
    ∧ (getAchievementProgress "no_such_id" tenScanStore).1 = 0
    ∧ (getAchievementProgress "scan_master" tenScanStore).2 = tenScanStore :=
  have h : ∀ p, tenScanStore.progress = some p → 0 ≤ p.totalEcoScore := by
    intro p hp
    cases hp
    norm_num [tenScanProgress]
  ⟨(C20_progress_in_range "scan_master" tenScanStore h).1,
    (C20_progress_in_range "no_such_id" tenScanStore h).2.1 (by decide),
    (C20_progress_in_range "scan_master" tenScanStore h).2.2.2⟩

/-! ## C21 -/

theorem catalog_find (a : Achievement) (ha : a ∈ ACHIEVEMENTS) :
    ACHIEVEMENTS.find? (fun b => b.id = a.id) = some a := by
  revert a
  decide

theorem getAchievementProgress_catalog (s : Storage) (p : Progress) (a : Achievement)
    (hp : s.progress = some p) (ha : a ∈ ACHIEVEMENTS) :
    (getAchievementProgress a.id s).1
      = min (metricValue p a.requirement.type / a.requirement.value * 100) 100 := by
  unfold getAchievementProgress
  simp only [hp, catalog_find a ha]
  obtain ⟨id, pts, ⟨t, v⟩⟩ := a
  cases t <;> simp only [metricValue]
  by_cases h0 : p.scanCount = 0
  · simp [h0]
  · have hpos : 0 < p.scanCount := Nat.pos_of_ne_zero h0
    simp [h0, hpos]

theorem ten_scans_first_scan : (getAchievementProgress "first_scan" tenScanStore).1 = 100 := by
  have h := getAchievementProgress_catalog tenScanStore tenScanProgress FIRST_SCAN rfl
    (by decide)
  have hid : FIRST_SCAN.id = "first_scan" := rfl
  rw [hid] at h
  rw [h]
  norm_num [metricValue, FIRST_SCAN, tenScanProgress]

/-- C21 as stated fails: with 10 scans stored, `first_scan` (threshold 1) has current value 10;
`getAchievementProgress` returns 100, while `min(currentValue / threshold, 100) * 100` is
1000. -/
theorem C21_counterexample :
    (getAchievementProgress "first_scan" tenScanStore).1 = 100
    ∧ min (metricValue tenScanProgress .scan_count / (1 : ℚ)) 100 * 100 = 1000
    ∧ (getAchievementProgress "first_scan" tenScanStore).1
        ≠ min (metricValue tenScanProgress FIRST_SCAN.requirement.type
            / FIRST_SCAN.requirement.value) 100 * 100 := by
  rw [ten_scans_first_scan]
  norm_num [metricValue, FIRST_SCAN, tenScanProgress]

/-- C21 amended: for every stored progress state and every catalog achievement (the hour
requirements counting with current value 0), `getAchievementProgress` returns `min(currentValue / threshold * 100, 100)`,
that is `min(currentValue / threshold, 1) * 100`: the percentage is capped at 100. This is
`min(currentValue / threshold, 100) * 100` whenever the current value does not exceed the
threshold. -/
theorem C21_progress_is_capped_percentage (s : Storage) (p : Progress) (a : Achievement)
    (hp : s.progress = some p) (ha : a ∈ ACHIEVEMENTS) :
    (getAchievementProgress a.id s).1
        = min (metricValue p a.requirement.type / a.requirement.value * 100) 100
    ∧ (getAchievementProgress a.id s).1
        = min (metricValue p a.requirement.type / a.requirement.value) 1 * 100
    ∧ (metricValue p a.requirement.type ≤ a.requirement.value →
        (getAchievementProgress a.id s).1
          = min (metricValue p a.requirement.type / a.requirement.value) 100 * 100) := by
  have h := getAchievementProgress_catalog s p a hp ha
  have hval : (0 : ℚ) < (a.requirement.value : ℚ) := by
    have : ∀ b ∈ ACHIEVEMENTS, 0 < b.requirement.value := by decide
    exact_mod_cast this a ha
  have h2 : min (metricValue p a.requirement.type / a.requirement.value * 100) 100
      = min (metricValue p a.requirement.type / a.requirement.value) 1 * 100 := by
    rcases le_total (metricValue p a.requirement.type / a.requirement.value) 1 with hle | hle
    · rw [min_eq_left hle, min_eq_left (by linarith)]
    · rw [min_eq_right hle, min_eq_right (by linarith)]
      norm_num
  refine ⟨h, h.trans h2, ?_⟩
  intro hle
  rw [h, h2]
  have h1 : metricValue p a.requirement.type / a.requirement.value ≤ 1 :=
    (div_le_one hval).mpr hle
  rw [min_eq_left h1, min_eq_left (by linarith)]

/-- C21 amended, at a concrete input: 10 scans against `scan_master` (threshold 50). -/
theorem C21_progress_is_capped_percentage_witness :
    (getAchievementProgress "scan_master" tenScanStore).1
      = min (metricValue tenScanProgress .scan_count / ((50 : Nat) : ℚ) * 100) 100 :=
  (C21_progress_is_capped_percentage tenScanStore tenScanProgress
    ⟨"scan_master", 500, ⟨.scan_count, 50⟩⟩ rfl (by decide)).1

/-! ## C22 -/

/-- C22 as stated fails: `normalizeWeight(-5, 3)` is `-5`, not 0. -/
theorem C22_counterexample :
    normalizeWeight (some (-5)) 3 = -5 ∧ normalizeWeight (some (-5)) 3 ≠ 0 := by
  norm_num [normalizeWeight, toFixed1]

/-- C22 amended: for every item count, `normalizeWeight` returns 0 when the raw weight is
missing; when the raw weight is negative it returns that weight rounded to one decimal place,
which is never positive and is 0 only for a weight above -0.05. -/
theorem C22_missing_is_zero_negative_is_rounded (n : Nat) :
    normalizeWeight none n = 0
    ∧ (∀ w : ℚ, w < 0 →
        normalizeWeight (some w) n = toFixed1 w
        ∧ IsRoundedToOneDecimal w (normalizeWeight (some w) n)
        ∧ normalizeWeight (some w) n ≤ 0
        ∧ (normalizeWeight (some w) n = 0 ↔ -(1 / 20) < w)) := by
  constructor
  · norm_num [normalizeWeight, toFixed1]
  · intro w hw
    have hcond : ¬ (w > (n : ℚ) * 10 ∧ n > 0) := by
      intro hc
      have : (0 : ℚ) ≤ (n : ℚ) := Nat.cast_nonneg n
      linarith [hc.1]
    have h : normalizeWeight (some w) n = toFixed1 w := by
      simp only [normalizeWeight, if_neg hcond]
    refine ⟨h, h ▸ toFixed1_isRounded w, h ▸ toFixed1_nonpos w (le_of_lt hw), ?_⟩
    rw [h]
    unfold toFixed1
    rw [if_pos hw]
    have hfl : (⌊(-w) * 10 + 1 / 2⌋ = 0) ↔ -(1 / 20) < w := by
      rw [Int.floor_eq_iff]
      constructor
      · rintro ⟨_, h2⟩
        push_cast at h2
        linarith
      · intro h3
        constructor <;> push_cast <;> linarith
    rw [← hfl]
    constructor
    · intro h0
      have h1 : ((⌊(-w) * 10 + 1 / 2⌋ : ℤ) : ℚ) = 0 := by linarith
      exact_mod_cast h1
    · intro h0
      rw [h0]
      norm_num

/-- C22 amended, at the weight -5. -/
theorem C22_missing_is_zero_negative_is_rounded_witness :
    (-5 : ℚ) < 0 ∧ normalizeWeight (some (-5)) 3 = toFixed1 (-5)
      ∧ normalizeWeight (some (-5)) 3 ≤ 0 :=
  ⟨by norm_num,
    ((C22_missing_is_zero_negative_is_rounded 3).2 (-5) (by norm_num)).1,
    ((C22_missing_is_zero_negative_is_rounded 3).2 (-5) (by norm_num)).2.2.1⟩

/-! ## C23 -/

/-- C23 as stated fails: `normalizeWeight(3 * 150, 3)` is `0.5`, not `3 * 0.15 = 0.45`. -/
theorem C23_counterexample :
    normalizeWeight (some ((3 : ℚ) * 150)) 3 = 1 / 2
    ∧ normalizeWeight (some ((3 : ℚ) * 150)) 3 ≠ (3 : ℚ) * (15 / 100) := by
  have h : normalizeWeight (some ((3 : ℚ) * 150)) 3 = 1 / 2 := by
    rw [normalizeWeight_grams _ 3 (by norm_num)]
    rw [show (3 : ℚ) * 150 / 1000 = 450 / 1000 by norm_num, double_of_450_grams]
    have := toFixed1_of_near (8106479329266893 / 2 ^ 54) 5 (by norm_num)
      (by rw [abs_lt]; constructor <;> norm_num)
    rw [this]
    norm_num
  rw [h]
  norm_num

/-- C23 amended: for every positive item count `n` up to `10^13` (so that `n * 150` is an
integer that a double holds exactly), `normalizeWeight(n * 150, n)` returns the double quotient
`n * 150 / 1000` rounded to one decimal place, which is a whole number of tenths at most 0.05
away from `n * 0.15`; it is `n * 0.15` itself exactly when `n` is even. For an odd `n` the value
`n * 0.15` lies midway between two tenths and the result is one of the two. -/
theorem C23_grams_are_converted_and_rounded (n : Nat) (hn : 0 < n) (hmax : n ≤ 10 ^ 13) :
    normalizeWeight (some ((n : ℚ) * 150)) n = toFixed1 (roundToDouble ((n : ℚ) * 150 / 1000))
    ∧ IsRoundedToOneDecimal ((n : ℚ) * (15 / 100)) (normalizeWeight (some ((n : ℚ) * 150)) n)
    ∧ (normalizeWeight (some ((n : ℚ) * 150)) n = (n : ℚ) * (15 / 100) ↔ Even n) := by
  have hpos : (0 : ℚ) < (n : ℚ) := by exact_mod_cast hn
  have hle : (n : ℚ) ≤ 10 ^ 13 := by exact_mod_cast hmax
  have hcond : (n : ℚ) * 150 > (n : ℚ) * 10 ∧ n > 0 := ⟨by linarith, hn⟩
  have h := normalizeWeight_grams _ n hcond
  have hx0 : (0 : ℚ) ≤ (n : ℚ) * 150 / 1000 := by positivity
  have hy0 := roundToDouble_nonneg _ hx0
  have herr := roundToDouble_error ((n : ℚ) * 150 / 1000)
  rw [abs_of_nonneg hx0, abs_le] at herr
  have h53 : (n : ℚ) * 150 / 1000 / 2 ^ 53 < 1 / 20 := by
    rw [div_lt_iff₀ (by norm_num)]
    norm_num
    linarith
  have hnear : |roundToDouble ((n : ℚ) * 150 / 1000) - ((3 * (n : ℤ) : ℤ) : ℚ) / 20| < 1 / 20 := by
    rw [abs_lt]
    push_cast
    constructor <;> linarith [herr.1, herr.2]
  have htw := toFixed1_near_twentieth _ _ hy0 hnear
  have hten := (toFixed1_isRounded (roundToDouble ((n : ℚ) * 150 / 1000))).1
  rw [h]
  refine ⟨rfl, ⟨hten, ?_⟩, ?_⟩
  · have e : (n : ℚ) * (15 / 100) = ((3 * (n : ℤ) : ℤ) : ℚ) / 20 := by push_cast; ring
    rw [e]
    exact htw
  · constructor
    · intro heq
      obtain ⟨k, hk⟩ := hten
      rw [heq] at hk
      have h3 : (3 * (n : ℤ) : ℚ) = ((2 * k : ℤ) : ℚ) := by
        push_cast
        linarith
      have h4 : 3 * (n : ℤ) = 2 * k := by exact_mod_cast h3
      have h5 : (n : ℤ) % 2 = 0 := by omega
      exact (Int.even_coe_nat n).mp (Int.even_iff.mpr h5)
    · rintro ⟨m, hm⟩
      have hn2 : (n : ℚ) = 2 * (m : ℚ) := by rw [hm]; push_cast; ring
      have := toFixed1_of_near (roundToDouble ((n : ℚ) * 150 / 1000)) (3 * (m : ℤ)) hy0 (by
        rw [abs_lt]
        push_cast
        rw [hn2] at herr h53 ⊢
        constructor <;> linarith [herr.1, herr.2])
      rw [this, hn2]
      push_cast
      ring

/-- C23 amended, at `n = 2`: `normalizeWeight(300, 2)` is `0.3 = 2 * 0.15`. -/
theorem C23_grams_are_converted_and_rounded_witness :
    0 < 2 ∧ 2 ≤ 10 ^ 13
    ∧ normalizeWeight (some (((2 : Nat) : ℚ) * 150)) 2 = ((2 : Nat) : ℚ) * (15 / 100) :=
  ⟨by decide, by norm_num,
    (C23_grams_are_converted_and_rounded 2 (by decide) (by norm_num)).2.2.mpr (by decide)⟩

/-! ## C24 -/

theorem plasticCalls_length (n : Nat) : (plasticCalls n).length = n := by
  rw [plasticCalls, List.length_map, List.length_range]

/-- C24 as stated fails: after 101 scans recorded into an empty namespace the stored history
has 100 records and `totalItemsScanned` is 101, not `min(101, 100) = 100`. -/
theorem C24_counterexample :
    (storedHistory (saveAll (plasticCalls 101) Storage.empty)).length = 100
    ∧ ((saveAll (plasticCalls 101) Storage.empty).stats.map Stats.totalItemsScanned) = some 101
    ∧ ((saveAll (plasticCalls 101) Storage.empty).stats.map Stats.totalItemsScanned)
        ≠ some (min 101 100) := by
  have hne : plasticCalls 101 ≠ [] := by
    intro h
    have := plasticCalls_length 101
    rw [h] at this
    exact absurd this (by decide)
  obtain ⟨st, hst, ht, _⟩ := saveAll_stats (plasticCalls 101) Storage.empty hne
  have ht2 : st.totalItemsScanned = 101 := by
    rw [ht, plasticCalls_length]
    rfl
  have hh := saveAll_history (plasticCalls 101) Storage.empty (by decide)
  refine ⟨?_, ?_, ?_⟩
  · rw [hh]
    simp [storedHistory, Storage.empty, plasticCalls_length]
  · rw [hst]; simp [ht2]
  · rw [hst]; simp [ht2]

/-- C24 amended: for every sequence of `n ≥ 1` scans recorded into an empty namespace,
`totalItemsScanned` equals `n`, the number of scans ever recorded; it is not capped. The stored
history has length `min(n, 100)`, so the two agree exactly when `n ≤ 100`. -/
theorem C24_total_counts_every_scan (calls : List SaveCall) (hne : calls ≠ []) :
    ((saveAll calls Storage.empty).stats.map Stats.totalItemsScanned) = some calls.length
    ∧ (storedHistory (saveAll calls Storage.empty)).length = min calls.length 100
    ∧ (((saveAll calls Storage.empty).stats.map Stats.totalItemsScanned)
          = some (storedHistory (saveAll calls Storage.empty)).length
        ↔ calls.length ≤ 100) := by
  obtain ⟨st, hst, ht, _⟩ := saveAll_stats calls Storage.empty hne
  have ht2 : st.totalItemsScanned = calls.length := by
    rw [ht]
    simp [storedStats, Storage.empty, Stats.default]
  have hh := saveAll_history calls Storage.empty (by decide)
  have hlen : (storedHistory (saveAll calls Storage.empty)).length = min calls.length 100 := by
    rw [hh]
    simp [storedHistory, Storage.empty, Nat.min_comm]
  refine ⟨by rw [hst]; simp [ht2], hlen, ?_⟩
  rw [hst, hlen]
  simp only [Option.map_some', Option.some.injEq, ht2]
  omega

/-- C24 amended, on one scan. -/
theorem C24_total_counts_every_scan_witness :
    onePlasticCall ≠ []
    ∧ ((saveAll onePlasticCall Storage.empty).stats.map Stats.totalItemsScanned)
        = some onePlasticCall.length :=
  ⟨by decide, (C24_total_counts_every_scan onePlasticCall (by decide)).1⟩

/-! ## C25 -/

/-- The invariant of the refresh throttle: the logged queries are pairwise at least 10 s
apart, and none is later than the stored last-refresh time. -/
theorem refresh_step_invariant (now : Int) (response : ProfileResponse) (st : AuthState)
    (hp : st.profileQueries.Pairwise (fun a b => 10000 ≤ b - a))
    (hl : ∀ q ∈ st.profileQueries, ∃ last, st.lastRefreshTime = some last ∧ q ≤ last) :
    (stateAfter (refreshUserData now response st)).profileQueries.Pairwise
        (fun a b => 10000 ≤ b - a)
    ∧ ∀ q ∈ (stateAfter (refreshUserData now response st)).profileQueries,
        ∃ last, (stateAfter (refreshUserData now response st)).lastRefreshTime = some last
          ∧ q ≤ last := by
  have hgap : ∀ last, st.lastRefreshTime = some last → ¬ (now - last < 10000) →
      ∀ q ∈ st.profileQueries, 10000 ≤ now - q ∧ q ≤ now := by
    intro last hlast hnot q hq
    obtain ⟨l2, hl2, hle⟩ := hl q hq
    rw [hlast] at hl2
    cases hl2
    omega
  have hempty : st.lastRefreshTime = none → st.profileQueries = [] := by
    intro hnone
    cases hqs : st.profileQueries with
    | nil => rfl
    | cons q rest =>
      obtain ⟨l2, hl2, _⟩ := hl q (by rw [hqs]; exact List.mem_cons_self _ _)
      rw [hnone] at hl2
      cases hl2
  have hall : (¬ ∃ last, st.lastRefreshTime = some last ∧ now - last < 10000) →
      ∀ q ∈ st.profileQueries, 10000 ≤ now - q ∧ q ≤ now := by
    intro hno q hq
    cases hlt : st.lastRefreshTime with
    | none => rw [hempty hlt] at hq; cases hq
    | some last => exact hgap last hlt (fun h => hno ⟨last, hlt, h⟩) q hq
  unfold refreshUserData
  cases hlt : st.lastRefreshTime with
  | some last =>
    by_cases hsoon : now - last < 10000
    · simp only [hsoon, decide_True, if_true, stateAfter]
      exact ⟨hp, fun q hq => by simpa [hlt] using hl q hq⟩
    · have hq := hall (by rintro ⟨l, h1, h2⟩; rw [hlt] at h1; cases h1; exact hsoon h2)
      simp only [hsoon, decide_False, Bool.false_eq_true, if_false]
      cases st.token with
      | none =>
        simp only [stateAfter]
        exact ⟨hp, fun q hq2 => ⟨now, rfl, (hq q hq2).2⟩⟩
      | some tok =>
        cases response <;> simp only [stateAfter] <;>
          exact ⟨List.pairwise_append.mpr ⟨hp, List.pairwise_singleton _ _,
              fun a ha b hb => by
                rw [List.mem_singleton] at hb
                subst hb
                exact (hq a ha).1⟩,
            fun q hq2 => by
              rw [List.mem_append, List.mem_singleton] at hq2
              rcases hq2 with h | h
              · exact ⟨now, rfl, (hq q h).2⟩
              · exact ⟨now, rfl, le_of_eq h⟩⟩
  | none =>
    have hq := hall (by rintro ⟨l, h1, _⟩; rw [hlt] at h1; cases h1)
    simp only [Bool.false_eq_true, if_false]
    cases st.token with
    | none =>
      simp only [stateAfter]
      exact ⟨hp, fun q hq2 => ⟨now, rfl, (hq q hq2).2⟩⟩
    | some tok =>
      cases response <;> simp only [stateAfter] <;>
        exact ⟨List.pairwise_append.mpr ⟨hp, List.pairwise_singleton _ _,
            fun a ha b hb => by
              rw [List.mem_singleton] at hb
              subst hb
              exact (hq a ha).1⟩,
          fun q hq2 => by
            rw [List.mem_append, List.mem_singleton] at hq2
            rcases hq2 with h | h
            · exact ⟨now, rfl, (hq q h).2⟩
            · exact ⟨now, rfl, le_of_eq h⟩⟩

theorem refreshAll_invariant (calls : List (Int × ProfileResponse)) :
    ∀ st : AuthState,
      st.profileQueries.Pairwise (fun a b => 10000 ≤ b - a) →
      (∀ q ∈ st.profileQueries, ∃ last, st.lastRefreshTime = some last ∧ q ≤ last) →
      (refreshAll calls st).profileQueries.Pairwise (fun a b => 10000 ≤ b - a) := by
  induction calls with
  | nil => intro st hp _; exact hp
  | cons c rest ih =>
    intro st hp hl
    obtain ⟨h1, h2⟩ := refresh_step_invariant c.1 c.2 st hp hl
    exact ih _ h1 h2

/-- C25: a `refreshUserData` call at time `t` with a stored last-refresh time `L` such that
`t - L < 10000` returns the current user and leaves the whole state as it was: no profile
query is made and the stored last-refresh time is unchanged. Hence, over every sequence of
calls starting with no query made, any two profile queries are at least 10 000 ms apart. -/
theorem C25_refresh_is_throttled :
    (∀ (now last : Int) (response : ProfileResponse) (st : AuthState),
      st.lastRefreshTime = some last → now - last < 10000 →
      refreshUserData now response st = .ok (st.user, st))
    ∧ (∀ (calls : List (Int × ProfileResponse)) (st : AuthState),
        st.profileQueries = [] →
        (refreshAll calls st).profileQueries.Pairwise (fun a b => 10000 ≤ b - a)) := by
  constructor
  · intro now last response st hl hsoon
    simp [refreshUserData, hl, hsoon]
  · intro calls st hq
    apply refreshAll_invariant calls st
    · rw [hq]; exact List.Pairwise.nil
    · intro q hmem; rw [hq] at hmem; cases hmem

/-- C25 at concrete inputs: a call 4 s after the last refresh changes nothing, and of three
calls at 1 004 000, 1 010 000 and 1 015 000 ms only the second queries the server. -/
theorem C25_refresh_is_throttled_witness :
    refreshUserData 1004000 .failure sessionRefreshed
        = .ok (sessionRefreshed.user, sessionRefreshed)
    ∧ (refreshAll [(1004000, .failure), (1010000, .failure), (1015000, .failure)]
        sessionRefreshed).profileQueries.Pairwise (fun a b => 10000 ≤ b - a) :=
  ⟨C25_refresh_is_throttled.1 1004000 1000000 .failure sessionRefreshed rfl (by decide),
    C25_refresh_is_throttled.2 _ sessionRefreshed rfl⟩

/-! ## C26 -/

/-- C26 as stated fails: user `u1` is logged in and only the read of the stored user that
derives the stats key rejects. `getUserSpecificKey` catches the rejection and answers with the
anonymous key, so `saveScanToHistory` returns a record instead of failing; the history is
persisted in the namespace of the user and the aggregate in the anonymous namespace. -/
theorem C26_counterexample :
    phoneLoggedIn.userId = some "u1"
    ∧ statsKeyReadFault.statsKeyUserRead = true
    ∧ (∃ ph, WithFaults.saveScanToHistory statsKeyReadFault plasticScan none ⟨1700000000000⟩
          phoneLoggedIn = .ok (plasticRecord, ph)
        ∧ ph.userSpace.history = some [plasticRecord]
        ∧ ph.userSpace.stats = none
        ∧ ph.anonSpace.history = none
        ∧ ph.anonSpace.stats
            = some (updateStatistics plasticRecord ⟨1700000000000⟩ Storage.empty).1) := by
  refine ⟨rfl, rfl, _, rfl, rfl, rfl, rfl, rfl⟩

/-- C26 amended: if the read or the write of the history or of the stats rejects,
`saveScanToHistory` raises the error instead of returning a record, and with none of these four
rejected it returns the record. The history key and the stats key are derived by two calls
of `getUserSpecificKey`, each with its own read of the stored user; a rejected read is caught
and selects the anonymous key, a read that succeeds selects the key of the stored user when it
has an `_id`. When a record is returned, the updated history has been persisted under the
history key and the updated aggregate under the stats key. When the two keys name one
namespace, that namespace holds what `saveScanToHistory` writes and the other namespace is
untouched; when they differ, each namespace received one of the two writes. -/
theorem C26_save_raises_on_history_or_stats_failure (faults : SaveFaults)
    (scanResult : ScanResult) (imageUri : Option String) (now : JsDate) (ph : Phone) :
    ((faults.historyRead = true ∨ faults.historyWrite = true ∨ faults.statsRead = true
        ∨ faults.statsWrite = true) →
      ∃ ph1, WithFaults.saveScanToHistory faults scanResult imageUri now ph = .error ph1)
    ∧ (faults.historyRead = false → faults.historyWrite = false → faults.statsRead = false →
        faults.statsWrite = false →
        ∃ ph2, WithFaults.saveScanToHistory faults scanResult imageUri now ph
          = .ok (makeScan scanResult imageUri now, ph2))
    ∧ (∀ scan ph2, WithFaults.saveScanToHistory faults scanResult imageUri now ph
          = .ok (scan, ph2) →
        scan = makeScan scanResult imageUri now
        ∧ (ph2.space (getUserSpecificKey faults.historyKeyUserRead ph)).history
            = some ((scan :: storedHistory
                (ph.space (getUserSpecificKey faults.historyKeyUserRead ph))).take 100)
        ∧ (ph2.space (getUserSpecificKey faults.statsKeyUserRead ph)).stats
            = some (updateStatistics scan now
                (ph.space (getUserSpecificKey faults.statsKeyUserRead ph))).1
        ∧ (getUserSpecificKey faults.historyKeyUserRead ph
              = getUserSpecificKey faults.statsKeyUserRead ph →
            ph2.space (getUserSpecificKey faults.historyKeyUserRead ph)
                = (saveScanToHistory scanResult imageUri now
                    (ph.space (getUserSpecificKey faults.historyKeyUserRead ph))).2
            ∧ ph2.space (!getUserSpecificKey faults.historyKeyUserRead ph)
                = ph.space (!getUserSpecificKey faults.historyKeyUserRead ph))
        ∧ (getUserSpecificKey faults.historyKeyUserRead ph
              ≠ getUserSpecificKey faults.statsKeyUserRead ph →
            (ph2.space (getUserSpecificKey faults.historyKeyUserRead ph)).stats
                = (ph.space (getUserSpecificKey faults.historyKeyUserRead ph)).stats
            ∧ (ph2.space (getUserSpecificKey faults.statsKeyUserRead ph)).history
                = (ph.space (getUserSpecificKey faults.statsKeyUserRead ph)).history))
    ∧ (∀ userReadRejects : Bool,
        (userReadRejects = true → getUserSpecificKey userReadRejects ph = false)
        ∧ (userReadRejects = false → getUserSpecificKey userReadRejects ph = ph.userId.isSome))
    := by
  refine ⟨?_, ?_, ?_, ?_⟩
  · intro hf
    unfold WithFaults.saveScanToHistory
    simp only []
    by_cases h1 : faults.historyRead = true
    · exact ⟨_, by rw [if_pos h1]⟩
    · rw [if_neg h1]
      by_cases h2 : faults.historyWrite = true
      · exact ⟨_, by rw [if_pos h2]⟩
      · rw [if_neg h2]
        by_cases h3 : faults.statsRead = true
        · exact ⟨_, by rw [if_pos h3]⟩
        · rw [if_neg h3]
          by_cases h4 : faults.statsWrite = true
          · exact ⟨_, by rw [if_pos h4]⟩
          · rcases hf with h | h | h | h
            · exact absurd h h1
            · exact absurd h h2
            · exact absurd h h3
            · exact absurd h h4
  · intro h1 h2 h3 h4
    unfold WithFaults.saveScanToHistory
    simp only [h1, h2, h3, h4, Bool.false_eq_true, if_false]
    exact ⟨_, rfl⟩
  · intro scan ph2 hok
    unfold WithFaults.saveScanToHistory at hok
    simp only [] at hok
    by_cases h1 : faults.historyRead = true
    · rw [if_pos h1] at hok; cases hok
    · rw [if_neg h1] at hok
      by_cases h2 : faults.historyWrite = true
      · rw [if_pos h2] at hok; cases hok
      · rw [if_neg h2] at hok
        by_cases h3 : faults.statsRead = true
        · rw [if_pos h3] at hok; cases hok
        · rw [if_neg h3] at hok
          by_cases h4 : faults.statsWrite = true
          · rw [if_pos h4] at hok; cases hok
          · rw [if_neg h4] at hok
            cases hok
            refine ⟨rfl, ?_, ?_, ?_, ?_⟩
            · cases getUserSpecificKey faults.historyKeyUserRead ph <;>
                cases getUserSpecificKey faults.statsKeyUserRead ph <;>
                simp [Phone.space, Phone.setSpace, updateStatistics, storedHistory]
            · cases getUserSpecificKey faults.historyKeyUserRead ph <;>
                cases getUserSpecificKey faults.statsKeyUserRead ph <;>
                simp [Phone.space, Phone.setSpace, updateStatistics]
            · intro heq
              rw [← heq]
              cases getUserSpecificKey faults.historyKeyUserRead ph <;>
                simp [Phone.space, Phone.setSpace, saveScanToHistory]
            · intro hne
              cases hh : getUserSpecificKey faults.historyKeyUserRead ph <;>
                cases hs : getUserSpecificKey faults.statsKeyUserRead ph <;>
                simp_all [Phone.space, Phone.setSpace, updateStatistics]
  · intro userReadRejects
    constructor
    · intro h
      simp [getUserSpecificKey, h]
    · intro h
      simp [getUserSpecificKey, h]

/-- C26 amended, at concrete inputs: with user `u1` logged in, a rejected write of the history
raises an error; with only the read of the user for the stats key rejected, the record is
returned, the history of the user's namespace holds it and the aggregate was written in the
anonymous namespace. -/
theorem C26_save_raises_on_history_or_stats_failure_witness :
    (∃ ph1, WithFaults.saveScanToHistory historyWriteFault plasticScan none ⟨1700000000000⟩
        phoneLoggedIn = .error ph1)
    ∧ (({ phoneLoggedIn with
          userSpace := { Storage.empty with history := some [plasticRecord] },
          anonSpace := (updateStatistics plasticRecord ⟨1700000000000⟩ Storage.empty).2
        } : Phone).space (getUserSpecificKey statsKeyReadFault.historyKeyUserRead
            phoneLoggedIn)).history
        = some ((plasticRecord :: storedHistory
            (phoneLoggedIn.space
              (getUserSpecificKey statsKeyReadFault.historyKeyUserRead phoneLoggedIn))).take 100) :=
  ⟨(C26_save_raises_on_history_or_stats_failure historyWriteFault plasticScan none
      ⟨1700000000000⟩ phoneLoggedIn).1 (Or.inr (Or.inl rfl)),
    ((C26_save_raises_on_history_or_stats_failure statsKeyReadFault plasticScan none
      ⟨1700000000000⟩ phoneLoggedIn).2.2.1 plasticRecord _ rfl).2.1⟩

/-! ## C27 -/

theorem initialProgress_eq : initialProgress = freshProgress := rfl

theorem withFaults_initialize_none (s : Storage) :
    WithFaults.initializeAchievements EngineFaults.none s = initializeAchievements s := by
  obtain ⟨progress, points, history, stats⟩ := s
  cases progress <;> cases points <;>
    simp [WithFaults.initializeAchievements, initializeAchievements, EngineFaults.none,
      initialProgress]

/-- With no failure, two levels of calls are enough for every store, and the result is that of
`updateProgressAfterScan`. -/
theorem withFaults_scan_none (scan : ScanResult) (now : JsDate) (fuel : Nat) (s : Storage) :
    WithFaults.updateProgressAfterScan EngineFaults.none scan now (fuel + 2) s
      = some (updateProgressAfterScan scan now s) := by
  cases hp : s.progress with
  | some p =>
    rw [updateProgressAfterScan_some scan now s p hp]
    simp [WithFaults.updateProgressAfterScan, EngineFaults.none, hp]
  | none =>
    rw [updateProgressAfterScan_none scan now s hp]
    have hinit := initializeAchievements_progress_none s hp
    rw [updateProgressAfterScan_some scan now _ freshProgress hinit]
    have e1 : EngineFaults.none.progressRead = false := rfl
    have e2 : EngineFaults.none.writes = false := rfl
    simp only [WithFaults.updateProgressAfterScan, e1, e2, hp, withFaults_initialize_none,
      hinit, Bool.false_eq_true, if_false]

/-- C27 as stated fails: the read of the progress rejects on the first scan of an empty
namespace. `updateProgressAfterScan` returns the empty list and leaves the store empty, while
the same scan on a freshly initialized progress returns `first_scan`. -/
theorem C27_counterexample :
    WithFaults.updateProgressAfterScan progressReadFault plasticScan ⟨43200000⟩ 2 Storage.empty
        = some ([], Storage.empty)
    ∧ FIRST_SCAN ∈ (updateProgressAfterScan plasticScan ⟨43200000⟩
        (initializeAchievements Storage.empty)).1
    ∧ WithFaults.updateProgressAfterScan progressReadFault plasticScan ⟨43200000⟩ 2 Storage.empty
        ≠ some (updateProgressAfterScan plasticScan ⟨43200000⟩
            (initializeAchievements Storage.empty)) := by
  have h1 : WithFaults.updateProgressAfterScan progressReadFault plasticScan ⟨43200000⟩ 2
      Storage.empty = some ([], Storage.empty) := by
    simp [WithFaults.updateProgressAfterScan, progressReadFault]
  have h2 : FIRST_SCAN ∈ (updateProgressAfterScan plasticScan ⟨43200000⟩
      (initializeAchievements Storage.empty)).1 := by
    have h := first_scan_returned plasticScan ⟨43200000⟩
    rwa [updateProgressAfterScan_none plasticScan ⟨43200000⟩ Storage.empty rfl] at h
  refine ⟨h1, h2, ?_⟩
  rw [h1]
  intro heq
  have h3 : ([] : List Achievement)
      = (updateProgressAfterScan plasticScan ⟨43200000⟩
          (initializeAchievements Storage.empty)).1 :=
    congrArg Prod.fst (Option.some.inj heq)
  rw [← h3] at h2
  cases h2

/-- C27 amended: if reading the persisted UserProgress fails, `updateProgressAfterScan` never
raises: it returns the empty list and leaves the store as it was, so the scan is not counted.
A progress record that is merely missing (the read succeeds and finds nothing) is treated as
freshly initialized: the result is that of the same scan on the initialized store, and in an
empty namespace `first_scan` is returned. -/
theorem C27_read_failure_returns_empty (scan : ScanResult) (now : JsDate) (fuel : Nat)
    (s : Storage) :
    (∀ faults : EngineFaults, faults.progressRead = true →
      WithFaults.updateProgressAfterScan faults scan now (fuel + 1) s = some ([], s))
    ∧ (s.progress = none →
        WithFaults.updateProgressAfterScan EngineFaults.none scan now (fuel + 2) s
          = some (updateProgressAfterScan scan now (initializeAchievements s)))
    ∧ (∃ r, WithFaults.updateProgressAfterScan EngineFaults.none scan now (fuel + 2)
          Storage.empty = some r ∧ FIRST_SCAN ∈ r.1) := by
  refine ⟨?_, ?_, ?_⟩
  · intro faults hf
    simp [WithFaults.updateProgressAfterScan, hf]
  · intro hp
    rw [withFaults_scan_none, updateProgressAfterScan_none scan now s hp]
  · exact ⟨_, withFaults_scan_none scan now fuel Storage.empty, first_scan_returned scan now⟩

/-- C27 amended, at concrete inputs. -/
theorem C27_read_failure_returns_empty_witness :
    WithFaults.updateProgressAfterScan progressReadFault plasticScan ⟨43200000⟩ 1 threeDayStore
        = some ([], threeDayStore)
    ∧ WithFaults.updateProgressAfterScan EngineFaults.none plasticScan ⟨43200000⟩ 2
        Storage.empty
        = some (updateProgressAfterScan plasticScan ⟨43200000⟩
            (initializeAchievements Storage.empty)) :=
  ⟨(C27_read_failure_returns_empty plasticScan ⟨43200000⟩ 0 threeDayStore).1
      progressReadFault rfl,
    (C27_read_failure_returns_empty plasticScan ⟨43200000⟩ 0 Storage.empty).2.1 rfl⟩

/-! ## C30 -/

theorem withFaults_write_fault_diverges (scan : ScanResult) (now : JsDate) (fuel : Nat) :
    ∀ s : Storage, s.progress = none →
      WithFaults.updateProgressAfterScan writeFault scan now fuel s = none := by
  induction fuel with
  | zero => intro s _; rfl
  | succ k ih =>
    intro s hp
    have hinit : WithFaults.initializeAchievements writeFault s = s := by
      simp [WithFaults.initializeAchievements, writeFault, hp]
    simp only [WithFaults.updateProgressAfterScan, writeFault, hp, Bool.false_eq_true, if_false]
    have := ih s hp
    simp only [writeFault] at this hinit
    rw [hinit]
    exact this

/-- While the read of the points ledger in `initializeAchievements` rejects, nothing is
written, and a call that finds no progress record keeps calling itself. -/
theorem withFaults_points_read_fault_diverges (scan : ScanResult) (now : JsDate) (fuel : Nat) :
    ∀ s : Storage, s.progress = none →
      WithFaults.updateProgressAfterScan pointsReadFault scan now fuel s = none := by
  induction fuel with
  | zero => intro s _; rfl
  | succ k ih =>
    intro s hp
    have hinit : WithFaults.initializeAchievements pointsReadFault s = s := by
      simp [WithFaults.initializeAchievements, pointsReadFault]
    simp only [WithFaults.updateProgressAfterScan, pointsReadFault, hp, Bool.false_eq_true,
      if_false]
    have := ih s hp
    simp only [pointsReadFault] at this hinit
    rw [hinit]
    exact this

theorem engineFaults_none_of_flags (faults : EngineFaults)
    (hreads : faults.progressRead = false ∧ faults.initProgressRead = false
      ∧ faults.initPointsRead = false)
    (hwrites : faults.writes = false) : faults = EngineFaults.none := by
  obtain ⟨a, b, c, d⟩ := faults
  obtain ⟨h1, h2, h3⟩ := hreads
  simp only at h1 h2 h3 hwrites
  subst h1 h2 h3 hwrites
  rfl

/-- C30 as stated fails: every write succeeds, the namespace is empty, and the read of the
points ledger inside `initializeAchievements` rejects. The rejection is caught before the
initial progress is written, so the store stays empty, the nested call finds no record
either, and no bound on the number of nested calls is enough. -/
theorem C30_counterexample :
    pointsReadFault.writes = false
    ∧ Storage.empty.progress = none
    ∧ WithFaults.initializeAchievements pointsReadFault Storage.empty = Storage.empty
    ∧ (∀ fuel, WithFaults.updateProgressAfterScan pointsReadFault plasticScan ⟨43200000⟩ fuel
        Storage.empty = none) :=
  ⟨rfl, rfl, rfl,
    fun fuel => withFaults_points_read_fault_diverges plasticScan ⟨43200000⟩ fuel
      Storage.empty rfl⟩

/-- C30 amended: while the store's reads and writes succeed, `updateProgressAfterScan`
terminates for every store state with at most one nested call: a bound of two calls always
gives its result; with a progress record stored one call is enough; with none stored the single
call initializes the record and makes exactly one nested call, which finds it. When every
write rejects and no record is stored, no bound is enough. -/
theorem C30_updateProgressAfterScan_terminates (faults : EngineFaults) (scan : ScanResult)
    (now : JsDate) (s : Storage)
    (hreads : faults.progressRead = false ∧ faults.initProgressRead = false
      ∧ faults.initPointsRead = false)
    (hwrites : faults.writes = false) :
    (∀ fuel, WithFaults.updateProgressAfterScan faults scan now (fuel + 2) s
        = some (updateProgressAfterScan scan now s))
    ∧ (s.progress ≠ none →
        WithFaults.updateProgressAfterScan faults scan now 1 s
          = some (updateProgressAfterScan scan now s))
    ∧ (s.progress = none →
        WithFaults.updateProgressAfterScan faults scan now 1 s = none
        ∧ (WithFaults.initializeAchievements faults s).progress ≠ none)
    ∧ (s.progress = none →
        ∀ fuel, WithFaults.updateProgressAfterScan writeFault scan now fuel s = none) := by
  rw [engineFaults_none_of_flags faults hreads hwrites]
  refine ⟨fun fuel => withFaults_scan_none scan now fuel s, ?_, ?_, ?_⟩
  · intro hp
    cases hq : s.progress with
    | none => exact absurd hq hp
    | some p =>
      rw [updateProgressAfterScan_some scan now s p hq]
      simp [WithFaults.updateProgressAfterScan, EngineFaults.none, hq]
  · intro hp
    constructor
    · simp [WithFaults.updateProgressAfterScan, EngineFaults.none, hp]
    · rw [withFaults_initialize_none, initializeAchievements_progress_none s hp]
      simp
  · intro hp fuel
    exact withFaults_write_fault_diverges scan now fuel s hp

/-- C30 amended, at concrete inputs with no rejected operation: a stored record needs one
call, an empty namespace two. -/
theorem C30_updateProgressAfterScan_terminates_witness :
    WithFaults.updateProgressAfterScan EngineFaults.none plasticScan ⟨43200000⟩ 1 threeDayStore
        = some (updateProgressAfterScan plasticScan ⟨43200000⟩ threeDayStore)
    ∧ WithFaults.updateProgressAfterScan EngineFaults.none plasticScan ⟨43200000⟩ 1
        Storage.empty = none
    ∧ WithFaults.updateProgressAfterScan EngineFaults.none plasticScan ⟨43200000⟩ 2
        Storage.empty = some (updateProgressAfterScan plasticScan ⟨43200000⟩ Storage.empty) :=
  ⟨(C30_updateProgressAfterScan_terminates EngineFaults.none plasticScan ⟨43200000⟩
      threeDayStore ⟨rfl, rfl, rfl⟩ rfl).2.1 (by simp [threeDayStore]),
    ((C30_updateProgressAfterScan_terminates EngineFaults.none plasticScan ⟨43200000⟩
      Storage.empty ⟨rfl, rfl, rfl⟩ rfl).2.2.1 rfl).1,
    (C30_updateProgressAfterScan_terminates EngineFaults.none plasticScan ⟨43200000⟩
      Storage.empty ⟨rfl, rfl, rfl⟩ rfl).1 0⟩

/-! ## C28 -/

theorem dashboardWeight_eq_merged (u : Option ServerStats) (l : Stats) :
    dashboardWeight u l = (DashboardScreen.mergedStats none u (some l)).totalKg := by
  have h0 : normalizeWeight (some (ServerStats.weight none)) (ServerStats.items none) = 0 := by
    norm_num [normalizeWeight, toFixed1, ServerStats.weight, ServerStats.items, orZero,
      orZeroNat]
  have h1 : (0 : ℚ) ≤ toFixed1 ((l.totalItemsScanned : ℚ) * (1 / 10)) := by
    rw [toFixed1_tenths]
    positivity
  simp only [dashboardWeight, DashboardScreen.mergedStats, h0, localEstimateTotalWeight,
    localItems, orZeroNat, Option.map_some', Option.getD_some]
  rcases le_total (normalizeWeight (some (ServerStats.weight u)) (ServerStats.items u)) 0
    with h | h
  · rw [max_eq_left h, max_eq_right (le_trans h h1), max_eq_right h1]
  · rw [max_eq_right h]

/-- The double product `n * 0.1`: it is not negative, at most `n / 5`, and at most `n / 2^55`
away from `n / 10`. -/
theorem double_product_bounds (n : Nat) :
    0 ≤ roundToDouble ((n : ℚ) * roundToDouble (1 / 10))
    ∧ roundToDouble ((n : ℚ) * roundToDouble (1 / 10)) ≤ (n : ℚ) / 5
    ∧ |roundToDouble ((n : ℚ) * roundToDouble (1 / 10)) - (n : ℚ) / 10| ≤ (n : ℚ) / 2 ^ 55 := by
  have hn0 : (0 : ℚ) ≤ (n : ℚ) := Nat.cast_nonneg n
  have hp : (0 : ℚ) ≤ (n : ℚ) * roundToDouble (1 / 10) :=
    mul_nonneg hn0 (roundToDouble_nonneg _ (by norm_num))
  have herr := roundToDouble_error ((n : ℚ) * roundToDouble (1 / 10))
  rw [abs_of_nonneg hp, abs_le] at herr
  refine ⟨roundToDouble_nonneg _ hp, ?_, ?_⟩
  · rw [double_of_tenth] at herr ⊢
    linarith [herr.2]
  · rw [double_of_tenth] at herr ⊢
    rw [abs_le]
    constructor
    · linarith [herr.1]
    · linarith [herr.2]

/-- With no positive weight and no more items in the user object than in the local aggregate,
`updateUserWithLocalStats` keeps the double product. -/
theorem authContext_weight_is_product (u : Option ServerStats) (l : Stats)
    (hw : ServerStats.weight u ≤ 0) (hi : ServerStats.items u ≤ l.totalItemsScanned) :
    AuthContext.totalWeight u l
      = roundToDouble ((l.totalItemsScanned : ℚ) * roundToDouble (1 / 10)) := by
  obtain ⟨h0, h5, _⟩ := double_product_bounds l.totalItemsScanned
  have hmax : max (ServerStats.weight u)
      (roundToDouble ((l.totalItemsScanned : ℚ) * roundToDouble (1 / 10)))
      = roundToDouble ((l.totalItemsScanned : ℚ) * roundToDouble (1 / 10)) :=
    max_eq_right (le_trans hw h0)
  simp only [AuthContext.totalWeight, hmax, max_eq_right hi]
  have hnot : ¬ (roundToDouble ((l.totalItemsScanned : ℚ) * roundToDouble (1 / 10)) > 10
      ∧ l.totalItemsScanned ≤ 10) := by
    rintro ⟨h1, h2⟩
    have h3 : (l.totalItemsScanned : ℚ) ≤ 10 := by exact_mod_cast h2
    linarith
  rw [if_neg hnot]

theorem three_items_weights :
    dashboardWeight (some userThreeItems) localExample = 1 / 2
    ∧ HomeScreen.totalWeight (some userThreeItems) (some localExample) = 40
    ∧ AuthContext.totalWeight (some userThreeItems) localExample = 0 := by
  have hi : ServerStats.items (some userThreeItems) = 3 := rfl
  have hw : ServerStats.weight (some userThreeItems) = 40 := rfl
  have hl : localExample.totalItemsScanned = 5 := rfl
  have hg : normalizeWeight (some 40) 3 = 0 := by
    rw [normalizeWeight_grams_near 40 3 0 (by norm_num)
      (by rw [abs_le]; constructor <;> norm_num) (by norm_num)]
    norm_num
  refine ⟨?_, ?_, ?_⟩
  · simp only [dashboardWeight, hi, hw, hl, hg]
    norm_num [toFixed1]
  · simp only [HomeScreen.totalWeight, calculateTotalWeight, hi, hw, hl]
    norm_num [normalizeWeight, toFixed1]
  · obtain ⟨h0, h5, _⟩ := double_product_bounds 5
    have hmax : max (40 : ℚ) (roundToDouble (((5 : Nat) : ℚ) * roundToDouble (1 / 10))) = 40 :=
      max_eq_left (by norm_num at h5; linarith)
    simp only [AuthContext.totalWeight, hi, hw, hl, hmax]
    rw [if_pos (by norm_num)]
    have hy := roundToDouble_error (40 / 1000)
    rw [abs_of_nonneg (by norm_num : (0 : ℚ) ≤ 40 / 1000), abs_le] at hy
    have := toFixed1_of_near (roundToDouble (40 / 1000)) 0
      (roundToDouble_nonneg _ (by norm_num)) (by
        rw [abs_lt]
        norm_num at hy ⊢
        constructor <;> linarith [hy.1, hy.2])
    rw [this]
    norm_num

theorem three_local_items_weights :
    dashboardWeight (some userExample) localThree = 3 / 10
    ∧ AuthContext.totalWeight (some userExample) localThree = 5404319552844596 / 2 ^ 54 := by
  have hw : ServerStats.weight (some userExample) = 0 := rfl
  have hi : ServerStats.items (some userExample) = 0 := rfl
  have hl : localThree.totalItemsScanned = 3 := rfl
  constructor
  · simp only [dashboardWeight, hw, hi, hl, toFixed1_tenths]
    norm_num [normalizeWeight, toFixed1]
  · rw [authContext_weight_is_product _ _ (by rw [hw]) (by rw [hi]; exact Nat.zero_le _), hl]
    exact double_of_three_tenths

/-- C28 as stated fails, in two ways. The user object has 3 items and total weight 40, the
local aggregate 5 items: the Dashboard formula gives `max(normalizeWeight(40, 3), 0.5) = 0.5`,
`loadLocalStats` normalizes with the merged count 5 and gives 40, `updateUserWithLocalStats`
divides the maximum 40 by 1000 and gives 0. And with a user object of zeros and 3 local items
the Dashboard formula gives 0.3, while `updateUserWithLocalStats` keeps the unrounded double
product `3 * 0.1 = 0.30000000000000004`. -/
theorem C28_counterexample :
    (DashboardScreen.mergedStats none (some userThreeItems) (some localExample)).totalKg = 1 / 2
    ∧ HomeScreen.totalWeight (some userThreeItems) (some localExample)
        ≠ dashboardWeight (some userThreeItems) localExample
    ∧ AuthContext.totalWeight (some userThreeItems) localExample
        ≠ dashboardWeight (some userThreeItems) localExample
    ∧ dashboardWeight (some userExample) localThree = 3 / 10
    ∧ AuthContext.totalWeight (some userExample) localThree = 5404319552844596 / 2 ^ 54
    ∧ AuthContext.totalWeight (some userExample) localThree
        ≠ dashboardWeight (some userExample) localThree := by
  obtain ⟨h1, h2, h3⟩ := three_items_weights
  obtain ⟨h4, h5⟩ := three_local_items_weights
  rw [← dashboardWeight_eq_merged, h1, h2, h3, h4, h5]
  norm_num

/-- C28 amended: `loadLocalStats` computes the larger of the user weight normalized with the
merged item count (the maximum of the user's and the local count) and 0.1 per merged item,
rounded; `updateUserWithLocalStats` computes the larger of the raw user weight and the double
product of the local count and 0.1, divided by 1000 and rounded when it exceeds 10 while the
merged item count is at most 10. Whenever the user object reports no positive weight and no
more items than the local aggregate, `loadLocalStats` agrees with the Dashboard formula, which
gives 0.1 per local item, and `updateUserWithLocalStats` gives the unrounded double product,
which is at most `count / 2^55` away from the Dashboard value and, for a count up to `10^15`,
equals it once rounded to one decimal. -/
theorem C28_three_sites (u : Option ServerStats) (l : Stats) :
    HomeScreen.totalWeight u (some l)
        = max (normalizeWeight (some (ServerStats.weight u))
                (max (ServerStats.items u) l.totalItemsScanned))
              (toFixed1 (((max (ServerStats.items u) l.totalItemsScanned : Nat) : ℚ) * (1 / 10)))
    ∧ AuthContext.totalWeight u l
        = (if max (ServerStats.weight u)
                (roundToDouble ((l.totalItemsScanned : ℚ) * roundToDouble (1 / 10))) > 10
              ∧ max (ServerStats.items u) l.totalItemsScanned ≤ 10
            then toFixed1 (roundToDouble (max (ServerStats.weight u)
                (roundToDouble ((l.totalItemsScanned : ℚ) * roundToDouble (1 / 10))) / 1000))
            else max (ServerStats.weight u)
                (roundToDouble ((l.totalItemsScanned : ℚ) * roundToDouble (1 / 10))))
    ∧ (ServerStats.weight u ≤ 0 → ServerStats.items u ≤ l.totalItemsScanned →
        HomeScreen.totalWeight u (some l) = dashboardWeight u l
        ∧ dashboardWeight u l = (l.totalItemsScanned : ℚ) / 10
        ∧ AuthContext.totalWeight u l
            = roundToDouble ((l.totalItemsScanned : ℚ) * roundToDouble (1 / 10))
        ∧ |AuthContext.totalWeight u l - dashboardWeight u l|
            ≤ (l.totalItemsScanned : ℚ) / 2 ^ 55
        ∧ (l.totalItemsScanned ≤ 10 ^ 15 →
            toFixed1 (AuthContext.totalWeight u l) = dashboardWeight u l)) := by
  refine ⟨rfl, rfl, ?_⟩
  intro hw hi
  have hn : (0 : ℚ) ≤ (l.totalItemsScanned : ℚ) := Nat.cast_nonneg _
  have hd : dashboardWeight u l = (l.totalItemsScanned : ℚ) / 10 := by
    simp only [dashboardWeight, toFixed1_tenths]
    exact max_eq_right (le_trans (normalizeWeight_nonpos _ _ hw) (by positivity))
  have ha := authContext_weight_is_product u l hw hi
  refine ⟨?_, hd, ha, ?_, ?_⟩
  · rw [hd]
    simp only [HomeScreen.totalWeight, calculateTotalWeight, max_eq_right hi, toFixed1_tenths]
    exact max_eq_right (le_trans (normalizeWeight_nonpos _ _ hw) (by positivity))
  · rw [ha, hd]
    exact (double_product_bounds _).2.2
  · intro hb
    rw [ha, hd]
    exact tenths_product _ hb

/-- C28 amended, at concrete inputs: with a user object of zeros and 3 local items,
`loadLocalStats` and the Dashboard formula give 0.3, and the value of
`updateUserWithLocalStats` rounded to one decimal is 0.3. -/
theorem C28_three_sites_witness :
    HomeScreen.totalWeight (some userExample) (some localThree)
        = dashboardWeight (some userExample) localThree
    ∧ dashboardWeight (some userExample) localThree = (localThree.totalItemsScanned : ℚ) / 10
    ∧ toFixed1 (AuthContext.totalWeight (some userExample) localThree)
        = dashboardWeight (some userExample) localThree :=
  have h := (C28_three_sites (some userExample) localThree).2.2
    (by simp [ServerStats.weight, userExample, orZero])
    (by decide)
  ⟨h.1, h.2.1, h.2.2.2.2 (by norm_num [localThree])⟩

/-! ## C29 -/

theorem awardPoints_storedPoints (points : Nat) (achievementId : String) (now : JsDate)
    (s : Storage) :
    storedPoints (awardPoints points achievementId now s)
      = { total := (storedPoints s).total + points,
          earned := (storedPoints s).earned
            ++ [{ points := points, achievementId := achievementId, timestamp := now }] } := rfl

theorem foldl_award_storedPoints (now : JsDate) (l : List Achievement) :
    ∀ s : Storage,
      storedPoints (l.foldl (fun acc a => awardPoints a.points a.id now acc) s)
        = { total := (storedPoints s).total + (l.map Achievement.points).sum,
            earned := (storedPoints s).earned
              ++ l.map (fun a => { points := a.points, achievementId := a.id,
                                   timestamp := now }) } := by
  induction l with
  | nil => intro s; simp
  | cons a rest ih =>
    intro s
    rw [List.foldl_cons, ih, awardPoints_storedPoints]
    simp [Nat.add_assoc]

theorem awardAll_storedPoints (awards : List Award) :
    ∀ s : Storage,
      storedPoints (awardAll awards s)
        = { total := (storedPoints s).total + (awards.map Award.points).sum,
            earned := (storedPoints s).earned ++ awards.map Award.entry } := by
  induction awards with
  | nil => intro s; simp [awardAll]
  | cons a rest ih =>
    intro s
    have hfold : awardAll (a :: rest) s
        = awardAll rest (awardPoints a.points a.achievementId a.now s) := rfl
    rw [hfold, ih, awardPoints_storedPoints]
    simp [Nat.add_assoc, Award.entry]

theorem storedPoints_fresh_ledger (s : Storage) :
    storedPoints (initializeAchievements s) = storedPoints s := by
  obtain ⟨progress, points, history, stats⟩ := s
  cases progress <;> cases points <;> rfl

theorem storedPoints_setProgress (s : Storage) (x : Option Progress) :
    storedPoints { s with progress := x } = storedPoints s := rfl

/-- What one `updateProgressAfterScan` call does to the ledger: one entry for each returned
achievement, in order, and their points added to the total. -/
theorem scan_step_points (scan : ScanResult) (now : JsDate) (s : Storage) :
    storedPoints (updateProgressAfterScan scan now s).2
      = { total := (storedPoints s).total
            + ((updateProgressAfterScan scan now s).1.map Achievement.points).sum,
          earned := (storedPoints s).earned
            ++ (updateProgressAfterScan scan now s).1.map
                (fun a => { points := a.points, achievementId := a.id, timestamp := now }) } := by
  have key : ∀ (s : Storage) (p : Progress), s.progress = some p →
      storedPoints (updateProgressAfterScan scan now s).2
        = { total := (storedPoints s).total
              + ((updateProgressAfterScan scan now s).1.map Achievement.points).sum,
            earned := (storedPoints s).earned
              ++ (updateProgressAfterScan scan now s).1.map
                  (fun a => { points := a.points, achievementId := a.id,
                              timestamp := now }) } := by
    intro s p hp
    rw [updateProgressAfterScan_some scan now s p hp]
    simp only []
    rw [storedPoints_setProgress, checkAchievements_newlyUnlocked, checkAchievements_storage]
    exact foldl_award_storedPoints now _ s
  cases h : s.progress with
  | some p => exact key s p h
  | none =>
    rw [updateProgressAfterScan_none scan now s h]
    have := key (initializeAchievements s) freshProgress
      (initializeAchievements_progress_none s h)
    rw [storedPoints_fresh_ledger] at this
    exact this

theorem scan_returns_catalog (scan : ScanResult) (now : JsDate) (s : Storage) :
    ∀ a ∈ (updateProgressAfterScan scan now s).1, pointsOfId a.id = a.points := by
  have hcat : ∀ a ∈ ACHIEVEMENTS, pointsOfId a.id = a.points := by
    intro a ha
    simp [pointsOfId, catalog_find a ha]
  have key : ∀ (s : Storage) (p : Progress), s.progress = some p →
      ∀ a ∈ (updateProgressAfterScan scan now s).1, a ∈ ACHIEVEMENTS := by
    intro s p hp a ha
    rw [updateProgressAfterScan_some scan now s p hp] at ha
    simp only [] at ha
    rw [checkAchievements_newlyUnlocked] at ha
    exact (List.mem_filter.mp ha).1
  intro a ha
  apply hcat
  cases h : s.progress with
  | some p => exact key s p h a ha
  | none =>
    rw [updateProgressAfterScan_none scan now s h] at ha
    exact key _ freshProgress (initializeAchievements_progress_none s h) a ha

/-- Over scans the ledger and the unlocked set move together: the award entries carry the
unlocked ids in order, each with the catalog points of its id, and the total is their sum. -/
theorem scans_keep_ledger_in_step (calls : List (ScanResult × JsDate)) :
    ∀ s : Storage,
      (storedPoints s).total = ((storedPoints s).earned.map PointsEntry.points).sum →
      (storedPoints s).earned.map PointsEntry.achievementId = unlockedIds s →
      (∀ e ∈ (storedPoints s).earned, e.points = pointsOfId e.achievementId) →
      (storedPoints (runCalls (scanCalls calls) s)).total
          = ((storedPoints (runCalls (scanCalls calls) s)).earned.map PointsEntry.points).sum
        ∧ (storedPoints (runCalls (scanCalls calls) s)).earned.map PointsEntry.achievementId
          = unlockedIds (runCalls (scanCalls calls) s)
        ∧ ∀ e ∈ (storedPoints (runCalls (scanCalls calls) s)).earned,
            e.points = pointsOfId e.achievementId := by
  induction calls with
  | nil => intro s h1 h2 h3; exact ⟨h1, h2, h3⟩
  | cons c rest ih =>
    intro s h1 h2 h3
    have hrun : runCalls (scanCalls (c :: rest)) s
        = runCalls (scanCalls rest) (updateProgressAfterScan c.1 c.2 s).2 := rfl
    rw [hrun]
    have hp := scan_step_points c.1 c.2 s
    have hu := (scan_step_unlocked c.1 c.2 s).1
    have hc := scan_returns_catalog c.1 c.2 s
    apply ih
    · rw [hp]
      simp [h1, Function.comp_def]
    · rw [hp, hu]
      simp [h2, Function.comp_def]
    · intro e he
      rw [hp] at he
      simp only [List.mem_append, List.mem_map] at he
      rcases he with he | ⟨a, ha, rfl⟩
      · exact h3 e he
      · exact (hc a ha).symm

/-- C29: in every state reached from a freshly initialized namespace by `awardPoints` calls
the ledger total is the sum of the points of its award entries and the entries are those of
the calls in order; each `awardPoints` call appends exactly one entry at the end, keeps the
earlier entries and adds its points to the total; `checkAchievements` changes the ledger
only by such calls, one for each returned achievement; and after any sequence of scans the
total is the sum of the catalog point values of the ids in the unlocked set. -/
theorem C29_ledger_total_is_sum :
    (∀ awards : List Award,
      (storedPoints (awardAll awards (initializeAchievements Storage.empty))).total
          = ((storedPoints (awardAll awards
              (initializeAchievements Storage.empty))).earned.map PointsEntry.points).sum
      ∧ (storedPoints (awardAll awards (initializeAchievements Storage.empty))).earned
          = awards.map Award.entry)
    ∧ (∀ (points : Nat) (achievementId : String) (now : JsDate) (s : Storage),
        (storedPoints (awardPoints points achievementId now s)).earned
            = (storedPoints s).earned
              ++ [{ points := points, achievementId := achievementId, timestamp := now }]
        ∧ (storedPoints (awardPoints points achievementId now s)).total
            = (storedPoints s).total + points)
    ∧ (∀ (p : Progress) (now : JsDate) (s : Storage),
        (checkAchievements p now s).storage
          = awardAll ((checkAchievements p now s).newlyUnlocked.map
              (fun a => { points := a.points, achievementId := a.id, now := now })) s)
    ∧ (∀ calls : List (ScanResult × JsDate),
        (storedPoints (runCalls (scanCalls calls) (initializeAchievements Storage.empty))).total
          = ((unlockedIds (runCalls (scanCalls calls)
              (initializeAchievements Storage.empty))).map pointsOfId).sum) := by
  refine ⟨?_, ?_, ?_, ?_⟩
  · intro awards
    rw [awardAll_storedPoints]
    have h0 : storedPoints (initializeAchievements Storage.empty)
        = { total := 0, earned := [] } := rfl
    rw [h0]
    constructor
    · simp only [Nat.zero_add, List.nil_append, List.map_map]
      rfl
    · simp
  · intro points achievementId now s
    rw [awardPoints_storedPoints]
    exact ⟨rfl, rfl⟩
  · intro p now s
    rw [checkAchievements_storage, checkAchievements_newlyUnlocked, awardAll, List.foldl_map]
  · intro calls
    obtain ⟨h1, h2, h3⟩ := scans_keep_ledger_in_step calls
      (initializeAchievements Storage.empty) rfl rfl (by intro e he; cases he)
    rw [h1, ← h2, List.map_map]
    apply congrArg
    apply List.map_congr_left
    intro e he
    exact h3 e he

end EcoEcho
